import Mathlib

/-!
The btsnoop capture-file codec of `monitor/btsnoop.c`

A shallow embedding of `btsnoop_create`, `do_write`, `btsnoop_write`,
`btsnoop_open`, `btsnoop_read` and `btsnoop_close`, with the three file-scope
variables of the C file and the one file descriptor they own made an explicit
state.

Conventions of the embedding:

* the host is little-endian (x86, ARM Linux): a `uint32_t` lies in memory least
  significant byte first and `ntohl`/`htonl` reverse the four bytes;
* `time_t` and `suseconds_t` are 64-bit signed, `int` is 32-bit; signed
  arithmetic that is stored in a `uint64_t` is taken modulo `2^64`;
* what the kernel answers to `open`, `read` and `write` is an argument of the
  function that makes the call;
* `packet_get_flags` and `packet_get_opcode` live in `packet.c`; the codec only
  calls them, so they are arguments (`Packet`).
-/

namespace Btsnoop

/-! ## Bytes and byte order -/

/-- One octet of memory or of a file. -/
abbrev Byte := Fin 256

/-- Truncation of an integer to one octet. -/
def byte (n : Nat) : Byte := ⟨n % 256, Nat.mod_lt n (by decide)⟩

/-- The object representation of a `uint32_t` on the little-endian host. -/
def store32 (v : Nat) : List Byte :=
  [byte v, byte (v / 256), byte (v / 65536), byte (v / 16777216)]

/-- The object representation of a `uint64_t` on the little-endian host. -/
def store64 (v : Nat) : List Byte :=
  store32 v ++ store32 (v / 4294967296)

/-- The value of a `uint32_t` whose object representation is the four bytes of `b`
starting at `i`. -/
def load32 (b : List Byte) (i : Nat) : Nat :=
  (b.getD i 0).val + 256 * (b.getD (i + 1) 0).val + 65536 * (b.getD (i + 2) 0).val
    + 16777216 * (b.getD (i + 3) 0).val

/-- The value of a `uint64_t` whose object representation is the eight bytes of `b`
starting at `i`. -/
def load64 (b : List Byte) (i : Nat) : Nat :=
  load32 b i + 4294967296 * load32 b (i + 4)

/-- The libc `ntohl` on the little-endian host: the argument is converted to
`uint32_t` and its four bytes are reversed. -/
def ntohl (n : Nat) : Nat :=
  let x := n % 4294967296
  (x % 256) * 16777216 + (x / 256 % 256) * 65536 + (x / 65536 % 256) * 256 + x / 16777216

/-- The libc `htonl`, the same byte reversal. -/
def htonl (n : Nat) : Nat := ntohl n

/-- `ntoh64` of btsnoop.c (lines 41-50), on a `uint64_t` argument. -/
def ntoh64 (n : Nat) : Nat :=
  let tmp := ntohl (n &&& 0x00000000ffffffff)
  let h := ntohl (n >>> 32)
  h ||| (tmp <<< 32)

/-- `hton64` of btsnoop.c (line 52) is the macro `ntoh64`. -/
def hton64 (x : Nat) : Nat := ntoh64 x

/-- Reference big-endian encoding of a 32-bit value: most significant byte first. -/
def be32 (v : Nat) : List Byte :=
  [byte (v / 16777216), byte (v / 65536), byte (v / 256), byte v]

/-- Reference big-endian encoding of a 64-bit value: most significant byte first. -/
def be64 (v : Nat) : List Byte :=
  be32 (v / 4294967296) ++ be32 v

/-- Reference big-endian decoding of the four bytes of `b` starting at `i`. -/
def be32dec (b : List Byte) (i : Nat) : Nat :=
  16777216 * (b.getD i 0).val + 65536 * (b.getD (i + 1) 0).val + 256 * (b.getD (i + 2) 0).val
    + (b.getD (i + 3) 0).val

/-- Reference big-endian decoding of the eight bytes of `b` starting at `i`. -/
def be64dec (b : List Byte) (i : Nat) : Nat :=
  4294967296 * be32dec b i + be32dec b (i + 4)

/-! ## Time stamps -/

/-- A `struct timeval`. -/
structure Timeval where
  tv_sec : Int
  tv_usec : Int
deriving DecidableEq, Repr

/-- Conversion of a signed integer to `uint64_t`. -/
def toU64 (z : Int) : Nat := (z % 18446744073709551616).toNat

/-- The `uint64_t ts` of `do_write` (line 114). -/
def do_write_ts (tv : Timeval) : Nat :=
  toU64 ((tv.tv_sec - 946684800) * 1000000 + tv.tv_usec)

/-- The argument of `hton64` in `do_write` (line 120): `ts + 0x00E03AB44A676000ll`
in `uint64_t` arithmetic, with `ts` of line 114. -/
def do_write_stamp (tv : Timeval) : Nat :=
  (do_write_ts tv + 0x00E03AB44A676000) % 18446744073709551616

/-- The `uint64_t ts` of `btsnoop_read` (line 248) from the host-order field value:
`x - 0x00E03AB44A676000ll` in `uint64_t` arithmetic. -/
def read_ts (x : Nat) : Nat :=
  (x % 18446744073709551616 + (18446744073709551616 - 0x00E03AB44A676000))
    % 18446744073709551616

/-- The `struct timeval` that `btsnoop_read` stores (lines 249-250): an unsigned
division and remainder of `ts`; both results are below `2^63`. -/
def read_tv (ts : Nat) : Timeval :=
  { tv_sec := ((ts / 1000000 + 946684800 : Nat) : Int)
    tv_usec := ((ts % 1000000 : Nat) : Int) }

/-! ## On-disk structures -/

/-- `struct btsnoop_pkt` (lines 61-68) without its zero-length `data` member: the
five fields as the values held in memory. -/
structure btsnoop_pkt where
  size : Nat
  len : Nat
  flags : Nat
  drops : Nat
  ts : Nat
deriving DecidableEq, Repr

/-- `BTSNOOP_HDR_SIZE`, the size of the packed `struct btsnoop_hdr`. -/
def BTSNOOP_HDR_SIZE : Nat := 16

/-- `BTSNOOP_PKT_SIZE`, the size of the packed `struct btsnoop_pkt`. -/
def BTSNOOP_PKT_SIZE : Nat := 24

/-- The 24 bytes of memory that a packed `struct btsnoop_pkt` occupies. -/
def btsnoop_pkt.bytes (p : btsnoop_pkt) : List Byte :=
  store32 p.size ++ store32 p.len ++ store32 p.flags ++ store32 p.drops ++ store64 p.ts

/-- The `struct btsnoop_pkt` whose memory holds the 24 bytes `b`. -/
def btsnoop_pkt.ofBytes (b : List Byte) : btsnoop_pkt :=
  { size := load32 b 0, len := load32 b 4, flags := load32 b 8, drops := load32 b 12,
    ts := load64 b 16 }

/-- `btsnoop_id` (lines 71-72). -/
def btsnoop_id : List Byte := [0x62, 0x74, 0x73, 0x6e, 0x6f, 0x6f, 0x70, 0x00]

/-- `btsnoop_version` (line 74). -/
def btsnoop_version : Nat := 1

/-! ## State: the file-scope variables and the descriptor they own -/

/-- The kernel side of an open descriptor: its number, its access mode
(`O_WRONLY` when `wronly`, else `O_RDONLY`) and its file offset. -/
structure Desc where
  fd : Nat
  wronly : Bool
  offset : Nat
deriving DecidableEq, Repr

/-- The codec state: `btsnoop_type`, `btsnoop_fd`, `btsnoop_index` (lines 75-78),
the display switch that `btsnoop_open` sets in packet.c, the descriptor the codec
has open (if any) and the bytes of the file it was opened on. -/
structure State where
  btsnoop_type : Nat
  btsnoop_fd : Int
  btsnoop_index : Nat
  show_index : Bool
  desc : Option Desc
  file : List Byte
deriving DecidableEq, Repr

/-- The state at program start (initialisers of lines 75-78), no file opened yet. -/
def State.init : State :=
  { btsnoop_type := 0, btsnoop_fd := -1, btsnoop_index := 0xffff, show_index := false,
    desc := none, file := [] }

/-- Modelled from the spec: `packet_add_filter(PACKET_FILTER_SHOW_INDEX)` of packet.c,
which is not part of these sources; it enables the display of the source index. -/
def packet_add_filter_show_index (s : State) : State := { s with show_index := true }

/-- Modelled from the spec: `packet_del_filter(PACKET_FILTER_SHOW_INDEX)` of packet.c,
which is not part of these sources; it suppresses the display of the source index. -/
def packet_del_filter_show_index (s : State) : State := { s with show_index := false }

/-- The two functions of packet.c that the codec calls: `packet_get_flags(opcode)`
(a `uint32_t`) and `packet_get_opcode(type, flags)` (a `uint16_t`). -/
structure Packet where
  packet_get_flags : Nat → Nat
  packet_get_opcode : Nat → Nat → Nat

/-! ## System calls -/

/-- The call `read(fd, buf, count)` on a regular file. It fails (`-1`) when `fail`
is set, when `fd` is not the open descriptor or when that descriptor is write-only;
otherwise it transfers the bytes from the file offset on, at most `count` of them,
and advances the offset. Result: return value, bytes transferred, new state. -/
def sys_read (s : State) (fd : Int) (count : Nat) (fail : Bool) : Int × List Byte × State :=
  match s.desc with
  | none => (-1, [], s)
  | some d =>
    if fail = true ∨ d.wronly = true ∨ (d.fd : Int) ≠ fd then (-1, [], s)
    else
      let got := (s.file.drop d.offset).take count
      ((got.length : Int), got, { s with desc := some { d with offset := d.offset + got.length } })

/-- The call `write(fd, buf, count)` with `buf` the `count` bytes to write. The
kernel's answer `w` is `none` for a failure and `some k` when it accepts at most `k`
bytes. It also fails when `fd` is not the open descriptor or that descriptor is
read-only. The accepted bytes replace the file's bytes at the offset, which
advances. Result: return value, new state. -/
def sys_write (s : State) (fd : Int) (buf : List Byte) (w : Option Nat) : Int × State :=
  match s.desc, w with
  | some d, some k =>
    if d.wronly = false ∨ (d.fd : Int) ≠ fd then (-1, s)
    else
      let out := buf.take k
      ((out.length : Int),
        { s with file := s.file.take d.offset ++ out ++ s.file.drop (d.offset + out.length)
                 desc := some { d with offset := d.offset + out.length } })
  | _, _ => (-1, s)

/-- The call `close(fd)`. -/
def sys_close (s : State) (fd : Int) : State :=
  match s.desc with
  | some d => if (d.fd : Int) = fd then { s with desc := none } else s
  | none => s

/-- What a failed read or a rejected file ends with throughout btsnoop.c:
`close(btsnoop_fd); btsnoop_fd = -1;`. -/
def close_fd (s : State) : State :=
  { sys_close s s.btsnoop_fd with btsnoop_fd := -1 }

/-! ## The codec -/

/-- The flags word of `btsnoop_write` under type 2001 (line 158):
`(index << 16) | opcode`, stored in a `uint32_t`. -/
def flags_2001 (index opcode : Nat) : Nat := ((index <<< 16) ||| opcode) % 4294967296

/-- The index that `btsnoop_read` takes from the flags under type 2001 (line 273):
`flags >> 16`, stored in a `uint16_t`. -/
def index_2001 (flags : Nat) : Nat := (flags >>> 16) % 65536

/-- The opcode that `btsnoop_read` takes from the flags under type 2001 (line 274):
`flags & 0xffff`. -/
def opcode_2001 (flags : Nat) : Nat := flags &&& 0xffff

/-- `btsnoop_create` (lines 80-105). `o` is the answer of `open` with
`O_WRONLY | O_CREAT | O_TRUNC` (`none`: failure, `some fd`: the new descriptor on
an emptied file), `w` the answer of the `write` of the header. -/
def btsnoop_create (s : State) (o : Option Nat) (w : Option Nat) : State :=
  if s.btsnoop_fd ≥ 0 then s
  else
    match o with
    | none => { s with btsnoop_fd := -1 }
    | some fd =>
      let s := { s with btsnoop_fd := (fd : Int), desc := some ⟨fd, true, 0⟩, file := [] }
      let s := { s with btsnoop_type := 2001 }
      let hdr := btsnoop_id ++ store32 (htonl btsnoop_version) ++ store32 (htonl s.btsnoop_type)
      let r := sys_write s s.btsnoop_fd hdr w
      if r.1 < 0 then close_fd r.2 else r.2

/-- `do_write` (lines 107-131). `data` is `none` for a null pointer, `size` is the
`uint16_t` argument, `w1` and `w2` are the kernel's answers to the two `write`
calls. -/
def do_write (s : State) (tv : Timeval) (flags : Nat) (data : Option (List Byte)) (size : Nat)
    (w1 w2 : Option Nat) : State :=
  let pkt : btsnoop_pkt :=
    { size := htonl size, len := htonl size, flags := htonl flags, drops := htonl 0,
      ts := hton64 (do_write_stamp tv) }
  let r := sys_write s s.btsnoop_fd pkt.bytes w1
  if r.1 < 0 then r.2
  else
    match data with
    | some d =>
      if size > 0 then (sys_write r.2 r.2.btsnoop_fd (d.take size) w2).2 else r.2
    | none => r.2

/-- `btsnoop_write` (lines 133-166). `tv` is `none` for a null pointer; `index` and
`opcode` are the `uint16_t` arguments. -/
def btsnoop_write (P : Packet) (s : State) (tv : Option Timeval) (index opcode : Nat)
    (data : Option (List Byte)) (size : Nat) (w1 w2 : Option Nat) : State :=
  match tv with
  | none => s
  | some tv =>
    if s.btsnoop_fd < 0 then s
    else if s.btsnoop_type = 1001 then
      let s := if s.btsnoop_index = 0xffff then { s with btsnoop_index := index } else s
      if index ≠ s.btsnoop_index then s
      else
        let flags := P.packet_get_flags opcode % 4294967296
        if flags = 0xff then s else do_write s tv flags data size w1 w2
    else if s.btsnoop_type = 2001 then
      let flags := flags_2001 index opcode
      do_write s tv flags data size w1 w2
    else s

/-- `btsnoop_open` (lines 168-220). `o` is the answer of `open` with `O_RDONLY`
(`none`: failure, `some (fd, bytes)`: the new descriptor and the bytes of the file),
`fail` says whether the `read` of the header fails. Result: return value, new state. -/
def btsnoop_open (s : State) (o : Option (Nat × List Byte)) (fail : Bool) : Int × State :=
  if s.btsnoop_fd ≥ 0 then (-1, s)
  else
    match o with
    | none => (-1, { s with btsnoop_fd := -1 })
    | some (fd, bytes) =>
      let s := { s with btsnoop_fd := (fd : Int), desc := some ⟨fd, false, 0⟩, file := bytes }
      let r := sys_read s s.btsnoop_fd BTSNOOP_HDR_SIZE fail
      let len := r.1
      let hdr := r.2.1
      let s := r.2.2
      if len < 0 ∨ len ≠ (BTSNOOP_HDR_SIZE : Int) then (-1, close_fd s)
      else if hdr.take 8 ≠ btsnoop_id then (-1, close_fd s)
      else if ntohl (load32 hdr 8) ≠ btsnoop_version then (-1, close_fd s)
      else
        let s := { s with btsnoop_type := ntohl (load32 hdr 12) }
        if s.btsnoop_type = 1001 ∨ s.btsnoop_type = 1002 then
          (0, packet_del_filter_show_index s)
        else if s.btsnoop_type = 2001 then (0, packet_add_filter_show_index s)
        else (0, s)

/-- The caller's objects that `btsnoop_read` writes through its pointer arguments. -/
structure ReadOut where
  tv : Timeval
  index : Nat
  opcode : Nat
  data : List Byte
  size : Nat
deriving DecidableEq, Repr

/-- What the environment decides during one `btsnoop_read`: whether each of its
three `read` calls fails, and the indeterminate initial value of the local
`pkt_type`. -/
structure ReadEnv where
  fail_pkt : Bool
  fail_type : Bool
  fail_data : Bool
  pkt_type : Byte
deriving DecidableEq, Repr

/-- An environment in which no `read` fails. -/
def ReadEnv.ok : ReadEnv :=
  { fail_pkt := false, fail_type := false, fail_data := false, pkt_type := 0 }

/-- The buffer `buf` after a `read` stored the bytes `got` at its start. -/
def fill (buf got : List Byte) : List Byte := got ++ buf.drop got.length

/-- The end of `btsnoop_read` (lines 284-294): the payload `read` of `toread` bytes
into `data`, then `*size = toread` (a `uint16_t`). -/
def read_data (s : State) (a : ReadOut) (toread : Nat) (fail : Bool) : Int × State × ReadOut :=
  let r := sys_read s s.btsnoop_fd toread fail
  let a := { a with data := fill a.data r.2.1 }
  if r.1 < 0 then (-1, close_fd r.2.2, a)
  else (0, r.2.2, { a with size := toread % 65536 })

/-- `btsnoop_read` (lines 222-295). Result: return value, new state, the caller's
objects. -/
def btsnoop_read (P : Packet) (s : State) (a : ReadOut) (e : ReadEnv) : Int × State × ReadOut :=
  if s.btsnoop_fd < 0 then (-1, s, a)
  else
    let r := sys_read s s.btsnoop_fd BTSNOOP_PKT_SIZE e.fail_pkt
    let len := r.1
    let s := r.2.2
    if len = 0 then (-1, s, a)
    else if len < 0 ∨ len ≠ (BTSNOOP_PKT_SIZE : Int) then (-1, close_fd s, a)
    else
      let pkt := btsnoop_pkt.ofBytes r.2.1
      let toread := ntohl pkt.size
      let flags := ntohl pkt.flags
      let ts := read_ts (ntoh64 pkt.ts)
      let a := { a with tv := read_tv ts }
      if s.btsnoop_type = 1001 then
        let a := { a with index := 0 }
        let a := { a with opcode := P.packet_get_opcode 0xff flags % 65536 }
        read_data s a toread e.fail_data
      else if s.btsnoop_type = 1002 then
        let r1 := sys_read s s.btsnoop_fd 1 e.fail_type
        let pkt_type := (r1.2.1.headD e.pkt_type).val
        let s := r1.2.2
        if r1.1 < 0 then (-1, close_fd s, a)
        else
          let toread := (toread + 4294967295) % 4294967296
          let a := { a with index := 0 }
          let a := { a with opcode := P.packet_get_opcode pkt_type flags % 65536 }
          read_data s a toread e.fail_data
      else if s.btsnoop_type = 2001 then
        let a := { a with index := index_2001 flags }
        let a := { a with opcode := opcode_2001 flags }
        read_data s a toread e.fail_data
      else (-1, close_fd s, a)

/-- `btsnoop_close` (lines 297-306). -/
def btsnoop_close (s : State) : State :=
  if s.btsnoop_fd < 0 then s
  else { sys_close s s.btsnoop_fd with btsnoop_fd := -1, btsnoop_index := 0xffff }

/-! ## Sessions and the record layout of the file format -/

/-- A session opened by `btsnoop_create`: the descriptor `btsnoop_fd` is open
write-only and stands at the end of its file. -/
def OpenForWrite (s : State) : Prop :=
  0 ≤ s.btsnoop_fd ∧ s.desc = some ⟨s.btsnoop_fd.toNat, true, s.file.length⟩

instance (s : State) : Decidable (OpenForWrite s) := by
  unfold OpenForWrite
  infer_instance

/-- A session opened by `btsnoop_open`: the descriptor `btsnoop_fd` is open
read-only and stands at offset `off` of its file. -/
def OpenForRead (s : State) (off : Nat) : Prop :=
  0 ≤ s.btsnoop_fd ∧ s.desc = some ⟨s.btsnoop_fd.toNat, false, off⟩

instance (s : State) (off : Nat) : Decidable (OpenForRead s off) := by
  unfold OpenForRead
  infer_instance

/-- The 24-byte record prefix of the file format: original length, included
length, flags, cumulative drops (32 bits each) and a 64-bit time stamp, all
big-endian. -/
def record_hdr (size len flags drops ts : Nat) : List Byte :=
  be32 size ++ be32 len ++ be32 flags ++ be32 drops ++ be64 ts

/-- The bytes that the second `write` of `do_write` adds to the file: none when
`data` is null, `size` is zero or the call fails, else what the kernel accepts of
the first `size` bytes of `data`. -/
def payload_written (data : Option (List Byte)) (size : Nat) (w2 : Option Nat) : List Byte :=
  match data, w2 with
  | some d, some k => if size > 0 then (d.take size).take k else []
  | _, _ => []

/-! ## Sequences of writes -/

/-- One captured frame as `btsnoop_write` receives it: time, index, opcode and
payload (the size argument is the payload length). -/
structure Frame where
  tv : Timeval
  index : Nat
  opcode : Nat
  data : List Byte
deriving DecidableEq, Repr

/-- One call of `btsnoop_write` for the frame `f`, the kernel accepting both
writes in full. -/
def write_frame (P : Packet) (s : State) (f : Frame) : State :=
  btsnoop_write P s (some f.tv) f.index f.opcode (some f.data) f.data.length (some 24)
    (some f.data.length)

/-- Successive calls of `btsnoop_write`, one per frame, in order. -/
def write_frames (P : Packet) (s : State) (fs : List Frame) : State :=
  fs.foldl (write_frame P) s

/-- The record of the file format for a frame with the flags word `flags`. -/
def frame_record (flags : Nat) (f : Frame) : List Byte :=
  record_hdr f.data.length f.data.length flags 0 (do_write_stamp f.tv) ++ f.data

/-- The records that a legacy (type 1001) file locked to the index `i0` is to
hold for the frames `fs`: one record, in order, for each frame whose index is `i0`
and whose opcode has a flags word other than 0xff. -/
def legacy_records (P : Packet) (i0 : Nat) : List Frame → List Byte
  | [] => []
  | f :: fs =>
    (if f.index = i0 ∧ P.packet_get_flags f.opcode % 4294967296 ≠ 0xff then
        frame_record (P.packet_get_flags f.opcode % 4294967296) f
      else [])
      ++ legacy_records P i0 fs

/-- The number of frames among `fs` that a legacy file locked to `i0` keeps. -/
def legacy_count (P : Packet) (i0 : Nat) (fs : List Frame) : Nat :=
  (fs.filter (fun f => f.index = i0 ∧ P.packet_get_flags f.opcode % 4294967296 ≠ 0xff)).length

/-! ## Example sessions -/

/-- A stand-in for packet.c in examples under type 2001, which never calls it. -/
def ex_packet : Packet := { packet_get_flags := fun _ => 0, packet_get_opcode := fun _ _ => 0 }

/-- The caller's objects before a read in the examples. -/
def ex_out : ReadOut := { tv := ⟨0, 0⟩, index := 0, opcode := 0, data := [], size := 0 }

/-- A capture just created on descriptor 3: the 16 header bytes. -/
def ex_created : State := btsnoop_create State.init (some 3) (some 16)

/-- A read session on the bytes of `f`, opened on descriptor 4. -/
def ex_reader (f : List Byte) : State := (btsnoop_open State.init (some (4, f)) false).2

/-- The bytes of a capture file: magic, version 1, the type word, then `records`. -/
def ex_file (type : Nat) (records : List Byte) : List Byte :=
  btsnoop_id ++ be32 1 ++ be32 type ++ records

/-- A classifier for examples under types 1001 and 1002: the opcode is the type
byte times 256 plus the low byte of the flags; every opcode below 0xff00 has the
flags word `opcode + 1`. -/
def ex_classify : Packet :=
  { packet_get_flags := fun op => if op < 0xff00 then op + 1 else 0xff
    packet_get_opcode := fun t f => (t * 256 + f % 256) % 65536 }

/-- A type-2001 capture whose first record was cut on capture: original length 4,
included length 2, payload `aa bb`; a second record of one byte `cc` follows. -/
def ex_cut_capture : List Byte :=
  ex_file 2001
    (record_hdr 4 2 0x10002 0 63168256000500000 ++ [0xaa, 0xbb]
      ++ record_hdr 1 1 0x10003 0 63168256000500001 ++ [0xcc])

/-- A type-1002 capture whose first record has length 0; a second record of two
bytes (type byte 4, payload `ee`) follows. -/
def ex_empty_1002 : List Byte :=
  ex_file 1002
    (record_hdr 0 0 7 0 63168256000500000
      ++ record_hdr 2 2 7 0 63168256000500001 ++ [0x04, 0xee])

/-- A write session of type 1001 with no locked-in index, on descriptor 3 and an
empty file. The codec itself never makes one: `btsnoop_create` always sets type
2001. -/
def ex_legacy_writer : State :=
  { btsnoop_type := 1001, btsnoop_fd := 3, btsnoop_index := 0xffff, show_index := false,
    desc := some ⟨3, true, 0⟩, file := [] }

/-- A frame of 2001-09-09 01:46:40.5 with opcode 2 and payload `aa` for the index
`i`. -/
def ex_frame (i : Nat) : Frame :=
  { tv := ⟨1000000000, 500000⟩, index := i, opcode := 2, data := [0xaa] }

/-- A read session on a type-1001 file that holds three stray bytes after its
header. -/
def ex_legacy_reader : State := ex_reader (ex_file 1001 [0, 0, 0])

/-- The session `ex_legacy_reader` after a `btsnoop_write` for index 5. -/
def ex_legacy_locked : State := write_frame ex_classify ex_legacy_reader (ex_frame 5)

/-- The session `ex_legacy_locked` after a `btsnoop_read`, which finds three bytes
where a record prefix should be. -/
def ex_legacy_failed : State := (btsnoop_read ex_classify ex_legacy_locked ex_out ReadEnv.ok).2.1

/-- A capture of the given type with one record: length 2, flags 0x10007, the
bytes `04 ee`. -/
def ex_one_record (type : Nat) : List Byte :=
  ex_file type (record_hdr 2 2 0x10007 0 63168256000500000 ++ [0x04, 0xee])

/-! ## Whole captures -/

/-- A frame that the file format can hold and give back: a time from 2000-01-01 on
with microseconds below one million and a stamp below `2^64`, a 16-bit index, a
16-bit opcode and a payload of at most 65535 bytes. -/
def Frame.representable (f : Frame) : Prop :=
  946684800 ≤ f.tv.tv_sec ∧ 0 ≤ f.tv.tv_usec ∧ f.tv.tv_usec < 1000000
  ∧ (f.tv.tv_sec - 946684800) * 1000000 + f.tv.tv_usec + 0x00E03AB44A676000
      < 18446744073709551616
  ∧ f.index < 65536 ∧ f.opcode < 65536 ∧ f.data.length ≤ 65535

instance (f : Frame) : Decidable f.representable := by
  unfold Frame.representable
  infer_instance

/-- The records of a type-2001 file for the frames `fs`, in order. -/
def records_2001 : List Frame → List Byte
  | [] => []
  | f :: fs => frame_record (flags_2001 f.index f.opcode) f ++ records_2001 fs

/-- The frame that a successful `btsnoop_read` hands to its caller: time, index
and opcode, and the first `size` bytes of the buffer. -/
def frame_of (a : ReadOut) : Frame :=
  { tv := a.tv, index := a.index, opcode := a.opcode, data := a.data.take a.size }

/-- Successive calls of `btsnoop_read`, `n` of them, under the environment `e`:
the frames returned with the state and the caller's objects after the last call,
or `none` as soon as a call does not return 0. -/
def read_frames (P : Packet) (e : ReadEnv) : Nat → State → ReadOut →
    Option (List Frame × State × ReadOut)
  | 0, s, a => some ([], s, a)
  | n + 1, s, a =>
    if (btsnoop_read P s a e).1 = 0 then
      match read_frames P e n (btsnoop_read P s a e).2.1 (btsnoop_read P s a e).2.2 with
      | some (fs, s2, a2) => some (frame_of (btsnoop_read P s a e).2.2 :: fs, s2, a2)
      | none => none
    else none

/-- The state after `btsnoop_create` on descriptor `fd`, one `btsnoop_write` per
frame and `btsnoop_close`, the kernel accepting every write in full. -/
def capture (P : Packet) (s : State) (fd : Nat) (fs : List Frame) : State :=
  btsnoop_close (write_frames P (btsnoop_create s (some fd) (some 16)) fs)

/-- A type-2001 capture that ends in the middle of a payload: the record declares
4 bytes, 2 are there. -/
def ex_cut_payload : List Byte :=
  ex_file 2001 (record_hdr 4 4 0x10002 0 63168256000500000 ++ [0xaa, 0xbb])

/-- A type-2001 capture whose record declares 65540 bytes and holds 6. -/
def ex_long_record : List Byte :=
  ex_file 2001
    (record_hdr 65540 65540 0x10002 0 63168256000500000 ++ [0xaa, 0xbb, 0xcc, 0xdd, 0xee, 0xff])

end Btsnoop

/-!
The monitor channel of `monitor/main.c`

A shallow embedding of `hexdump`, the `process_*` handlers and `process_monitor`.
The state is the file-scope `filter_mask` and `index_list` together with the lines
sent to standard output. What `recvmsg` delivers is an argument. Functions,
macros and structures of libbluetooth and libc that main.c only uses are fields of
`Lib`; the host is little-endian and `isprint` is that of the C locale.
-/

namespace Monitor

open Btsnoop

/-! ## Constants and tables -/

/-- `MONITOR_HDR_SIZE`, the size of the packed `struct monitor_hdr`. -/
def MONITOR_HDR_SIZE : Nat := 6

/-- `MONITOR_NEW_INDEX`. -/
def MONITOR_NEW_INDEX : Nat := 0

/-- `MONITOR_DEL_INDEX`. -/
def MONITOR_DEL_INDEX : Nat := 1

/-- `MONITOR_COMMAND_PKT`. -/
def MONITOR_COMMAND_PKT : Nat := 2

/-- `MONITOR_EVENT_PKT`. -/
def MONITOR_EVENT_PKT : Nat := 3

/-- `MONITOR_ACL_TX_PKT`. -/
def MONITOR_ACL_TX_PKT : Nat := 4

/-- `MONITOR_ACL_RX_PKT`. -/
def MONITOR_ACL_RX_PKT : Nat := 5

/-- `MONITOR_SCO_TX_PKT`. -/
def MONITOR_SCO_TX_PKT : Nat := 6

/-- `MONITOR_SCO_RX_PKT`. -/
def MONITOR_SCO_RX_PKT : Nat := 7

/-- `MONITOR_NEW_INDEX_SIZE`, the size of the packed `struct monitor_new_index`:
type (1 byte), bus (1), bdaddr (6), name (8). -/
def MONITOR_NEW_INDEX_SIZE : Nat := 16

/-- `MONITOR_DEL_INDEX_SIZE`. -/
def MONITOR_DEL_INDEX_SIZE : Nat := 0

/-- `FILTER_SHOW_INDEX`. -/
def FILTER_SHOW_INDEX : Nat := 1 <<< 0

/-- `FILTER_SHOW_DATE`. -/
def FILTER_SHOW_DATE : Nat := 1 <<< 1

/-- `FILTER_SHOW_TIME`. -/
def FILTER_SHOW_TIME : Nat := 1 <<< 2

/-- `FILTER_SHOW_ACL_DATA`. -/
def FILTER_SHOW_ACL_DATA : Nat := 1 <<< 3

/-- `FILTER_SHOW_SCO_DATA`. -/
def FILTER_SHOW_SCO_DATA : Nat := 1 <<< 4

/-- `MAX_INDEX`, the number of slots of `index_list`. -/
def MAX_INDEX : Nat := 16

/-- The size of the receive buffer `buf` of `process_monitor`. -/
def BUF_SIZE : Nat := 4096

/-- Modelled from the spec: `HCI_COMMAND_HDR_SIZE` of lib/hci.h, which is not part
of these sources; a command shorter than 3 bytes is malformed. -/
def HCI_COMMAND_HDR_SIZE : Nat := 3

/-- Modelled from the spec: `HCI_EVENT_HDR_SIZE` of lib/hci.h, which is not part of
these sources; an event shorter than 2 bytes is malformed. -/
def HCI_EVENT_HDR_SIZE : Nat := 2

/-- Modelled from the spec: `HCI_ACL_HDR_SIZE` of lib/hci.h, which is not part of
these sources; ACL data shorter than 4 bytes is malformed. -/
def HCI_ACL_HDR_SIZE : Nat := 4

/-- Modelled from the spec: `HCI_SCO_HDR_SIZE` of lib/hci.h, which is not part of
these sources; SCO data shorter than 3 bytes is malformed. -/
def HCI_SCO_HDR_SIZE : Nat := 3

/-- Modelled from the spec: `btohs` of lib/bluetooth.h, which is not part of these
sources. The header fields travel in little-endian order and are converted to host
order on decode; on the little-endian host the stored value is the host value. -/
def btohs (x : Nat) : Nat := x

/-- `devtype2str`. -/
def devtype2str (type : Nat) : String :=
  if type = 0 then "BR/EDR" else if type = 1 then "AMP" else "UNKNOWN"

/-- `devbus2str`. -/
def devbus2str (bus : Nat) : String :=
  if bus = 0 then "VIRTUAL" else if bus = 1 then "USB" else if bus = 2 then "PCCARD"
  else if bus = 3 then "UART" else "UNKNOWN"

/-- `opcode2str_table`, without the empty entry that ends it. -/
def opcode2str_table : List (Nat × String) :=
  [(0x0401, "Inquiry"), (0x0402, "Inquiry Cancel"), (0x0403, "Periodic Inquiry Mode"),
   (0x0404, "Exit Periodic Inquiry Mode"), (0x0405, "Create Connection"), (0x0406, "Disconnect"),
   (0x0407, "Add SCO Connection"), (0x0408, "Create Connection Cancel"),
   (0x0409, "Accept Connection Request"), (0x040a, "Reject Connection Request"),
   (0x040b, "Link Key Request Reply"), (0x040c, "Link Key Request Negative Reply"),
   (0x040d, "PIN Code Request Reply"), (0x040e, "PIN Code Request Negative Reply"),
   (0x040f, "Change Connection Packet Type"), (0x0411, "Authentication Requested"),
   (0x0413, "Set Connection Encryption"), (0x0415, "Change Connection Link Key"),
   (0x0417, "Master Link Key"), (0x0419, "Remote Name Request"),
   (0x041a, "Remote Name Request Cancel"), (0x041b, "Read Remote Supported Features"),
   (0x041c, "Read Remote Extended Features"), (0x041d, "Read Remote Version Information"),
   (0x041f, "Read Clock Offset"), (0x0420, "Read LMP Handle"),
   (0x0428, "Setup Synchronous Connection"), (0x0429, "Accept Synchronous Connection"),
   (0x042a, "Reject Synchronous Connection"), (0x042b, "IO Capability Request Reply"),
   (0x042c, "User Confirmation Request Reply"), (0x042d, "User Confirmation Request Neg Reply"),
   (0x042e, "User Passkey Request Reply"), (0x042f, "User Passkey Request Negative Reply"),
   (0x0430, "Remote OOB Data Request Reply"), (0x0433, "Remote OOB Data Request Neg Reply"),
   (0x0434, "IO Capability Request Negative Reply"), (0x0435, "Create Physical Link"),
   (0x0436, "Accept Physical Link"), (0x0437, "Disconnect Physical Link"),
   (0x0438, "Create Logical Link"), (0x0439, "Accept Logical Link"),
   (0x043a, "Disconnect Logical Link"), (0x043b, "Logical Link Cancel"),
   (0x043c, "Flow Specifcation Modify"), (0x0801, "Holde Mode"), (0x0803, "Sniff Mode"),
   (0x0804, "Exit Sniff Mode"), (0x0805, "Park State"), (0x0806, "Exit Park State"),
   (0x0807, "QoS Setup"), (0x0809, "Role Discovery"), (0x080b, "Switch Role"),
   (0x080c, "Read Link Policy Settings"), (0x080d, "Write Link Policy Settings"),
   (0x080e, "Read Default Link Policy Settings"), (0x080f, "Write Default Link Policy Settings"),
   (0x0810, "Flow Specification"), (0x0811, "Sniff Subrating"), (0x0c01, "Set Event Mask"),
   (0x0c03, "Reset"), (0x0c05, "Set Event Filter"), (0x0c08, "Flush"), (0x0c09, "Read PIN Type"),
   (0x0c0a, "Write PIN Type"), (0x0c0b, "Create New Unit Key"), (0x0c0d, "Read Stored Link Key"),
   (0x0c11, "Write Stored Link Key"), (0x0c12, "Delete Stored Link Key"),
   (0x0c13, "Write Local Name"), (0x0c14, "Read Local Name"),
   (0x0c15, "Read Connection Accept Timeout"), (0x0c16, "Write Connection Accept Timeout"),
   (0x0c17, "Read Page Timeout"), (0x0c18, "Write Page Timeout"), (0x0c19, "Read Scan Enable"),
   (0x0c1a, "Write Scan Enable"), (0x0c1b, "Read Page Scan Activity"),
   (0x0c1c, "Write Page Scan Activity"), (0x0c1d, "Read Inquiry Scan Activity"),
   (0x0c1e, "Write Inquiry Scan Activity"), (0x0c1f, "Read Authentication Enable"),
   (0x0c20, "Write Authentication Enable"), (0x0c21, "Read Encryption Mode"),
   (0x0c22, "Write Encryption Mode"), (0x0c23, "Read Class of Device"),
   (0x0c24, "Write Class of Device"), (0x0c25, "Read Voice Setting"),
   (0x0c26, "Write Voice Setting"), (0x0c27, "Read Automatic Flush Timeout"),
   (0x0c28, "Write Automatic Flush Timeout"), (0x0c29, "Read Num Broadcast Retransmissions"),
   (0x0c2a, "Write Num Broadcast Retransmissions"), (0x0c2b, "Read Hold Mode Activity"),
   (0x0c2c, "Write Hold Mode Activity"), (0x0c2d, "Read Transmit Power Level"),
   (0x0c2e, "Read Sync Flow Control Enable"), (0x0c2f, "Write Sync Flow Control Enable"),
   (0x0c31, "Set Host Controller To Host Flow"), (0x0c33, "Host Buffer Size"),
   (0x0c35, "Host Number of Completed Packets"), (0x0c36, "Read Link Supervision Timeout"),
   (0x0c37, "Write Link Supervision Timeout"), (0x0c38, "Read Number of Supported IAC"),
   (0x0c39, "Read Current IAC LAP"), (0x0c3a, "Write Current IAC LAP"),
   (0x0c3b, "Read Page Scan Period Mode"), (0x0c3c, "Write Page Scan Period Mode"),
   (0x0c3d, "Read Page Scan Mode"), (0x0c3e, "Write Page Scan Mode"),
   (0x0c3f, "Set AFH Host Channel Classification"), (0x0c42, "Read Inquiry Scan Type"),
   (0x0c43, "Write Inquiry Scan Type"), (0x0c44, "Read Inquiry Mode"),
   (0x0c45, "Write Inquiry Mode"), (0x0c46, "Read Page Scan Type"),
   (0x0c47, "Write Page Scan Type"), (0x0c48, "Read AFH Channel Assessment Mode"),
   (0x0c49, "Write AFH Channel Assessment Mode"), (0x0c51, "Read Extended Inquiry Response"),
   (0x0c52, "Write Extended Inquiry Response"), (0x0c53, "Refresh Encryption Key"),
   (0x0c55, "Read Simple Pairing Mode"), (0x0c56, "Write Simple Pairing Mode"),
   (0x0c57, "Read Local OOB Data"), (0x0c58, "Read Inquiry Response TX Power Level"),
   (0x0c59, "Write Inquiry Transmit Power Level"), (0x0c5a, "Read Default Erroneous Reporting"),
   (0x0c5b, "Write Default Erroneous Reporting"), (0x0c5f, "Enhanced Flush"),
   (0x0c61, "Read Logical Link Accept Timeout"), (0x0c62, "Write Logical Link Accept Timeout"),
   (0x0c63, "Set Event Mask Page 2"), (0x0c64, "Read Location Data"),
   (0x0c65, "Write Location Data"), (0x0c66, "Read Flow Control Mode"),
   (0x0c67, "Write Flow Control Mode"), (0x0c68, "Read Enhanced Transmit Power Level"),
   (0x0c69, "Read Best Effort Flush Timeout"), (0x0c6a, "Write Best Effort Flush Timeout"),
   (0x0c6b, "Short Range Mode"), (0x0c6c, "Read LE Host Supported"),
   (0x0c6d, "Write LE Host Supported"), (0x1001, "Read Local Version Information"),
   (0x1002, "Read Local Supported Commands"), (0x1003, "Read Local Supported Features"),
   (0x1004, "Read Local Extended Features"), (0x1005, "Read Buffer Size"),
   (0x1007, "Read Country Code"), (0x1009, "Read BD ADDR"), (0x100a, "Read Data Block Size"),
   (0x1401, "Read Failed Contact Counter"), (0x1402, "Reset Failed Contact Counter"),
   (0x1403, "Read Link Quality"), (0x1405, "Read RSSI"), (0x1406, "Read AFH Channel Map"),
   (0x1407, "Read Clock"), (0x1408, "Read Encryption Key Size"), (0x1409, "Read Local AMP Info"),
   (0x140a, "Read Local AMP ASSOC"), (0x140b, "Write Remote AMP ASSOC")]

/-- `event2str_table`, without the empty entry that ends it. -/
def event2str_table : List (Nat × String) :=
  [(0x01, "Inquiry Complete"), (0x02, "Inquiry Result"), (0x03, "Connect Complete"),
   (0x04, "Connect Request"), (0x05, "Disconn Complete"), (0x06, "Auth Complete"),
   (0x07, "Remote Name Req Complete"), (0x08, "Encrypt Change"),
   (0x09, "Change Connection Link Key Complete"), (0x0a, "Master Link Key Complete"),
   (0x0b, "Read Remote Supported Features"), (0x0c, "Read Remote Version Complete"),
   (0x0d, "QoS Setup Complete"), (0x0e, "Command Complete"), (0x0f, "Command Status"),
   (0x10, "Hardware Error"), (0x11, "Flush Occurred"), (0x12, "Role Change"),
   (0x13, "Number of Completed Packets"), (0x14, "Mode Change"), (0x15, "Return Link Keys"),
   (0x16, "PIN Code Request"), (0x17, "Link Key Request"), (0x18, "Link Key Notification"),
   (0x19, "Loopback Command"), (0x1a, "Data Buffer Overflow"), (0x1b, "Max Slots Change"),
   (0x1c, "Read Clock Offset Complete"), (0x1d, "Connection Packet Type Changed"),
   (0x1e, "QoS Violation"), (0x1f, "Page Scan Mode Change"),
   (0x20, "Page Scan Repetition Mode Change"), (0x21, "Flow Specification Complete"),
   (0x22, "Inquiry Result with RSSI"), (0x23, "Read Remote Extended Features"),
   (0x2c, "Synchronous Connect Complete"), (0x2d, "Synchronous Connect Changed"),
   (0x2e, "Sniff Subrate"), (0x2f, "Extended Inquiry Result"),
   (0x30, "Encryption Key Refresh Complete"), (0x31, "IO Capability Request"),
   (0x32, "IO Capability Response"), (0x33, "User Confirmation Request"),
   (0x34, "User Passkey Request"), (0x35, "Remote OOB Data Request"),
   (0x36, "Simple Pairing Complete"), (0x38, "Link Supervision Timeout Change"),
   (0x39, "Enhanced Flush Complete"), (0x3b, "User Passkey Notification"),
   (0x3c, "Keypress Notification"), (0x3d, "Remote Host Supported Features"),
   (0x3e, "LE Meta Event"), (0x40, "Physical Link Complete"), (0x41, "Channel Selected"),
   (0x42, "Disconn Physical Link Complete"), (0x43, "Physical Link Loss Early Warning"),
   (0x44, "Physical Link Recovery"), (0x45, "Logical Link Complete"),
   (0x46, "Disconn Logical Link Complete"), (0x47, "Flow Spec Modify Complete"),
   (0x48, "Number Of Completed Data Blocks"), (0x49, "AMP Start Test"), (0x4a, "AMP Test End"),
   (0x4b, "AMP Receiver Report"), (0x4c, "Short Range Mode Change Complete"),
   (0x4d, "AMP Status Change"), (0xfe, "Testing"), (0xff, "Vendor")]

/-- The loop of `opcode2str` and `event2str`: the string of the first entry with
the code, `"Unknown"` when the table ends. -/
def table_str (code : Nat) : List (Nat × String) → String
  | [] => "Unknown"
  | (c, str) :: rest => if c = code then str else table_str code rest

/-- `opcode2str`. -/
def opcode2str (opcode : Nat) : String := table_str opcode opcode2str_table

/-- `event2str`. -/
def event2str (event : Nat) : String := table_str event event2str_table

/-! ## Formatting of `printf` -/

/-- The conversion `%d`. -/
def fmt_d (z : Int) : String := toString z

/-- The string `s` with zeros in front up to the length `w`. -/
def zero_pad (w : Nat) (s : String) : String :=
  String.mk (List.replicate (w - s.length) (Char.ofNat 48)) ++ s

/-- The conversions `%02d`, `%04d` and `%06lu`: decimal, zero padded to the width
`w`, a sign counting in the width. -/
def fmt_0d (w : Nat) (z : Int) : String :=
  if z < 0 then "-" ++ zero_pad (w - 1) (toString z.natAbs) else zero_pad w (toString z.toNat)

/-- The conversions `%2.2x` and `%4.4x`: lower-case hexadecimal with at least `p`
digits. -/
def fmt_x (p : Nat) (n : Nat) : String := zero_pad p (String.mk (Nat.toDigits 16 n))

/-- The conversion `%s` on the memory `mem`: the bytes before the first zero
byte, as characters. -/
def cstr (mem : List Byte) : String :=
  String.mk ((mem.takeWhile (fun b => b.val ≠ 0)).map (fun b => Char.ofNat b.val))

/-- The `n` bytes of memory that start at `buf`. -/
def mem_read (buf : List Byte) (n : Nat) : List Byte :=
  (List.range n).map (fun i => buf.getD i 0)

/-- The value of a `uint16_t` whose object representation is the two bytes of `b`
starting at `i`, on the little-endian host. -/
def load16 (b : List Byte) (i : Nat) : Nat :=
  (b.getD i 0).val + 256 * (b.getD (i + 1) 0).val

/-! ## What main.c uses from libraries -/

/-- A `struct tm` as far as main.c prints it. -/
structure Tm where
  tm_year : Int
  tm_mon : Int
  tm_mday : Int
  tm_hour : Int
  tm_min : Int
  tm_sec : Int
deriving DecidableEq, Repr

/-- What main.c uses and these sources do not hold: `ba2str` and `BDADDR_ANY` of
libbluetooth, the header structures and macros of lib/hci.h, and `localtime_r` of
libc. A header function maps the memory at the header to its two fields as
stored: (opcode, plen), (evt, plen), (handle, dlen), (handle, dlen). -/
structure Lib where
  ba2str : List Byte → String
  BDADDR_ANY : List Byte
  localtime_r : Int → Tm
  cmd_opcode_ogf : Nat → Nat
  cmd_opcode_ocf : Nat → Nat
  acl_handle : Nat → Nat
  acl_flags : Nat → Nat
  hci_command_hdr : List Byte → Nat × Nat
  hci_event_hdr : List Byte → Nat × Nat
  hci_acl_hdr : List Byte → Nat × Nat
  hci_sco_hdr : List Byte → Nat × Nat

/-! ## State -/

/-- The state of the monitor: `filter_mask`, the 16 slots of `index_list` (16
bytes each) and the strings sent to standard output, one per `printf` call. -/
structure Mon where
  filter_mask : Nat
  index_list : List (List Byte)
  out : List String
deriving DecidableEq, Repr

/-- The state at program start, before `main` sets the filter. -/
def Mon.init : Mon :=
  { filter_mask := 0, index_list := List.replicate 16 (List.replicate 16 0), out := [] }

/-- One `printf` call that prints `s`. -/
def Mon.printf (m : Mon) (s : String) : Mon := { m with out := m.out ++ [s] }

/-! ## `hexdump` -/

/-- `hexdigits`. -/
def hexdigits : List Char := "0123456789abcdef".toList

/-- The libc `isprint` in the C locale. -/
def isprint (b : Nat) : Bool := decide (0x20 ≤ b ∧ b ≤ 0x7e)

/-- The run of `hexdump`: the line buffer `str`, the lines printed so far, and the
indices of `str` written so far, latest first. -/
structure HexState where
  str : List Char
  out : List String
  writes : List Nat
deriving DecidableEq, Repr

/-- The assignment `str[i] = c`. -/
def HexState.put (st : HexState) (i : Nat) (c : Char) : HexState :=
  { st with str := st.str.set i c, writes := i :: st.writes }

/-- The call `printf("%-12c%s\n", ' ', str)`: a blank padded to 12 columns, the
characters of `str` before its first NUL, a newline. -/
def HexState.print (st : HexState) : HexState :=
  { st with out := st.out ++
      [String.mk (List.replicate 12 (Char.ofNat 32)
        ++ st.str.takeWhile (fun c => c ≠ Char.ofNat 0) ++ [Char.ofNat 10])] }

/-- The end of a line in `hexdump`: `str[47] = ' '; str[48] = ' '; str[65] = '\0';`
and the `printf`. -/
def HexState.flush (st : HexState) : HexState :=
  (((st.put 47 (Char.ofNat 32)).put 48 (Char.ofNat 32)).put 65 (Char.ofNat 0)).print

/-- The body of the first loop of `hexdump` for the index `i`. -/
def hexdump_step (buf : List Byte) (st : HexState) (i : Nat) : HexState :=
  let b := (buf.getD i 0).val
  let st := st.put ((i % 16) * 3 + 0) (hexdigits.getD (b >>> 4) (Char.ofNat 0))
  let st := st.put ((i % 16) * 3 + 1) (hexdigits.getD (b &&& 0xf) (Char.ofNat 0))
  let st := st.put ((i % 16) * 3 + 2) (Char.ofNat 32)
  let st := st.put ((i % 16) + 49) (if isprint b = true then Char.ofNat b else Char.ofNat 46)
  if (i + 1) % 16 = 0 then st.flush.put 0 (Char.ofNat 32) else st

/-- The body of the second loop of `hexdump` for the column `j`. -/
def hexdump_blank (st : HexState) (j : Nat) : HexState :=
  (((st.put (j * 3 + 0) (Char.ofNat 32)).put (j * 3 + 1) (Char.ofNat 32)).put (j * 3 + 2)
    (Char.ofNat 32)).put (j + 49) (Char.ofNat 32)

/-- The function `hexdump` run from the line buffer `str0`, the content of the
uninitialised `char str[68]`. -/
def hexdump_run (str0 : List Char) (buf : List Byte) (len : Nat) : HexState :=
  if len = 0 then { str := str0, out := [], writes := [] }
  else
    let st := (List.range len).foldl (hexdump_step buf) { str := str0, out := [], writes := [] }
    if len % 16 > 0 then
      ((List.range' (len % 16) (16 - len % 16)).foldl hexdump_blank st).flush
    else st

/-- The lines that `hexdump(buf, len)` prints, the line buffer starting as 68 NUL
characters; every position that is printed is written before. -/
def hexdump (buf : List Byte) (len : Nat) : List String :=
  (hexdump_run (List.replicate 68 (Char.ofNat 0)) buf len).out

/-- A call of `hexdump` in a handler. -/
def Mon.dump (m : Mon) (buf : List Byte) (len : Nat) : Mon :=
  { m with out := m.out ++ hexdump buf len }

/-! ## The handlers -/

/-- `process_new_index` (lines 463-481). -/
def process_new_index (L : Lib) (m : Mon) (index len : Nat) (buf : List Byte) : Mon :=
  if len ≠ MONITOR_NEW_INDEX_SIZE then m.printf "* Malformed New Index packet\n"
  else
    let str := L.ba2str (mem_read (buf.drop 2) 6)
    let m := m.printf ("= New Index: " ++ str ++ " (" ++ devtype2str (buf.getD 0 0).val ++ ","
      ++ devbus2str (buf.getD 1 0).val ++ "," ++ cstr (buf.drop 8) ++ ")\n")
    if index < MAX_INDEX then
      { m with index_list := m.index_list.set index (mem_read buf MONITOR_NEW_INDEX_SIZE) }
    else m

/-- `process_del_index` (lines 483-498). -/
def process_del_index (L : Lib) (m : Mon) (index len : Nat) : Mon :=
  if len ≠ MONITOR_DEL_INDEX_SIZE then m.printf "* Malformed Delete Index packet\n"
  else
    let str :=
      if index < MAX_INDEX then L.ba2str (mem_read ((m.index_list.getD index []).drop 2) 6)
      else L.ba2str L.BDADDR_ANY
    m.printf ("= Delete Index: " ++ str ++ "\n")

/-- `process_command_pkt` (lines 500-519). -/
def process_command_pkt (L : Lib) (m : Mon) (len : Nat) (buf : List Byte) : Mon :=
  let hdr := L.hci_command_hdr buf
  let opcode := btohs hdr.1
  let ogf := L.cmd_opcode_ogf opcode
  let ocf := L.cmd_opcode_ocf opcode
  if len < HCI_COMMAND_HDR_SIZE then m.printf "* Malformed HCI Command packet\n"
  else
    let m := m.printf ("< HCI Command: " ++ opcode2str opcode ++ " (0x" ++ fmt_x 2 ogf ++ "|0x"
      ++ fmt_x 4 ocf ++ ") plen " ++ fmt_d hdr.2 ++ "\n")
    m.dump (buf.drop HCI_COMMAND_HDR_SIZE) (len - HCI_COMMAND_HDR_SIZE)

/-- `process_event_pkt` (lines 521-537). -/
def process_event_pkt (L : Lib) (m : Mon) (len : Nat) (buf : List Byte) : Mon :=
  let hdr := L.hci_event_hdr buf
  if len < HCI_EVENT_HDR_SIZE then m.printf "* Malformed HCI Event packet\n"
  else
    let m := m.printf ("> HCI Event: " ++ event2str hdr.1 ++ " (0x" ++ fmt_x 2 hdr.1 ++ ") plen "
      ++ fmt_d hdr.2 ++ "\n")
    m.dump (buf.drop HCI_EVENT_HDR_SIZE) (len - HCI_EVENT_HDR_SIZE)

/-- `process_acldata_pkt` (lines 539-559); `inp` is the parameter `in`. -/
def process_acldata_pkt (L : Lib) (m : Mon) (inp : Bool) (len : Nat) (buf : List Byte) : Mon :=
  let hdr := L.hci_acl_hdr buf
  let handle := btohs hdr.1
  let dlen := btohs hdr.2
  let flags := L.acl_flags handle % 256
  if len < HCI_ACL_HDR_SIZE then
    m.printf ("* Malformed ACL Data " ++ (if inp = true then "RX" else "TX") ++ " packet\n")
  else
    let m := m.printf ((if inp = true then ">" else "<") ++ " ACL Data: handle "
      ++ fmt_d (L.acl_handle handle) ++ " flags 0x" ++ fmt_x 2 flags ++ " dlen " ++ fmt_d dlen
      ++ "\n")
    if m.filter_mask &&& FILTER_SHOW_ACL_DATA ≠ 0 then
      m.dump (buf.drop HCI_ACL_HDR_SIZE) (len - HCI_ACL_HDR_SIZE)
    else m

/-- `process_scodata_pkt` (lines 561-580); `inp` is the parameter `in`. -/
def process_scodata_pkt (L : Lib) (m : Mon) (inp : Bool) (len : Nat) (buf : List Byte) : Mon :=
  let hdr := L.hci_sco_hdr buf
  let handle := btohs hdr.1
  let flags := L.acl_flags handle % 256
  if len < HCI_SCO_HDR_SIZE then
    m.printf ("* Malformed SCO Data " ++ (if inp = true then "RX" else "TX") ++ " packet\n")
  else
    let m := m.printf ((if inp = true then ">" else "<") ++ " SCO Data: handle "
      ++ fmt_d (L.acl_handle handle) ++ " flags 0x" ++ fmt_x 2 flags ++ " dlen " ++ fmt_d hdr.2
      ++ "\n")
    if m.filter_mask &&& FILTER_SHOW_SCO_DATA ≠ 0 then
      m.dump (buf.drop HCI_SCO_HDR_SIZE) (len - HCI_SCO_HDR_SIZE)
    else m

/-! ## `process_monitor` -/

/-- What one `recvmsg` on the monitor socket delivers: the datagram (`none` when
the call returns -1), the `SCM_TIMESTAMP` control message if one came, and the
bytes that lie in `buf` and after it before the call. -/
structure Recv where
  msg : Option (List Byte)
  tv : Option Timeval
  stack : List Byte
deriving DecidableEq, Repr

/-- The return value of `recvmsg` for the datagram `d`: its length, at most the
room of the two buffers. -/
def recv_len (d : List Byte) : Nat := min d.length (MONITOR_HDR_SIZE + BUF_SIZE)

/-- The memory at `buf` after `recvmsg`: the payload received, then what lay there
before. -/
def recv_buf (r : Recv) (d : List Byte) : List Byte :=
  fill r.stack ((d.drop MONITOR_HDR_SIZE).take BUF_SIZE)

/-- The lines 626-644 of `process_monitor`: the index and the time in front of a
message. -/
def print_stamp (L : Lib) (m : Mon) (index : Nat) (tv : Option Timeval) : Mon :=
  let m := if m.filter_mask &&& FILTER_SHOW_INDEX ≠ 0 then
      m.printf ("[hci" ++ fmt_d index ++ "] ") else m
  match tv with
  | none => m
  | some tv =>
    let tm := L.localtime_r tv.tv_sec
    let m := if m.filter_mask &&& FILTER_SHOW_DATE ≠ 0 then
        m.printf (fmt_0d 4 (tm.tm_year + 1900) ++ "-" ++ fmt_0d 2 (tm.tm_mon + 1) ++ "-"
          ++ fmt_0d 2 tm.tm_mday ++ " ")
      else m
    if m.filter_mask &&& FILTER_SHOW_TIME ≠ 0 then
      m.printf (fmt_0d 2 tm.tm_hour ++ ":" ++ fmt_0d 2 tm.tm_min ++ ":" ++ fmt_0d 2 tm.tm_sec
        ++ "." ++ fmt_0d 6 (toU64 tv.tv_usec) ++ " ")
    else m

/-- The `switch` of `process_monitor` (lines 646-672). -/
def monitor_switch (L : Lib) (m : Mon) (opcode index pktlen : Nat) (buf : List Byte) : Mon :=
  if opcode = MONITOR_NEW_INDEX then process_new_index L m index pktlen buf
  else if opcode = MONITOR_DEL_INDEX then process_del_index L m index pktlen
  else if opcode = MONITOR_COMMAND_PKT then process_command_pkt L m pktlen buf
  else if opcode = MONITOR_EVENT_PKT then process_event_pkt L m pktlen buf
  else if opcode = MONITOR_ACL_TX_PKT then process_acldata_pkt L m false pktlen buf
  else if opcode = MONITOR_ACL_RX_PKT then process_acldata_pkt L m true pktlen buf
  else if opcode = MONITOR_SCO_TX_PKT then process_scodata_pkt L m false pktlen buf
  else if opcode = MONITOR_SCO_RX_PKT then process_scodata_pkt L m true pktlen buf
  else
    (m.printf ("* Unknown packet (code " ++ fmt_d opcode ++ " len " ++ fmt_d pktlen ++ ")\n")).dump
      buf pktlen

/-- `process_monitor` (lines 582-673). -/
def process_monitor (L : Lib) (m : Mon) (r : Recv) : Mon :=
  match r.msg with
  | none => m
  | some d =>
    if recv_len d < MONITOR_HDR_SIZE then m
    else
      let hdr := d.take MONITOR_HDR_SIZE
      let buf := recv_buf r d
      let opcode := btohs (load16 hdr 0)
      let index := btohs (load16 hdr 2)
      let pktlen := btohs (load16 hdr 4)
      let m := print_stamp L m index r.tv
      monitor_switch L m opcode index pktlen buf

/-- The 16-bit little-endian field at offset `i` of the received message `d`. -/
def msg_field (d : List Byte) (i : Nat) : Nat :=
  (d.getD i 0).val + 256 * (d.getD (i + 1) 0).val

/-! ## The lines of a hex dump, column by column -/

/-- The hex digit of the upper four bits of `b`. -/
def hex_hi (b : Byte) : Char := hexdigits.getD (b.val >>> 4) (Char.ofNat 0)

/-- The hex digit of the lower four bits of `b`. -/
def hex_lo (b : Byte) : Char := hexdigits.getD (b.val &&& 0xf) (Char.ofNat 0)

/-- The character of `b` if it is printable, else a dot. -/
def hex_asc (b : Byte) : Char :=
  if isprint b.val = true then Char.ofNat b.val else Char.ofNat 46

/-- The character at column `p` (of 65) of line `k` of the dump of the first `len`
bytes of `buf`: byte `16 * k + j` of the buffer takes the columns `3 * j` and
`3 * j + 1` with its two hex digits and the column `49 + j` with its character;
every other column is a blank. -/
def line_char (buf : List Byte) (len k p : Nat) : Char :=
  if p < 48 then
    if p / 3 < len - 16 * k then
      if p % 3 = 0 then hex_hi (buf.getD (16 * k + p / 3) 0)
      else if p % 3 = 1 then hex_lo (buf.getD (16 * k + p / 3) 0)
      else Char.ofNat 32
    else Char.ofNat 32
  else if p = 48 then Char.ofNat 32
  else if p - 49 < len - 16 * k then hex_asc (buf.getD (16 * k + (p - 49)) 0)
  else Char.ofNat 32

/-- The 65 columns of line `k` of the dump. -/
def hex_line (buf : List Byte) (len k : Nat) : List Char :=
  (List.range 65).map (line_char buf len k)

/-- Line `k` of the dump as printed: 12 blanks, the 65 columns, a newline. -/
def hex_text (buf : List Byte) (len k : Nat) : String :=
  String.mk (List.replicate 12 (Char.ofNat 32) ++ hex_line buf len k ++ [Char.ofNat 10])

/-- The line buffer of `st` holds the characters of line `k` in the columns of the
bytes before column `j`. -/
def Cols (buf : List Byte) (len : Nat) (st : HexState) (k j : Nat) : Prop :=
  ∀ p, p < 65 → p ≠ 48 → (if p < 48 then p / 3 else p - 49) < j →
    st.str.getD p (Char.ofNat 0) = line_char buf len k p

/-- The state of `hexdump` after `i` rounds of its first loop: a line buffer of 68
characters, one line printed per 16 bytes done, every write below 68, and the
columns of the bytes done since the last line in place. -/
def HexInv (buf : List Byte) (len i : Nat) (st : HexState) : Prop :=
  st.str.length = 68
  ∧ st.out = (List.range (i / 16)).map (hex_text buf len)
  ∧ (∀ w ∈ st.writes, w < 68)
  ∧ Cols buf len st (i / 16) (i % 16)

/-! ## Example messages -/

/-- A stand-in for the library in examples: `ba2str` prints the six bytes last
first in lower-case hexadecimal with colons, the HCI headers are read in their
usual packed layout. -/
def ex_lib : Lib :=
  { ba2str := fun b => String.intercalate ":" ((mem_read b 6).reverse.map (fun x => fmt_x 2 x.val))
    BDADDR_ANY := [0, 0, 0, 0, 0, 0]
    localtime_r := fun _ => ⟨70, 0, 1, 0, 0, 0⟩
    cmd_opcode_ogf := fun op => op >>> 10
    cmd_opcode_ocf := fun op => op &&& 0x03ff
    acl_handle := fun h => h &&& 0x0fff
    acl_flags := fun h => h >>> 12
    hci_command_hdr := fun b => (load16 b 0, (b.getD 2 0).val)
    hci_event_hdr := fun b => ((b.getD 0 0).val, (b.getD 1 0).val)
    hci_acl_hdr := fun b => (load16 b 0, load16 b 2)
    hci_sco_hdr := fun b => (load16 b 0, (b.getD 2 0).val) }

/-- Sixteen bytes as a new-index announcement carries them: type 1, bus 1, address
`66:55:44:33:22:11`, name `oldname`. -/
def ex_announce : List Byte :=
  [1, 1, 0x11, 0x22, 0x33, 0x44, 0x55, 0x66, 0x6f, 0x6c, 0x64, 0x6e, 0x61, 0x6d, 0x65, 0]

/-- A message of the six header bytes alone that declares a new index for slot 0
with 16 bytes of payload, received into a buffer in which `ex_announce` lies from
an earlier message. -/
def ex_short_new_index : Recv :=
  { msg := some [0, 0, 0, 0, 16, 0], tv := none, stack := ex_announce }

end Monitor

namespace Btsnoop

/-! ## Byte-order lemmas -/

theorem byte_val (n : Nat) : (byte n).val = n % 256 := rfl

theorem ntohl_digits (b0 b1 b2 b3 : Nat) (h0 : b0 < 256) (h1 : b1 < 256) (h2 : b2 < 256)
    (h3 : b3 < 256) :
    ntohl (b0 + 256 * b1 + 65536 * b2 + 16777216 * b3)
      = 16777216 * b0 + 65536 * b1 + 256 * b2 + b3 := by
  simp only [ntohl]
  omega

theorem digits32 (n : Nat) :
    n % 4294967296
      = n % 256 + 256 * (n / 256 % 256) + 65536 * (n / 65536 % 256)
        + 16777216 * (n / 16777216 % 256) := by
  omega

theorem ntohl_mod (n : Nat) : ntohl (n % 4294967296) = ntohl n := by
  simp only [ntohl, Nat.mod_mod]

/-- The function `ntohl` reverses the four base-256 digits of its argument. -/
theorem ntohl_eq (n : Nat) :
    ntohl n = 16777216 * (n % 256) + 65536 * (n / 256 % 256) + 256 * (n / 65536 % 256)
      + n / 16777216 % 256 := by
  rw [← ntohl_mod, digits32 n]
  exact ntohl_digits _ _ _ _ (Nat.mod_lt _ (by decide)) (Nat.mod_lt _ (by decide))
    (Nat.mod_lt _ (by decide)) (Nat.mod_lt _ (by decide))

theorem ntohl_lt (n : Nat) : ntohl n < 4294967296 := by
  rw [ntohl_eq]
  omega

theorem ntohl_ntohl (n : Nat) : ntohl (ntohl n) = n % 4294967296 := by
  rw [ntohl_eq n, digits32 n]
  have e := ntohl_digits (n / 16777216 % 256) (n / 65536 % 256) (n / 256 % 256) (n % 256)
    (Nat.mod_lt _ (by decide)) (Nat.mod_lt _ (by decide)) (Nat.mod_lt _ (by decide))
    (Nat.mod_lt _ (by decide))
  have c : 16777216 * (n % 256) + 65536 * (n / 256 % 256) + 256 * (n / 65536 % 256)
      + n / 16777216 % 256
      = n / 16777216 % 256 + 256 * (n / 65536 % 256) + 65536 * (n / 256 % 256)
        + 16777216 * (n % 256) := by omega
  rw [c, e]
  omega

theorem getD_append_off (pre l : List Byte) (i : Nat) :
    (pre ++ l).getD (pre.length + i) 0 = l.getD i 0 := by
  simp [List.getD_eq_getElem?_getD, List.getElem?_append_right]

theorem load32_append_off (pre l : List Byte) (i : Nat) :
    load32 (pre ++ l) (pre.length + i) = load32 l i := by
  simp only [load32, Nat.add_assoc, getD_append_off]

theorem load64_append_off (pre l : List Byte) (i : Nat) :
    load64 (pre ++ l) (pre.length + i) = load64 l i := by
  simp only [load64, Nat.add_assoc, load32_append_off]

theorem be32dec_append_off (pre l : List Byte) (i : Nat) :
    be32dec (pre ++ l) (pre.length + i) = be32dec l i := by
  simp only [be32dec, Nat.add_assoc, getD_append_off]

theorem be64dec_append_off (pre l : List Byte) (i : Nat) :
    be64dec (pre ++ l) (pre.length + i) = be64dec l i := by
  simp only [be64dec, Nat.add_assoc, be32dec_append_off]

theorem load32_store32 (v : Nat) (post : List Byte) :
    load32 (store32 v ++ post) 0 = v % 4294967296 := by
  simp [load32, store32, byte_val]
  omega

/-- On the little-endian host, storing `htonl v` lays down the big-endian bytes of `v`. -/
theorem store32_htonl (v : Nat) : store32 (htonl v) = be32 v := by
  simp only [store32, be32, htonl, byte, List.cons.injEq, Fin.mk.injEq, and_true]
  rw [ntohl_eq]
  have h0 : v % 256 < 256 := Nat.mod_lt _ (by decide)
  have h1 : v / 256 % 256 < 256 := Nat.mod_lt _ (by decide)
  have h2 : v / 65536 % 256 < 256 := Nat.mod_lt _ (by decide)
  have h3 : v / 16777216 % 256 < 256 := Nat.mod_lt _ (by decide)
  generalize v % 256 = b0 at h0 ⊢
  generalize v / 256 % 256 = b1 at h1 ⊢
  generalize v / 65536 % 256 = b2 at h2 ⊢
  generalize v / 16777216 % 256 = b3 at h3 ⊢
  refine ⟨?_, ?_, ?_, ?_⟩ <;> omega

/-- On the little-endian host, `ntohl` of a loaded field is its big-endian value. -/
theorem ntohl_load32 (b : List Byte) (i : Nat) : ntohl (load32 b i) = be32dec b i := by
  simp only [ntohl, load32, be32dec]
  have h0 := (b.getD i 0).isLt
  have h1 := (b.getD (i + 1) 0).isLt
  have h2 := (b.getD (i + 2) 0).isLt
  have h3 := (b.getD (i + 3) 0).isLt
  omega

/-- The function `ntoh64` in arithmetic: the two 32-bit halves are byte-reversed and
exchanged. -/
theorem ntoh64_eq (n : Nat) :
    ntoh64 n = ntohl (n / 4294967296) + ntohl (n % 4294967296) * 4294967296 := by
  have h1 : n &&& 0x00000000ffffffff = n % 4294967296 := Nat.and_pow_two_sub_one_eq_mod n 32
  have h2 : n >>> 32 = n / 4294967296 := Nat.shiftRight_eq_div_pow n 32
  have h3 := ntohl_lt (n / 4294967296)
  have h4 := Nat.mul_add_lt_is_or (i := 32) h3 (ntohl (n % 4294967296))
  simp only [ntoh64, h1, h2, Nat.shiftLeft_eq]
  rw [Nat.or_comm, Nat.mul_comm, ← h4]
  omega

theorem ntoh64_lt (n : Nat) : ntoh64 n < 18446744073709551616 := by
  rw [ntoh64_eq n]
  have h3 := ntohl_lt (n / 4294967296)
  have h4 := ntohl_lt (n % 4294967296)
  omega

theorem ntoh64_hton64 (n : Nat) (hn : n < 18446744073709551616) : ntoh64 (hton64 n) = n := by
  unfold hton64
  rw [ntoh64_eq _, ntoh64_eq n]
  have h3 := ntohl_lt (n / 4294967296)
  have h4 := ntohl_lt (n % 4294967296)
  have e1 : (ntohl (n / 4294967296) + ntohl (n % 4294967296) * 4294967296) / 4294967296
      = ntohl (n % 4294967296) := by omega
  have e2 : (ntohl (n / 4294967296) + ntohl (n % 4294967296) * 4294967296) % 4294967296
      = ntohl (n / 4294967296) := by omega
  rw [e1, e2, ntohl_ntohl, ntohl_ntohl]
  omega

/-- On the little-endian host, storing `hton64 v` lays down the big-endian bytes of `v`. -/
theorem store64_hton64 (v : Nat) : store64 (hton64 v) = be64 v := by
  unfold hton64
  rw [ntoh64_eq v]
  have h3 := ntohl_lt (v / 4294967296)
  have e1 : (ntohl (v / 4294967296) + ntohl (v % 4294967296) * 4294967296) / 4294967296
      = ntohl (v % 4294967296) := by omega
  have a1 : store32 (ntohl (v / 4294967296) + ntohl (v % 4294967296) * 4294967296)
      = store32 (ntohl (v / 4294967296)) := by
    simp only [store32, byte, List.cons.injEq, Fin.mk.injEq, and_true]
    omega
  have a2 : be32 (v % 4294967296) = be32 v := by
    simp only [be32, byte, List.cons.injEq, Fin.mk.injEq, and_true]
    omega
  simp only [store64, be64, e1, a1]
  rw [← a2]
  exact congrArg₂ (· ++ ·) (store32_htonl _) (store32_htonl _)

/-- On the little-endian host, `ntoh64` of a loaded field is its big-endian value. -/
theorem ntoh64_load64 (b : List Byte) (i : Nat) : ntoh64 (load64 b i) = be64dec b i := by
  have l1 : load32 b i < 4294967296 := by
    simp only [load32]
    have h0 := (b.getD i 0).isLt
    have h1 := (b.getD (i + 1) 0).isLt
    have h2 := (b.getD (i + 2) 0).isLt
    have h3 := (b.getD (i + 3) 0).isLt
    omega
  have l2 : load32 b (i + 4) < 4294967296 := by
    simp only [load32]
    have h0 := (b.getD (i + 4) 0).isLt
    have h1 := (b.getD (i + 4 + 1) 0).isLt
    have h2 := (b.getD (i + 4 + 2) 0).isLt
    have h3 := (b.getD (i + 4 + 3) 0).isLt
    omega
  have hn : load64 b i < 18446744073709551616 := by
    simp only [load64]
    omega
  rw [ntoh64_eq _]
  have e1 : load64 b i / 4294967296 = load32 b (i + 4) := by
    simp only [load64]
    omega
  have e2 : load64 b i % 4294967296 = load32 b i := by
    simp only [load64]
    omega
  rw [e1, e2, ntohl_load32, ntohl_load32]
  simp only [be64dec]
  omega

/-! ## Time stamp lemmas -/

theorem do_write_stamp_lt (tv : Timeval) : do_write_stamp tv < 18446744073709551616 := by
  unfold do_write_stamp
  omega

/-- The stamp of `do_write` as one reduction modulo `2^64`. -/
theorem do_write_stamp_eq (tv : Timeval) :
    do_write_stamp tv
      = (((tv.tv_sec - 946684800) * 1000000 + tv.tv_usec + 0x00E03AB44A676000)
          % 18446744073709551616).toNat := by
  simp only [do_write_stamp, do_write_ts, toU64]
  generalize (tv.tv_sec - 946684800) * 1000000 + tv.tv_usec = a
  omega

/-- For a time not before 2000-01-01 whose stamp fits 64 bits, the decoding of
`btsnoop_read` undoes the stamp of `do_write`. -/
theorem read_tv_do_write_stamp (tv : Timeval) (hs : 946684800 ≤ tv.tv_sec)
    (h0 : 0 ≤ tv.tv_usec) (h1 : tv.tv_usec < 1000000)
    (hr : (tv.tv_sec - 946684800) * 1000000 + tv.tv_usec + 0x00E03AB44A676000
      < 18446744073709551616) :
    read_tv (read_ts (do_write_stamp tv)) = tv := by
  obtain ⟨sec, usec⟩ := tv
  simp only at hs h0 h1 hr
  obtain ⟨n, hn⟩ : ∃ n : Nat, (sec - 946684800) * 1000000 + usec = (n : Int) :=
    ⟨((sec - 946684800) * 1000000 + usec).toNat, by omega⟩
  have e1 : do_write_stamp ⟨sec, usec⟩ = n + 0x00E03AB44A676000 := by
    rw [do_write_stamp_eq]
    simp only [hn]
    omega
  have e2 : read_ts (n + 0x00E03AB44A676000) = n := by
    simp only [read_ts]
    omega
  rw [e1, e2]
  simp only [read_tv, Timeval.mk.injEq]
  constructor <;> omega

/-! ## System call lemmas -/

/-- A `write` on a write session appends what the kernel accepts. -/
theorem sys_write_append (s : State) (buf : List Byte) (k : Nat) (h : OpenForWrite s) :
    sys_write s s.btsnoop_fd buf (some k)
      = (((buf.take k).length : Int),
          { s with file := s.file ++ buf.take k
                   desc := some ⟨s.btsnoop_fd.toNat, true, s.file.length + (buf.take k).length⟩ })
      := by
  obtain ⟨h0, hd⟩ := h
  have hfd : ((s.btsnoop_fd.toNat : Nat) : Int) = s.btsnoop_fd := Int.toNat_of_nonneg h0
  simp only [sys_write, hd, hfd]
  simp

/-- After such a `write` the session is again a write session. -/
theorem openForWrite_append (s : State) (out : List Byte) (h : OpenForWrite s) :
    OpenForWrite { s with file := s.file ++ out
                          desc := some ⟨s.btsnoop_fd.toNat, true, s.file.length + out.length⟩ } := by
  obtain ⟨h0, _⟩ := h
  exact ⟨h0, by simp⟩

/-- A `read` that does not fail on a read session transfers the next bytes. -/
theorem sys_read_ok (s : State) (off count : Nat) (h : OpenForRead s off) :
    sys_read s s.btsnoop_fd count false
      = ((((s.file.drop off).take count).length : Int), (s.file.drop off).take count,
          { s with desc := some ⟨s.btsnoop_fd.toNat, false,
                                 off + ((s.file.drop off).take count).length⟩ }) := by
  obtain ⟨h0, hd⟩ := h
  have hfd : ((s.btsnoop_fd.toNat : Nat) : Int) = s.btsnoop_fd := Int.toNat_of_nonneg h0
  simp only [sys_read, hd, hfd]
  simp

/-- A `read` that fails transfers nothing and leaves the state alone. -/
theorem sys_read_fail (s : State) (fd : Int) (count : Nat) :
    sys_read s fd count true = (-1, [], s) := by
  unfold sys_read
  cases s.desc <;> simp

/-- After a `read` the session is a read session at the advanced offset. -/
theorem openForRead_advance (s : State) (off off2 : Nat) (h : OpenForRead s off) :
    OpenForRead { s with desc := some ⟨s.btsnoop_fd.toNat, false, off2⟩ } off2 :=
  ⟨h.1, rfl⟩

/-- Closing the descriptor of a session leaves no descriptor. -/
theorem close_fd_desc (s : State) (d : Desc) (hd : s.desc = some d)
    (hfd : (d.fd : Int) = s.btsnoop_fd) :
    close_fd s = { s with btsnoop_fd := -1, desc := none } := by
  simp [close_fd, sys_close, hd, hfd]

/-! ## The record that `do_write` writes -/

theorem store32_length (v : Nat) : (store32 v).length = 4 := rfl

theorem be32_length (v : Nat) : (be32 v).length = 4 := rfl

theorem be64_length (v : Nat) : (be64 v).length = 8 := rfl

theorem record_hdr_length (size len flags drops ts : Nat) :
    (record_hdr size len flags drops ts).length = 24 := rfl

/-- The memory of the `struct btsnoop_pkt` that `do_write` fills is the big-endian
record prefix. -/
theorem pkt_bytes_eq (size flags ts : Nat) :
    btsnoop_pkt.bytes { size := htonl size, len := htonl size, flags := htonl flags,
                        drops := htonl 0, ts := hton64 ts }
      = record_hdr size size flags 0 ts := by
  simp only [btsnoop_pkt.bytes, record_hdr, store32_htonl, store64_hton64]

/-- The file after `do_write` when the kernel accepts the whole prefix: the old
bytes, the record prefix, and the part of the payload that was written. -/
theorem do_write_file (s : State) (tv : Timeval) (flags : Nat) (data : Option (List Byte))
    (size k1 : Nat) (w2 : Option Nat) (h : OpenForWrite s) (hk : 24 ≤ k1) :
    (do_write s tv flags data size (some k1) w2).file
      = s.file ++ record_hdr size size flags 0 (do_write_stamp tv)
          ++ payload_written data size w2 := by
  have hlen : (record_hdr size size flags 0 (do_write_stamp tv)).length ≤ k1 := by
    rw [record_hdr_length]
    exact hk
  simp only [do_write, pkt_bytes_eq, sys_write_append s _ k1 h, List.take_of_length_le hlen]
  have h2 := openForWrite_append s (record_hdr size size flags 0 (do_write_stamp tv)) h
  rw [if_neg (by simp)]
  cases data with
  | none => simp [payload_written]
  | some d =>
    cases w2 with
    | none =>
      by_cases hs : size > 0 <;> simp [payload_written, hs, sys_write]
    | some k2 =>
      by_cases hs : size > 0
      · simp only [hs, if_true, payload_written]
        rw [sys_write_append _ _ k2 h2]
      · simp [payload_written, hs]

/-- The big-endian fields of a record prefix, read back at their offsets. -/
theorem record_hdr_fields (size len flags drops ts : Nat) (tail : List Byte) :
    be32dec (record_hdr size len flags drops ts ++ tail) 0 = size % 4294967296
    ∧ be32dec (record_hdr size len flags drops ts ++ tail) 4 = len % 4294967296
    ∧ be32dec (record_hdr size len flags drops ts ++ tail) 8 = flags % 4294967296
    ∧ be32dec (record_hdr size len flags drops ts ++ tail) 12 = drops % 4294967296
    ∧ be64dec (record_hdr size len flags drops ts ++ tail) 16
        = ts % 18446744073709551616 := by
  simp only [record_hdr, be32, be64, be32dec, be64dec, List.cons_append, List.nil_append,
    List.getD_eq_getElem?_getD, List.getElem?_cons_zero, List.getElem?_cons_succ,
    Option.getD_some, byte_val]
  refine ⟨?_, ?_, ?_, ?_, ?_⟩ <;> omega

/-- The fields seen through the host: what `btsnoop_read` computes from the 24
bytes of a record prefix. -/
theorem ofBytes_record_hdr (size len flags drops ts : Nat) (tail : List Byte) :
    ntohl (btsnoop_pkt.ofBytes (record_hdr size len flags drops ts ++ tail)).size
        = size % 4294967296
    ∧ ntohl (btsnoop_pkt.ofBytes (record_hdr size len flags drops ts ++ tail)).flags
        = flags % 4294967296
    ∧ ntoh64 (btsnoop_pkt.ofBytes (record_hdr size len flags drops ts ++ tail)).ts
        = ts % 18446744073709551616 := by
  obtain ⟨h1, _, h3, _, h5⟩ := record_hdr_fields size len flags drops ts tail
  simp only [btsnoop_pkt.ofBytes, ntohl_load32, ntoh64_load64]
  exact ⟨h1, h3, h5⟩

/-! ## Flags of the multi-controller variant -/

theorem flags_2001_eq (index opcode : Nat) (ho : opcode < 65536) :
    flags_2001 index opcode = (index * 65536 + opcode) % 4294967296 := by
  have h := Nat.mul_add_lt_is_or (i := 16) ho index
  simp only [flags_2001, Nat.shiftLeft_eq]
  rw [Nat.mul_comm, ← h]

theorem index_2001_eq (flags : Nat) : index_2001 flags = flags / 65536 % 65536 := by
  simp only [index_2001, Nat.shiftRight_eq_div_pow]

theorem opcode_2001_eq (flags : Nat) : opcode_2001 flags = flags % 65536 :=
  Nat.and_pow_two_sub_one_eq_mod flags 16

/-! ## Writing one record -/

/-- C3: for every timeval, the time stamp field of the record that `do_write`
writes (the eight bytes at offset 16 of the record, read big-endian) equals
`((sec - 946684800) * 1000000 + usec + 0x00E03AB44A676000)` modulo `2^64`. -/
theorem do_write_timestamp_field (s : State) (tv : Timeval) (flags : Nat)
    (data : Option (List Byte)) (size k1 : Nat) (w2 : Option Nat)
    (h : OpenForWrite s) (hk : 24 ≤ k1) :
    ((be64dec (do_write s tv flags data size (some k1) w2).file (s.file.length + 16) : Nat) : Int)
      = ((tv.tv_sec - 946684800) * 1000000 + tv.tv_usec + 0x00E03AB44A676000)
          % 18446744073709551616 := by
  rw [do_write_file s tv flags data size k1 w2 h hk, List.append_assoc, be64dec_append_off]
  rw [(record_hdr_fields size size flags 0 (do_write_stamp tv) _).2.2.2.2]
  rw [Nat.mod_eq_of_lt (do_write_stamp_lt tv), do_write_stamp_eq]
  omega

/-- C5: for every frame with a payload of `n` bytes that `do_write` writes, the
original-length and the included-length field of the record both hold `n` and the
cumulative-drops field holds 0. -/
theorem do_write_length_fields (s : State) (tv : Timeval) (flags : Nat) (payload : List Byte)
    (k1 : Nat) (w2 : Option Nat) (h : OpenForWrite s) (hk : 24 ≤ k1)
    (hn : payload.length < 65536) :
    be32dec (do_write s tv flags (some payload) payload.length (some k1) w2).file s.file.length
        = payload.length
    ∧ be32dec (do_write s tv flags (some payload) payload.length (some k1) w2).file
        (s.file.length + 4) = payload.length
    ∧ be32dec (do_write s tv flags (some payload) payload.length (some k1) w2).file
        (s.file.length + 12) = 0 := by
  rw [do_write_file s tv flags (some payload) payload.length k1 w2 h hk, List.append_assoc]
  obtain ⟨h1, h2, _, h4, _⟩ :=
    record_hdr_fields payload.length payload.length flags 0 (do_write_stamp tv)
      (payload_written (some payload) payload.length w2)
  have e0 := be32dec_append_off s.file
    (record_hdr payload.length payload.length flags 0 (do_write_stamp tv)
      ++ payload_written (some payload) payload.length w2) 0
  rw [Nat.add_zero] at e0
  rw [e0, be32dec_append_off, be32dec_append_off, h1, h2, h4]
  refine ⟨?_, ?_, ?_⟩ <;> omega

/-- C6: for a frame with an `n`-byte payload whose two writes the kernel accepts
in full, `do_write` appends exactly `24 + n` bytes: original length, included
length, flags and drops as 4-byte big-endian integers, the time stamp as an 8-byte
big-endian integer, then the payload bytes. -/
theorem do_write_appends_record (s : State) (tv : Timeval) (flags : Nat) (payload : List Byte)
    (k1 k2 : Nat) (h : OpenForWrite s) (hk1 : 24 ≤ k1) (hk2 : payload.length ≤ k2) :
    (do_write s tv flags (some payload) payload.length (some k1) (some k2)).file
        = s.file ++ (be32 payload.length ++ be32 payload.length ++ be32 flags ++ be32 0
            ++ be64 (do_write_stamp tv) ++ payload)
    ∧ (do_write s tv flags (some payload) payload.length (some k1) (some k2)).file.length
        = s.file.length + (24 + payload.length) := by
  have e : (do_write s tv flags (some payload) payload.length (some k1) (some k2)).file
        = s.file ++ (be32 payload.length ++ be32 payload.length ++ be32 flags ++ be32 0
            ++ be64 (do_write_stamp tv) ++ payload) := by
    rw [do_write_file s tv flags (some payload) payload.length k1 (some k2) h hk1]
    have hp : payload_written (some payload) payload.length (some k2) = payload := by
      simp only [payload_written, List.take_length, List.take_of_length_le hk2]
      cases payload <;> simp
    rw [hp, record_hdr, List.append_assoc]
  refine ⟨e, ?_⟩
  rw [e]
  simp only [List.length_append, be32_length, be64_length]

/-- C4: for 16-bit `index` and `opcode`, the flags word of `btsnoop_write` under
type 2001 is `index * 65536 + opcode`, and the split of `btsnoop_read` under type
2001 gives back that index and that opcode. -/
theorem flags_2001_split (index opcode : Nat) (hi : index < 65536) (ho : opcode < 65536) :
    flags_2001 index opcode = index * 65536 + opcode
    ∧ index_2001 (flags_2001 index opcode) = index
    ∧ opcode_2001 (flags_2001 index opcode) = opcode := by
  rw [index_2001_eq, opcode_2001_eq, flags_2001_eq index opcode ho]
  refine ⟨?_, ?_, ?_⟩ <;> omega

/-! ## Creating and opening a file -/

/-- C7: when no session is open, `open` succeeds and the kernel accepts the whole
header, `btsnoop_create` leaves a file of exactly the 16 bytes
`62 74 73 6e 6f 6f 70 00`, `00 00 00 01`, `00 00 07 d1` and a write session
whose remembered type is 2001. -/
theorem btsnoop_create_header (s : State) (fd k : Nat) (hc : s.btsnoop_fd < 0) (hk : 16 ≤ k) :
    (btsnoop_create s (some fd) (some k)).file
        = [0x62, 0x74, 0x73, 0x6e, 0x6f, 0x6f, 0x70, 0x00, 0x00, 0x00, 0x00, 0x01,
           0x00, 0x00, 0x07, 0xd1]
    ∧ (btsnoop_create s (some fd) (some k)).btsnoop_fd = (fd : Int)
    ∧ (btsnoop_create s (some fd) (some k)).btsnoop_type = 2001
    ∧ OpenForWrite (btsnoop_create s (some fd) (some k)) := by
  have hlen : (btsnoop_id ++ store32 (htonl btsnoop_version) ++ store32 (htonl 2001)).length ≤ k :=
    hk
  have hbytes : btsnoop_id ++ store32 (htonl btsnoop_version) ++ store32 (htonl 2001)
      = [0x62, 0x74, 0x73, 0x6e, 0x6f, 0x6f, 0x70, 0x00, 0x00, 0x00, 0x00, 0x01,
         0x00, 0x00, 0x07, 0xd1] := by decide
  have e : btsnoop_create s (some fd) (some k)
      = { btsnoop_type := 2001, btsnoop_fd := (fd : Int), btsnoop_index := s.btsnoop_index,
          show_index := s.show_index, desc := some ⟨fd, true, 16⟩,
          file := [0x62, 0x74, 0x73, 0x6e, 0x6f, 0x6f, 0x70, 0x00, 0x00, 0x00, 0x00, 0x01,
                   0x00, 0x00, 0x07, 0xd1] } := by
    simp only [btsnoop_create, if_neg (not_le.mpr hc), sys_write, List.take_of_length_le hlen]
    simp [hbytes]
  rw [e]
  simp [OpenForWrite]

/-- C9: while a session is open (`btsnoop_fd >= 0`), `btsnoop_open` returns -1 and
`btsnoop_create` returns at once, and neither changes anything: the three
variables, the descriptor with its offset and the file are as before. -/
theorem open_create_while_open (s : State) (o : Option (Nat × List Byte)) (fail : Bool)
    (o2 w : Option Nat) (h : 0 ≤ s.btsnoop_fd) :
    btsnoop_open s o fail = (-1, s) ∧ btsnoop_create s o2 w = s := by
  constructor
  · simp only [btsnoop_open, ge_iff_le, if_pos h]
  · simp only [btsnoop_create, ge_iff_le, if_pos h]

theorem getD_take (l : List Byte) (n i : Nat) (h : i < n) :
    (l.take n).getD i 0 = l.getD i 0 := by
  simp [List.getD_eq_getElem?_getD, List.getElem?_take, h]

theorem getD_drop (l : List Byte) (off i : Nat) :
    (l.drop off).getD i 0 = l.getD (off + i) 0 := by
  simp [List.getD_eq_getElem?_getD]

/-- The state in which `btsnoop_open` reads the header. -/
theorem openForRead_fresh (s : State) (fd : Nat) (bytes : List Byte) :
    OpenForRead { s with btsnoop_fd := (fd : Int), desc := some ⟨fd, false, 0⟩, file := bytes } 0 :=
  ⟨Int.ofNat_nonneg fd, by simp⟩

/-- C8: with no session open, for every file whose first 8 bytes are not the
magic, or whose big-endian version field is not 1, or that has fewer than 16
bytes, `btsnoop_open` returns -1, the descriptor is closed and `btsnoop_fd` is -1. -/
theorem btsnoop_open_rejects (s : State) (fd : Nat) (bytes : List Byte) (fail : Bool)
    (hc : s.btsnoop_fd < 0)
    (hbad : bytes.take 8 ≠ btsnoop_id ∨ be32dec bytes 8 ≠ 1 ∨ bytes.length < 16) :
    (btsnoop_open s (some (fd, bytes)) fail).1 = -1
    ∧ (btsnoop_open s (some (fd, bytes)) fail).2.btsnoop_fd = -1
    ∧ (btsnoop_open s (some (fd, bytes)) fail).2.desc = none := by
  have hr := openForRead_fresh s fd bytes
  simp only [btsnoop_open, ge_iff_le, if_neg (not_le.mpr hc)]
  cases fail with
  | true =>
    simp only [sys_read_fail]
    simp [close_fd, sys_close]
  | false =>
    have hread := sys_read_ok _ 0 BTSNOOP_HDR_SIZE hr
    simp only [] at hread
    rw [hread]
    simp only [List.drop_zero]
    by_cases hlen : bytes.length < 16
    · have h1 : (((List.take BTSNOOP_HDR_SIZE bytes).length : Nat) : Int)
          ≠ (BTSNOOP_HDR_SIZE : Int) := by
        simp only [BTSNOOP_HDR_SIZE, List.length_take]
        omega
      simp only [h1, ne_eq, not_false_eq_true, or_true, if_true]
      simp [close_fd, sys_close]
    · have h1 : (((List.take BTSNOOP_HDR_SIZE bytes).length : Nat) : Int)
          = (BTSNOOP_HDR_SIZE : Int) := by
        simp only [BTSNOOP_HDR_SIZE, List.length_take]
        omega
      have h2 : ¬ ((((List.take BTSNOOP_HDR_SIZE bytes).length : Nat) : Int) < 0) := by omega
      have h3 : List.take 8 (List.take BTSNOOP_HDR_SIZE bytes) = List.take 8 bytes := by
        simp [BTSNOOP_HDR_SIZE, List.take_take]
      have h4 : ntohl (load32 (List.take BTSNOOP_HDR_SIZE bytes) 8) = be32dec bytes 8 := by
        rw [ntohl_load32]
        simp only [be32dec, BTSNOOP_HDR_SIZE]
        rw [getD_take _ _ _ (by omega), getD_take _ _ _ (by omega), getD_take _ _ _ (by omega),
          getD_take _ _ _ (by omega)]
      simp only [h1, h2, h3, h4, ne_eq, not_true_eq_false, or_self, if_false, btsnoop_version]
      by_cases hm : List.take 8 bytes = btsnoop_id
      · have hv : be32dec bytes 8 ≠ 1 := by
          rcases hbad with hb | hb | hb
          · exact absurd hm hb
          · exact hb
          · exact absurd hb hlen
        simp only [hm, not_true_eq_false, if_false, hv, not_false_eq_true, if_true]
        simp [close_fd, sys_close]
      · simp only [hm, not_false_eq_true, if_true]
        simp [close_fd, sys_close]

/-! ## Reading one record -/

/-- C10: on a read session, when no byte remains and the `read` does not fail,
`btsnoop_read` returns -1 without a frame and leaves the session as it was (still
open); when between 1 and 23 bytes remain, it returns -1 without a frame, closes
the descriptor and sets `btsnoop_fd` to -1. -/
theorem btsnoop_read_eof_or_short (P : Packet) (s : State) (off : Nat) (a : ReadOut)
    (e : ReadEnv) (h : OpenForRead s off) :
    ((s.file.drop off).length = 0 → e.fail_pkt = false → btsnoop_read P s a e = (-1, s, a))
    ∧ (0 < (s.file.drop off).length → (s.file.drop off).length < 24 →
        btsnoop_read P s a e = (-1, { s with btsnoop_fd := -1, desc := none }, a)) := by
  have hfd : ¬ (s.btsnoop_fd < 0) := not_lt.mpr h.1
  have hcast : ((s.btsnoop_fd.toNat : Nat) : Int) = s.btsnoop_fd := Int.toNat_of_nonneg h.1
  constructor
  · intro h0 hf
    have hnil : s.file.drop off = [] := List.length_eq_zero.mp h0
    have hread := sys_read_ok s off BTSNOOP_PKT_SIZE h
    simp only [hnil, List.take_nil, List.length_nil, Nat.add_zero] at hread
    have hs : { s with desc := some ⟨s.btsnoop_fd.toNat, false, off⟩ } = s := by
      rw [← h.2]
    simp only [btsnoop_read, if_neg hfd, hf, hread, hs]
    simp
  · intro h1 h2
    have hlen : ((s.file.drop off).take BTSNOOP_PKT_SIZE).length = (s.file.drop off).length := by
      simp only [BTSNOOP_PKT_SIZE, List.length_take]
      omega
    cases hf : e.fail_pkt with
    | true =>
      simp only [btsnoop_read, if_neg hfd, hf, sys_read_fail]
      simp [close_fd_desc s _ h.2 hcast]
    | false =>
      have hread := sys_read_ok s off BTSNOOP_PKT_SIZE h
      have hne0 : ¬ ((((s.file.drop off).take BTSNOOP_PKT_SIZE).length : Nat) : Int) = 0 := by
        omega
      have hne : ((((s.file.drop off).take BTSNOOP_PKT_SIZE).length : Nat) : Int)
          ≠ (BTSNOOP_PKT_SIZE : Int) := by
        rw [hlen]
        simp only [BTSNOOP_PKT_SIZE]
        omega
      simp only [btsnoop_read, if_neg hfd, hf, hread, if_neg hne0, hne, ne_eq, not_false_eq_true,
        or_true, if_true]
      simp [close_fd, sys_close, hcast]

theorem be32dec_take_drop (l : List Byte) (off n i : Nat) (h : i + 4 ≤ n) :
    be32dec ((l.drop off).take n) i = be32dec l (off + i) := by
  simp only [be32dec]
  rw [getD_take _ _ _ (by omega), getD_take _ _ _ (by omega), getD_take _ _ _ (by omega),
    getD_take _ _ _ (by omega)]
  simp only [getD_drop, Nat.add_assoc]

theorem be64dec_take_drop (l : List Byte) (off n i : Nat) (h : i + 8 ≤ n) :
    be64dec ((l.drop off).take n) i = be64dec l (off + i) := by
  simp only [be64dec]
  rw [be32dec_take_drop _ _ _ _ (by omega), be32dec_take_drop _ _ _ _ (by omega)]
  simp only [Nat.add_assoc]

theorem be32dec_lt (l : List Byte) (i : Nat) : be32dec l i < 4294967296 := by
  simp only [be32dec]
  have h0 := (l.getD i 0).isLt
  have h1 := (l.getD (i + 1) 0).isLt
  have h2 := (l.getD (i + 2) 0).isLt
  have h3 := (l.getD (i + 3) 0).isLt
  omega

/-- The payload `read` at the end of `btsnoop_read`, when it does not fail. -/
theorem read_data_ok (s : State) (off : Nat) (a : ReadOut) (toread : Nat)
    (h : OpenForRead s off) :
    read_data s a toread false
      = (0, { s with desc := some ⟨s.btsnoop_fd.toNat, false,
                                   off + ((s.file.drop off).take toread).length⟩ },
          { a with data := fill a.data ((s.file.drop off).take toread), size := toread % 65536 })
      := by
  have hneg : ¬ ((((s.file.drop off).take toread).length : Nat) : Int) < 0 := by omega
  simp only [read_data, sys_read_ok s off toread h, if_neg hneg]

/-- A read of a type-2001 file at a complete record prefix, when no `read`
fails: the frame comes from the big-endian fields of the prefix, the payload is
what the file still holds of the `size` bytes after the prefix. -/
theorem btsnoop_read_2001 (P : Packet) (s : State) (off : Nat) (a : ReadOut) (e : ReadEnv)
    (h : OpenForRead s off) (ht : s.btsnoop_type = 2001) (hf1 : e.fail_pkt = false)
    (hf3 : e.fail_data = false) (hlen : 24 ≤ (s.file.drop off).length) :
    btsnoop_read P s a e
      = (0,
          { s with desc := some ⟨s.btsnoop_fd.toNat, false,
              off + 24 + ((s.file.drop (off + 24)).take (be32dec s.file off)).length⟩ },
          { tv := read_tv (read_ts (be64dec s.file (off + 16)))
            index := index_2001 (be32dec s.file (off + 8))
            opcode := opcode_2001 (be32dec s.file (off + 8))
            data := fill a.data ((s.file.drop (off + 24)).take (be32dec s.file off))
            size := be32dec s.file off % 65536 }) := by
  have hfd : ¬ (s.btsnoop_fd < 0) := not_lt.mpr h.1
  have hread := sys_read_ok s off BTSNOOP_PKT_SIZE h
  have hl : ((s.file.drop off).take BTSNOOP_PKT_SIZE).length = 24 := by
    simp only [BTSNOOP_PKT_SIZE, List.length_take]
    omega
  rw [hl] at hread
  have h1 := openForRead_advance s off (off + 24) h
  have hd := read_data_ok _ (off + 24) (a := { a with
      tv := read_tv (read_ts (be64dec s.file (off + 16)))
      index := index_2001 (be32dec s.file (off + 8))
      opcode := opcode_2001 (be32dec s.file (off + 8)) }) (be32dec s.file off) h1
  simp only [] at hd
  have e1 : ntohl (btsnoop_pkt.ofBytes ((s.file.drop off).take BTSNOOP_PKT_SIZE)).size
      = be32dec s.file off := by
    simp only [btsnoop_pkt.ofBytes, ntohl_load32, BTSNOOP_PKT_SIZE]
    rw [be32dec_take_drop _ _ _ _ (by omega)]
    rfl
  have e2 : ntohl (btsnoop_pkt.ofBytes ((s.file.drop off).take BTSNOOP_PKT_SIZE)).flags
      = be32dec s.file (off + 8) := by
    simp only [btsnoop_pkt.ofBytes, ntohl_load32, BTSNOOP_PKT_SIZE]
    rw [be32dec_take_drop _ _ _ _ (by omega)]
  have e3 : ntoh64 (btsnoop_pkt.ofBytes ((s.file.drop off).take BTSNOOP_PKT_SIZE)).ts
      = be64dec s.file (off + 16) := by
    simp only [btsnoop_pkt.ofBytes, ntoh64_load64, BTSNOOP_PKT_SIZE]
    rw [be64dec_take_drop _ _ _ _ (by omega)]
  have c1 : ¬ (((24 : Nat) : Int) = 0) := by omega
  have c2 : ¬ ((((24 : Nat) : Int) < 0) ∨ ((24 : Nat) : Int) ≠ (BTSNOOP_PKT_SIZE : Int)) := by
    simp only [BTSNOOP_PKT_SIZE]
    omega
  have t1 : ¬ ((2001 : Nat) = 1001) := by decide
  have t2 : ¬ ((2001 : Nat) = 1002) := by decide
  simp only [ht] at hd
  simp only [btsnoop_read, if_neg hfd, hf1, hf3, hread, if_neg c1, if_neg c2, ht, if_neg t1,
    if_neg t2, if_true, e1, e2, e3]
  exact hd

theorem be32dec_drop (l : List Byte) (off i : Nat) :
    be32dec l (off + i) = be32dec (l.drop off) i := by
  simp only [be32dec, getD_drop, Nat.add_assoc]

theorem be64dec_drop (l : List Byte) (off i : Nat) :
    be64dec l (off + i) = be64dec (l.drop off) i := by
  simp only [be64dec, ← be32dec_drop, Nat.add_assoc]

/-- Under type 2001 `btsnoop_write` is `do_write` with the packed flags. -/
theorem btsnoop_write_2001 (P : Packet) (s : State) (tv : Timeval) (index opcode : Nat)
    (data : Option (List Byte)) (size : Nat) (w1 w2 : Option Nat) (h0 : 0 ≤ s.btsnoop_fd)
    (ht : s.btsnoop_type = 2001) :
    btsnoop_write P s (some tv) index opcode data size w1 w2
      = do_write s tv (flags_2001 index opcode) data size w1 w2 := by
  have t1 : ¬ ((2001 : Nat) = 1001) := by decide
  simp only [btsnoop_write, if_neg (not_lt.mpr h0), ht, if_neg t1, if_true]

/-- The frame that `btsnoop_read` returns for a record written by `btsnoop_write`,
both under type 2001: index, opcode, payload and size are those written, the time
is the decoding of the stamp. -/
theorem read_written_record (P : Packet) (w : State) (tv : Timeval) (index opcode : Nat)
    (payload : List Byte) (k1 k2 : Nat) (r : State) (off : Nat) (a : ReadOut) (e : ReadEnv)
    (rest : List Byte)
    (hw : OpenForWrite w) (hwt : w.btsnoop_type = 2001) (hk1 : 24 ≤ k1)
    (hk2 : payload.length ≤ k2) (hi : index < 65536) (ho : opcode < 65536)
    (hp : payload.length ≤ 65535)
    (hrd : OpenForRead r off) (hrt : r.btsnoop_type = 2001) (hf1 : e.fail_pkt = false)
    (hf3 : e.fail_data = false)
    (hrec : r.file.drop off
      = (btsnoop_write P w (some tv) index opcode (some payload) payload.length
          (some k1) (some k2)).file.drop w.file.length ++ rest) :
    (btsnoop_read P r a e).1 = 0
    ∧ (btsnoop_read P r a e).2.2.tv = read_tv (read_ts (do_write_stamp tv))
    ∧ (btsnoop_read P r a e).2.2.index = index
    ∧ (btsnoop_read P r a e).2.2.opcode = opcode
    ∧ (btsnoop_read P r a e).2.2.data.take payload.length = payload
    ∧ (btsnoop_read P r a e).2.2.size = payload.length := by
  rw [btsnoop_write_2001 P w tv index opcode _ _ _ _ hw.1 hwt,
    do_write_file w tv _ _ _ k1 _ hw hk1] at hrec
  have hpw : payload_written (some payload) payload.length (some k2) = payload := by
    simp only [payload_written, List.take_length, List.take_of_length_le hk2]
    cases payload <;> simp
  rw [hpw, List.append_assoc, List.drop_left, List.append_assoc] at hrec
  have hlen : 24 ≤ (r.file.drop off).length := by
    rw [hrec, List.length_append, record_hdr_length]
    omega
  obtain ⟨f1, _, f3, _, f5⟩ := record_hdr_fields payload.length payload.length
    (flags_2001 index opcode) 0 (do_write_stamp tv) (payload ++ rest)
  have g1 : be32dec r.file off = payload.length := by
    have := be32dec_drop r.file off 0
    rw [Nat.add_zero] at this
    rw [this, hrec, f1]
    omega
  have g3 : be32dec r.file (off + 8) = index * 65536 + opcode := by
    rw [be32dec_drop, hrec, f3, flags_2001_eq index opcode ho]
    omega
  have g5 : be64dec r.file (off + 16) = do_write_stamp tv := by
    rw [be64dec_drop, hrec, f5, Nat.mod_eq_of_lt (do_write_stamp_lt tv)]
  have g6 : (r.file.drop (off + 24)).take payload.length = payload := by
    have hd : r.file.drop (off + 24) = payload ++ rest := by
      rw [← List.drop_drop, hrec]
      exact List.drop_left' (record_hdr_length _ _ _ _ _)
    rw [hd, List.take_left]
  rw [btsnoop_read_2001 P r off a e hrd hrt hf1 hf3 hlen, g1, g3, g5, g6]
  simp only [fill, List.take_left, index_2001_eq, opcode_2001_eq, true_and]
  refine ⟨?_, ?_, ?_⟩ <;> omega

/-! ## Round trips -/

/-- C2, as the code has it: for every time with `seconds >= 946684800` and
`0 <= microseconds < 1000000` whose stamp fits 64 bits, decoding the `pkt.ts` value
of `do_write` with the computation of `btsnoop_read` gives the time back. -/
theorem timestamp_roundtrip_from_2000 (tv : Timeval) (hs : 946684800 ≤ tv.tv_sec)
    (h0 : 0 ≤ tv.tv_usec) (h1 : tv.tv_usec < 1000000)
    (hr : (tv.tv_sec - 946684800) * 1000000 + tv.tv_usec + 0x00E03AB44A676000
      < 18446744073709551616) :
    read_tv (read_ts (ntoh64 (hton64 (do_write_stamp tv)))) = tv := by
  rw [ntoh64_hton64 _ (do_write_stamp_lt tv)]
  exact read_tv_do_write_stamp tv hs h0 h1 hr

/-- C2 at 2001-09-09 01:46:40.5. -/
theorem timestamp_roundtrip_from_2000_witness :
    read_tv (read_ts (ntoh64 (hton64 (do_write_stamp ⟨1000000000, 500000⟩))))
      = ⟨1000000000, 500000⟩ :=
  timestamp_roundtrip_from_2000 ⟨1000000000, 500000⟩ (by decide) (by decide) (by decide)
    (by decide)

/-- C2 fails as stated: 1970-01-01 00:00:00 has microseconds in range and a stamp
that fits 64 bits (62168256000000000), yet it decodes to second 18446744073709,
microsecond 551616. -/
theorem timestamp_roundtrip_fails_1970 :
    (0 : Int) ≤ (⟨0, 0⟩ : Timeval).tv_usec
    ∧ (⟨0, 0⟩ : Timeval).tv_usec < 1000000
    ∧ (0 : Int) ≤ ((⟨0, 0⟩ : Timeval).tv_sec - 946684800) * 1000000 + (⟨0, 0⟩ : Timeval).tv_usec
        + 0x00E03AB44A676000
    ∧ ((⟨0, 0⟩ : Timeval).tv_sec - 946684800) * 1000000 + (⟨0, 0⟩ : Timeval).tv_usec
        + 0x00E03AB44A676000 < 18446744073709551616
    ∧ do_write_stamp ⟨0, 0⟩ = 62168256000000000
    ∧ read_tv (read_ts (ntoh64 (hton64 (do_write_stamp ⟨0, 0⟩)))) = ⟨18446744073709, 551616⟩
    ∧ read_tv (read_ts (ntoh64 (hton64 (do_write_stamp ⟨0, 0⟩)))) ≠ ⟨0, 0⟩ := by
  decide

/-- C1, as the code has it: for every frame with `seconds >= 946684800`,
`0 <= microseconds < 1000000` and a stamp that fits 64 bits, a 16-bit index, a
16-bit opcode and a payload of at most 65535 bytes, `btsnoop_read` under type 2001
on the record that `btsnoop_write` wrote under type 2001 succeeds and returns the
same time, index, opcode, payload bytes and payload size. -/
theorem write_read_roundtrip (P : Packet) (w : State) (tv : Timeval) (index opcode : Nat)
    (payload : List Byte) (k1 k2 : Nat) (r : State) (off : Nat) (a : ReadOut) (e : ReadEnv)
    (rest : List Byte)
    (hw : OpenForWrite w) (hwt : w.btsnoop_type = 2001) (hk1 : 24 ≤ k1)
    (hk2 : payload.length ≤ k2) (hi : index < 65536) (ho : opcode < 65536)
    (hp : payload.length ≤ 65535)
    (hs : 946684800 ≤ tv.tv_sec) (h0 : 0 ≤ tv.tv_usec) (h1 : tv.tv_usec < 1000000)
    (hr : (tv.tv_sec - 946684800) * 1000000 + tv.tv_usec + 0x00E03AB44A676000
      < 18446744073709551616)
    (hrd : OpenForRead r off) (hrt : r.btsnoop_type = 2001) (hf1 : e.fail_pkt = false)
    (hf3 : e.fail_data = false)
    (hrec : r.file.drop off
      = (btsnoop_write P w (some tv) index opcode (some payload) payload.length
          (some k1) (some k2)).file.drop w.file.length ++ rest) :
    (btsnoop_read P r a e).1 = 0
    ∧ (btsnoop_read P r a e).2.2.tv = tv
    ∧ (btsnoop_read P r a e).2.2.index = index
    ∧ (btsnoop_read P r a e).2.2.opcode = opcode
    ∧ (btsnoop_read P r a e).2.2.data.take payload.length = payload
    ∧ (btsnoop_read P r a e).2.2.size = payload.length := by
  have h := read_written_record P w tv index opcode payload k1 k2 r off a e rest hw hwt hk1 hk2
    hi ho hp hrd hrt hf1 hf3 hrec
  rw [read_tv_do_write_stamp tv hs h0 h1 hr] at h
  exact h

/-- C1 on a frame of 2001-09-09 01:46:40.5, index 1, opcode 2, payload `aa bb`,
written after the header of a new capture and read back from the file. -/
theorem write_read_roundtrip_witness :
    (btsnoop_read ex_packet
        (ex_reader (btsnoop_write ex_packet ex_created (some ⟨1000000000, 500000⟩) 1 2
          (some [0xaa, 0xbb]) 2 (some 24) (some 2)).file) ex_out ReadEnv.ok).1 = 0
    ∧ (btsnoop_read ex_packet
        (ex_reader (btsnoop_write ex_packet ex_created (some ⟨1000000000, 500000⟩) 1 2
          (some [0xaa, 0xbb]) 2 (some 24) (some 2)).file) ex_out ReadEnv.ok).2.2
      = { tv := ⟨1000000000, 500000⟩, index := 1, opcode := 2, data := [0xaa, 0xbb], size := 2 }
    := by
  have h := write_read_roundtrip ex_packet ex_created ⟨1000000000, 500000⟩ 1 2 [0xaa, 0xbb] 24 2
    (ex_reader (btsnoop_write ex_packet ex_created (some ⟨1000000000, 500000⟩) 1 2
      (some [0xaa, 0xbb]) 2 (some 24) (some 2)).file) 16 ex_out ReadEnv.ok []
    (by decide) (by decide) (by decide) (by decide) (by decide) (by decide) (by decide)
    (by decide) (by decide) (by decide) (by decide) (by decide) (by decide) (by decide)
    (by decide) (by decide)
  exact ⟨h.1, by decide⟩

/-- C1 fails as stated: the frame stamped 1970-01-01 00:00:00 (index 1, opcode 2,
payload `aa bb`), written under type 2001 after the header of a new capture and
read back under type 2001, comes back with second 18446744073709 and microsecond
551616; index, opcode, payload and size are those written. -/
theorem write_read_roundtrip_fails_1970 :
    OpenForWrite ex_created
    ∧ ex_created.btsnoop_type = 2001
    ∧ (ex_reader (btsnoop_write ex_packet ex_created (some ⟨0, 0⟩) 1 2
          (some [0xaa, 0xbb]) 2 (some 24) (some 2)).file).btsnoop_type = 2001
    ∧ btsnoop_read ex_packet
        (ex_reader (btsnoop_write ex_packet ex_created (some ⟨0, 0⟩) 1 2
          (some [0xaa, 0xbb]) 2 (some 24) (some 2)).file) ex_out ReadEnv.ok
      = (0,
          { btsnoop_type := 2001, btsnoop_fd := 4, btsnoop_index := 0xffff, show_index := true,
            desc := some ⟨4, false, 42⟩,
            file := (btsnoop_write ex_packet ex_created (some ⟨0, 0⟩) 1 2
              (some [0xaa, 0xbb]) 2 (some 24) (some 2)).file },
          { tv := ⟨18446744073709, 551616⟩, index := 1, opcode := 2, data := [0xaa, 0xbb],
            size := 2 })
    ∧ (btsnoop_read ex_packet
        (ex_reader (btsnoop_write ex_packet ex_created (some ⟨0, 0⟩) 1 2
          (some [0xaa, 0xbb]) 2 (some 24) (some 2)).file) ex_out ReadEnv.ok).2.2.tv
      ≠ ⟨0, 0⟩ := by
  decide

/-! ## Instances on example sessions -/

/-- C3 on a new capture and the time 2001-09-09 01:46:40.5: the stamp is
63168256000500000. -/
theorem do_write_timestamp_field_witness :
    ((be64dec (do_write ex_created ⟨1000000000, 500000⟩ 0x10002 (some [0xaa, 0xbb]) 2
        (some 24) (some 2)).file (ex_created.file.length + 16) : Nat) : Int)
      = (((⟨1000000000, 500000⟩ : Timeval).tv_sec - 946684800) * 1000000
          + (⟨1000000000, 500000⟩ : Timeval).tv_usec + 0x00E03AB44A676000)
          % 18446744073709551616
    ∧ be64dec (do_write ex_created ⟨1000000000, 500000⟩ 0x10002 (some [0xaa, 0xbb]) 2
        (some 24) (some 2)).file (ex_created.file.length + 16) = 63168256000500000 :=
  ⟨do_write_timestamp_field ex_created ⟨1000000000, 500000⟩ 0x10002 (some [0xaa, 0xbb]) 2 24
    (some 2) (by decide) (by decide), by decide⟩

/-- C4 on index 1 and opcode 2: the flags word is 0x10002. -/
theorem flags_2001_split_witness :
    (1 < 65536 ∧ 2 < 65536)
    ∧ flags_2001 1 2 = 1 * 65536 + 2
    ∧ index_2001 (flags_2001 1 2) = 1
    ∧ opcode_2001 (flags_2001 1 2) = 2 :=
  ⟨by decide, flags_2001_split 1 2 (by decide) (by decide)⟩

/-- C5 on a new capture and the payload `aa bb`. -/
theorem do_write_length_fields_witness :
    be32dec (do_write ex_created ⟨1000000000, 500000⟩ 0x10002 (some [0xaa, 0xbb])
        ([0xaa, 0xbb] : List Byte).length (some 24) (some 2)).file ex_created.file.length
        = ([0xaa, 0xbb] : List Byte).length
    ∧ be32dec (do_write ex_created ⟨1000000000, 500000⟩ 0x10002 (some [0xaa, 0xbb])
        ([0xaa, 0xbb] : List Byte).length (some 24) (some 2)).file
        (ex_created.file.length + 4) = ([0xaa, 0xbb] : List Byte).length
    ∧ be32dec (do_write ex_created ⟨1000000000, 500000⟩ 0x10002 (some [0xaa, 0xbb])
        ([0xaa, 0xbb] : List Byte).length (some 24) (some 2)).file
        (ex_created.file.length + 12) = 0 :=
  do_write_length_fields ex_created ⟨1000000000, 500000⟩ 0x10002 [0xaa, 0xbb] 24 (some 2)
    (by decide) (by decide) (by decide)

/-- C6 on a new capture and the payload `aa bb`: 26 bytes follow the header. -/
theorem do_write_appends_record_witness :
    (do_write ex_created ⟨1000000000, 500000⟩ 0x10002 (some [0xaa, 0xbb])
        ([0xaa, 0xbb] : List Byte).length (some 24) (some 2)).file
      = ex_created.file ++ [0, 0, 0, 2, 0, 0, 0, 2, 0, 1, 0, 2, 0, 0, 0, 0,
          0x00, 0xe0, 0x6b, 0x31, 0xb3, 0xfd, 0xa1, 0x20, 0xaa, 0xbb]
    ∧ (do_write ex_created ⟨1000000000, 500000⟩ 0x10002 (some [0xaa, 0xbb])
        ([0xaa, 0xbb] : List Byte).length (some 24) (some 2)).file.length
      = ex_created.file.length + (24 + ([0xaa, 0xbb] : List Byte).length) :=
  ⟨(do_write_appends_record ex_created ⟨1000000000, 500000⟩ 0x10002 [0xaa, 0xbb] 24 2
      (by decide) (by decide) (by decide)).1.trans (by decide),
    (do_write_appends_record ex_created ⟨1000000000, 500000⟩ 0x10002 [0xaa, 0xbb] 24 2
      (by decide) (by decide) (by decide)).2⟩

/-- C7 from the state at program start, with descriptor 3. -/
theorem btsnoop_create_header_witness :
    State.init.btsnoop_fd < 0
    ∧ (btsnoop_create State.init (some 3) (some 16)).file
        = [0x62, 0x74, 0x73, 0x6e, 0x6f, 0x6f, 0x70, 0x00, 0x00, 0x00, 0x00, 0x01,
           0x00, 0x00, 0x07, 0xd1]
    ∧ (btsnoop_create State.init (some 3) (some 16)).btsnoop_fd = ((3 : Nat) : Int)
    ∧ (btsnoop_create State.init (some 3) (some 16)).btsnoop_type = 2001
    ∧ OpenForWrite (btsnoop_create State.init (some 3) (some 16)) :=
  ⟨by decide, btsnoop_create_header State.init 3 16 (by decide) (by decide)⟩

/-- C8 on three files: one with a wrong last magic byte, one with version 2, one
of 15 bytes. -/
theorem btsnoop_open_rejects_witness :
    ((btsnoop_open State.init
        (some (4, [0x62, 0x74, 0x73, 0x6e, 0x6f, 0x6f, 0x70, 0x01, 0, 0, 0, 1, 0, 0, 7, 0xd1]))
        false).1 = -1
      ∧ (btsnoop_open State.init
        (some (4, [0x62, 0x74, 0x73, 0x6e, 0x6f, 0x6f, 0x70, 0x01, 0, 0, 0, 1, 0, 0, 7, 0xd1]))
        false).2.btsnoop_fd = -1
      ∧ (btsnoop_open State.init
        (some (4, [0x62, 0x74, 0x73, 0x6e, 0x6f, 0x6f, 0x70, 0x01, 0, 0, 0, 1, 0, 0, 7, 0xd1]))
        false).2.desc = none)
    ∧ ((btsnoop_open State.init
        (some (4, [0x62, 0x74, 0x73, 0x6e, 0x6f, 0x6f, 0x70, 0x00, 0, 0, 0, 2, 0, 0, 7, 0xd1]))
        false).1 = -1
      ∧ (btsnoop_open State.init
        (some (4, [0x62, 0x74, 0x73, 0x6e, 0x6f, 0x6f, 0x70, 0x00, 0, 0, 0, 2, 0, 0, 7, 0xd1]))
        false).2.btsnoop_fd = -1
      ∧ (btsnoop_open State.init
        (some (4, [0x62, 0x74, 0x73, 0x6e, 0x6f, 0x6f, 0x70, 0x00, 0, 0, 0, 2, 0, 0, 7, 0xd1]))
        false).2.desc = none)
    ∧ ((btsnoop_open State.init
        (some (4, [0x62, 0x74, 0x73, 0x6e, 0x6f, 0x6f, 0x70, 0x00, 0, 0, 0, 1, 0, 0, 7]))
        false).1 = -1
      ∧ (btsnoop_open State.init
        (some (4, [0x62, 0x74, 0x73, 0x6e, 0x6f, 0x6f, 0x70, 0x00, 0, 0, 0, 1, 0, 0, 7]))
        false).2.btsnoop_fd = -1
      ∧ (btsnoop_open State.init
        (some (4, [0x62, 0x74, 0x73, 0x6e, 0x6f, 0x6f, 0x70, 0x00, 0, 0, 0, 1, 0, 0, 7]))
        false).2.desc = none) :=
  ⟨btsnoop_open_rejects State.init 4 _ false (by decide) (Or.inl (by decide)),
    btsnoop_open_rejects State.init 4 _ false (by decide) (Or.inr (Or.inl (by decide))),
    btsnoop_open_rejects State.init 4 _ false (by decide) (Or.inr (Or.inr (by decide)))⟩

/-- C9 on a new capture: a second open and a second create change nothing. -/
theorem open_create_while_open_witness :
    0 ≤ ex_created.btsnoop_fd
    ∧ btsnoop_open ex_created (some (4, ex_created.file)) false = (-1, ex_created)
    ∧ btsnoop_create ex_created (some 4) (some 16) = ex_created :=
  ⟨by decide, open_create_while_open ex_created (some (4, ex_created.file)) false (some 4)
    (some 16) (by decide)⟩

/-- C10 on a file that ends after its header, and on one with three more bytes. -/
theorem btsnoop_read_eof_or_short_witness :
    btsnoop_read ex_packet (ex_reader ex_created.file) ex_out ReadEnv.ok
        = (-1, ex_reader ex_created.file, ex_out)
    ∧ btsnoop_read ex_packet (ex_reader (ex_created.file ++ [0, 0, 0])) ex_out ReadEnv.ok
        = (-1, { ex_reader (ex_created.file ++ [0, 0, 0]) with btsnoop_fd := -1, desc := none },
            ex_out) :=
  ⟨(btsnoop_read_eof_or_short ex_packet (ex_reader ex_created.file) 16 ex_out ReadEnv.ok
      (by decide)).1 (by decide) (by decide),
    (btsnoop_read_eof_or_short ex_packet (ex_reader (ex_created.file ++ [0, 0, 0])) 16 ex_out
      ReadEnv.ok (by decide)).2 (by decide) (by decide)⟩

/-! ## Reading under each file type -/

/-- The dispatch of `btsnoop_read` once a complete record prefix has been read. -/
theorem btsnoop_read_dispatch (P : Packet) (s : State) (off : Nat) (a : ReadOut) (e : ReadEnv)
    (h : OpenForRead s off) (hf1 : e.fail_pkt = false) (hlen : 24 ≤ (s.file.drop off).length) :
    btsnoop_read P s a e
      = if s.btsnoop_type = 1001 then
          read_data { s with desc := some ⟨s.btsnoop_fd.toNat, false, off + 24⟩ }
            { a with tv := read_tv (read_ts (be64dec s.file (off + 16))), index := 0,
                     opcode := P.packet_get_opcode 0xff (be32dec s.file (off + 8)) % 65536 }
            (be32dec s.file off) e.fail_data
        else if s.btsnoop_type = 1002 then
          if (sys_read { s with desc := some ⟨s.btsnoop_fd.toNat, false, off + 24⟩ }
                s.btsnoop_fd 1 e.fail_type).1 < 0 then
            (-1, close_fd (sys_read { s with desc := some ⟨s.btsnoop_fd.toNat, false, off + 24⟩ }
                s.btsnoop_fd 1 e.fail_type).2.2,
              { a with tv := read_tv (read_ts (be64dec s.file (off + 16))) })
          else
            read_data (sys_read { s with desc := some ⟨s.btsnoop_fd.toNat, false, off + 24⟩ }
                s.btsnoop_fd 1 e.fail_type).2.2
              { a with tv := read_tv (read_ts (be64dec s.file (off + 16))), index := 0,
                       opcode := P.packet_get_opcode
                         ((sys_read { s with desc := some ⟨s.btsnoop_fd.toNat, false, off + 24⟩ }
                            s.btsnoop_fd 1 e.fail_type).2.1.headD e.pkt_type).val
                         (be32dec s.file (off + 8)) % 65536 }
              ((be32dec s.file off + 4294967295) % 4294967296) e.fail_data
        else if s.btsnoop_type = 2001 then
          read_data { s with desc := some ⟨s.btsnoop_fd.toNat, false, off + 24⟩ }
            { a with tv := read_tv (read_ts (be64dec s.file (off + 16))),
                     index := index_2001 (be32dec s.file (off + 8)),
                     opcode := opcode_2001 (be32dec s.file (off + 8)) }
            (be32dec s.file off) e.fail_data
        else
          (-1, close_fd { s with desc := some ⟨s.btsnoop_fd.toNat, false, off + 24⟩ },
            { a with tv := read_tv (read_ts (be64dec s.file (off + 16))) }) := by
  have hfd : ¬ (s.btsnoop_fd < 0) := not_lt.mpr h.1
  have hread := sys_read_ok s off BTSNOOP_PKT_SIZE h
  have hl : ((s.file.drop off).take BTSNOOP_PKT_SIZE).length = 24 := by
    simp only [BTSNOOP_PKT_SIZE, List.length_take]
    omega
  rw [hl] at hread
  have e1 : ntohl (btsnoop_pkt.ofBytes ((s.file.drop off).take BTSNOOP_PKT_SIZE)).size
      = be32dec s.file off := by
    simp only [btsnoop_pkt.ofBytes, ntohl_load32, BTSNOOP_PKT_SIZE]
    rw [be32dec_take_drop _ _ _ _ (by omega)]
    rfl
  have e2 : ntohl (btsnoop_pkt.ofBytes ((s.file.drop off).take BTSNOOP_PKT_SIZE)).flags
      = be32dec s.file (off + 8) := by
    simp only [btsnoop_pkt.ofBytes, ntohl_load32, BTSNOOP_PKT_SIZE]
    rw [be32dec_take_drop _ _ _ _ (by omega)]
  have e3 : ntoh64 (btsnoop_pkt.ofBytes ((s.file.drop off).take BTSNOOP_PKT_SIZE)).ts
      = be64dec s.file (off + 16) := by
    simp only [btsnoop_pkt.ofBytes, ntoh64_load64, BTSNOOP_PKT_SIZE]
    rw [be64dec_take_drop _ _ _ _ (by omega)]
  have c1 : ¬ (((24 : Nat) : Int) = 0) := by omega
  have c2 : ¬ ((((24 : Nat) : Int) < 0) ∨ ((24 : Nat) : Int) ≠ (BTSNOOP_PKT_SIZE : Int)) := by
    simp only [BTSNOOP_PKT_SIZE]
    omega
  simp only [btsnoop_read, if_neg hfd, hf1, hread, if_neg c1, if_neg c2, e1, e2, e3]

/-- A read of a type-1001 file at a complete record prefix, when no `read` fails. -/
theorem btsnoop_read_1001 (P : Packet) (s : State) (off : Nat) (a : ReadOut) (e : ReadEnv)
    (h : OpenForRead s off) (ht : s.btsnoop_type = 1001) (hf1 : e.fail_pkt = false)
    (hf3 : e.fail_data = false) (hlen : 24 ≤ (s.file.drop off).length) :
    btsnoop_read P s a e
      = (0,
          { s with desc := some ⟨s.btsnoop_fd.toNat, false,
              off + 24 + ((s.file.drop (off + 24)).take (be32dec s.file off)).length⟩ },
          { tv := read_tv (read_ts (be64dec s.file (off + 16)))
            index := 0
            opcode := P.packet_get_opcode 0xff (be32dec s.file (off + 8)) % 65536
            data := fill a.data ((s.file.drop (off + 24)).take (be32dec s.file off))
            size := be32dec s.file off % 65536 }) := by
  have h1 := openForRead_advance s off (off + 24) h
  rw [btsnoop_read_dispatch P s off a e h hf1 hlen, if_pos ht, hf3,
    read_data_ok _ (off + 24) _ _ h1]

/-- The one-byte `read` of the packet type under type 1002, when the byte is there. -/
theorem sys_read_type_byte (s : State) (off : Nat) (h : OpenForRead s off)
    (hlen : 25 ≤ (s.file.drop off).length) :
    sys_read { s with desc := some ⟨s.btsnoop_fd.toNat, false, off + 24⟩ } s.btsnoop_fd 1 false
      = (1, [s.file.getD (off + 24) 0],
          { s with desc := some ⟨s.btsnoop_fd.toNat, false, off + 25⟩ }) := by
  have h1 := openForRead_advance s off (off + 24) h
  have hread := sys_read_ok _ (off + 24) 1 h1
  simp only [] at hread
  have hlt : off + 24 < s.file.length := by
    simp only [List.length_drop] at hlen
    omega
  have hgot : (s.file.drop (off + 24)).take 1 = [s.file.getD (off + 24) 0] := by
    have hg := getD_drop s.file (off + 24) 0
    rw [Nat.add_zero] at hg
    rw [← hg]
    cases hd : s.file.drop (off + 24) with
    | nil =>
      have := congrArg List.length hd
      simp only [List.length_drop, List.length_nil] at this
      omega
    | cons x xs => simp
  rw [hgot] at hread
  rw [hread]
  rfl

/-- A read of a type-1002 file at a complete record prefix followed by its type
byte, when no `read` fails. -/
theorem btsnoop_read_1002 (P : Packet) (s : State) (off : Nat) (a : ReadOut) (e : ReadEnv)
    (h : OpenForRead s off) (ht : s.btsnoop_type = 1002) (hf1 : e.fail_pkt = false)
    (hf2 : e.fail_type = false) (hf3 : e.fail_data = false)
    (hlen : 25 ≤ (s.file.drop off).length) :
    btsnoop_read P s a e
      = (0,
          { s with desc := some ⟨s.btsnoop_fd.toNat, false,
              off + 25 + ((s.file.drop (off + 25)).take
                ((be32dec s.file off + 4294967295) % 4294967296)).length⟩ },
          { tv := read_tv (read_ts (be64dec s.file (off + 16)))
            index := 0
            opcode := P.packet_get_opcode (s.file.getD (off + 24) 0).val
              (be32dec s.file (off + 8)) % 65536
            data := fill a.data ((s.file.drop (off + 25)).take
              ((be32dec s.file off + 4294967295) % 4294967296))
            size := (be32dec s.file off + 4294967295) % 4294967296 % 65536 }) := by
  have h2 := openForRead_advance s off (off + 25) h
  have t1 : ¬ (s.btsnoop_type = 1001) := by
    rw [ht]
    decide
  have c : ¬ ((1 : Int) < 0) := by decide
  rw [btsnoop_read_dispatch P s off a e h hf1 (by omega), if_neg t1, if_pos ht, hf2, hf3,
    sys_read_type_byte s off h hlen]
  simp only [if_neg c, List.headD_cons]
  rw [read_data_ok _ (off + 25) _ _ h2]

/-- A read of a file of unknown type at a complete record prefix: the time is
stored, then the session is closed with return value -1. -/
theorem btsnoop_read_unknown (P : Packet) (s : State) (off : Nat) (a : ReadOut) (e : ReadEnv)
    (h : OpenForRead s off) (h1 : s.btsnoop_type ≠ 1001) (h2 : s.btsnoop_type ≠ 1002)
    (h3 : s.btsnoop_type ≠ 2001) (hf1 : e.fail_pkt = false)
    (hlen : 24 ≤ (s.file.drop off).length) :
    btsnoop_read P s a e
      = (-1, { s with btsnoop_fd := -1, desc := none },
          { a with tv := read_tv (read_ts (be64dec s.file (off + 16))) }) := by
  have hcast : ((s.btsnoop_fd.toNat : Nat) : Int) = s.btsnoop_fd := Int.toNat_of_nonneg h.1
  rw [btsnoop_read_dispatch P s off a e h hf1 hlen, if_neg h1, if_neg h2, if_neg h3]
  simp [close_fd, sys_close, hcast]

/-- What `btsnoop_open` leaves when the header is complete, the magic matches and
the version is 1: a read session after the header whose type is the big-endian
fourth word of the header. -/
theorem btsnoop_open_accepts (s : State) (fd : Nat) (bytes : List Byte)
    (hc : s.btsnoop_fd < 0) (hlen : 16 ≤ bytes.length) (hm : bytes.take 8 = btsnoop_id)
    (hv : be32dec bytes 8 = 1) :
    (btsnoop_open s (some (fd, bytes)) false).1 = 0
    ∧ OpenForRead (btsnoop_open s (some (fd, bytes)) false).2 16
    ∧ (btsnoop_open s (some (fd, bytes)) false).2.btsnoop_type = be32dec bytes 12
    ∧ (btsnoop_open s (some (fd, bytes)) false).2.file = bytes
    ∧ (btsnoop_open s (some (fd, bytes)) false).2.btsnoop_index = s.btsnoop_index := by
  have hr := openForRead_fresh s fd bytes
  have hread := sys_read_ok _ 0 BTSNOOP_HDR_SIZE hr
  simp only [List.drop_zero] at hread
  have hl : (List.take BTSNOOP_HDR_SIZE bytes).length = 16 := by
    simp only [BTSNOOP_HDR_SIZE, List.length_take]
    omega
  have h1 : ¬ ((((List.take BTSNOOP_HDR_SIZE bytes).length : Nat) : Int) < 0
      ∨ (((List.take BTSNOOP_HDR_SIZE bytes).length : Nat) : Int) ≠ (BTSNOOP_HDR_SIZE : Int)) := by
    rw [hl]
    simp only [BTSNOOP_HDR_SIZE]
    omega
  have h3 : List.take 8 (List.take BTSNOOP_HDR_SIZE bytes) = List.take 8 bytes := by
    simp [BTSNOOP_HDR_SIZE, List.take_take]
  have h4 : ntohl (load32 (List.take BTSNOOP_HDR_SIZE bytes) 8) = be32dec bytes 8 := by
    rw [ntohl_load32]
    simp only [be32dec, BTSNOOP_HDR_SIZE]
    rw [getD_take _ _ _ (by omega), getD_take _ _ _ (by omega), getD_take _ _ _ (by omega),
      getD_take _ _ _ (by omega)]
  have h5 : ntohl (load32 (List.take BTSNOOP_HDR_SIZE bytes) 12) = be32dec bytes 12 := by
    rw [ntohl_load32]
    simp only [be32dec, BTSNOOP_HDR_SIZE]
    rw [getD_take _ _ _ (by omega), getD_take _ _ _ (by omega), getD_take _ _ _ (by omega),
      getD_take _ _ _ (by omega)]
  have hm2 : ¬ (List.take 8 bytes ≠ btsnoop_id) := not_not.mpr hm
  have hv2 : ¬ (be32dec bytes 8 ≠ btsnoop_version) := not_not.mpr hv
  simp only [btsnoop_open, ge_iff_le, if_neg (not_le.mpr hc), hread, if_neg h1, h3, h4, h5,
    if_neg hm2, if_neg hv2]
  split
  · simp [OpenForRead, packet_del_filter_show_index, hl]
  · split <;> simp [OpenForRead, packet_add_filter_show_index, hl]

/-! ## Claims on reading -/

/-- C11 does not hold on the code: `btsnoop_read` takes the byte count from the
original-length field. On a type-2001 record with original length 4, included
length 2 and payload `aa bb` it returns 4 as the size and four bytes, the last two
being the start of the next record, and leaves the offset two bytes into that
record. -/
theorem btsnoop_read_uses_original_length :
    be32dec ex_cut_capture 16 = 4
    ∧ be32dec ex_cut_capture 20 = 2
    ∧ btsnoop_read ex_packet (ex_reader ex_cut_capture) ex_out ReadEnv.ok
      = (0,
          { btsnoop_type := 2001, btsnoop_fd := 4, btsnoop_index := 0xffff, show_index := true,
            desc := some ⟨4, false, 44⟩, file := ex_cut_capture },
          { tv := ⟨1000000000, 500000⟩, index := 1, opcode := 2,
            data := [0xaa, 0xbb, 0x00, 0x00], size := 4 }) := by
  decide

/-- C12: at a complete record prefix with flags word `f`, when no `read` fails and
`packet_get_opcode` returns 16-bit values, `btsnoop_read` succeeds with index 0 and
opcode `packet_get_opcode(0xff, f)` under type 1001, with index 0 and opcode
`packet_get_opcode(type byte, f)` under type 1002 (the type byte being the byte
after the prefix), and with index `f >> 16` and opcode `f & 0xffff` under type
2001. -/
theorem btsnoop_read_variant_dispatch (P : Packet) (s : State) (off : Nat) (a : ReadOut)
    (e : ReadEnv) (h : OpenForRead s off)
    (hP : ∀ t f, P.packet_get_opcode t f < 65536)
    (hf1 : e.fail_pkt = false) (hf2 : e.fail_type = false) (hf3 : e.fail_data = false)
    (hlen : 24 ≤ (s.file.drop off).length) :
    (s.btsnoop_type = 1001 →
      (btsnoop_read P s a e).1 = 0
      ∧ (btsnoop_read P s a e).2.2.index = 0
      ∧ (btsnoop_read P s a e).2.2.opcode = P.packet_get_opcode 0xff (be32dec s.file (off + 8)))
    ∧ (s.btsnoop_type = 1002 → 25 ≤ (s.file.drop off).length →
      (btsnoop_read P s a e).1 = 0
      ∧ (btsnoop_read P s a e).2.2.index = 0
      ∧ (btsnoop_read P s a e).2.2.opcode
          = P.packet_get_opcode (s.file.getD (off + 24) 0).val (be32dec s.file (off + 8)))
    ∧ (s.btsnoop_type = 2001 →
      (btsnoop_read P s a e).1 = 0
      ∧ (btsnoop_read P s a e).2.2.index = be32dec s.file (off + 8) >>> 16
      ∧ (btsnoop_read P s a e).2.2.opcode = be32dec s.file (off + 8) &&& 0xFFFF) := by
  refine ⟨?_, ?_, ?_⟩
  · intro ht
    rw [btsnoop_read_1001 P s off a e h ht hf1 hf3 hlen]
    exact ⟨rfl, rfl, Nat.mod_eq_of_lt (hP _ _)⟩
  · intro ht h25
    rw [btsnoop_read_1002 P s off a e h ht hf1 hf2 hf3 h25]
    exact ⟨rfl, rfl, Nat.mod_eq_of_lt (hP _ _)⟩
  · intro ht
    rw [btsnoop_read_2001 P s off a e h ht hf1 hf3 hlen]
    refine ⟨rfl, ?_, rfl⟩
    have hlt := be32dec_lt s.file (off + 8)
    simp only [index_2001, Nat.shiftRight_eq_div_pow]
    omega

/-- C13, as the code has it: for a record of a type-1002 file whose length field
`n` is between 1 and 65536 and whose `n` bytes are in the file, when no `read`
fails, `btsnoop_read` hands the byte after the prefix to `packet_get_opcode`, reads
the `n - 1` bytes after it as the payload, reports the size `n - 1` and leaves the
offset `24 + n` bytes on. -/
theorem btsnoop_read_1002_payload (P : Packet) (s : State) (off : Nat) (a : ReadOut)
    (e : ReadEnv) (h : OpenForRead s off) (ht : s.btsnoop_type = 1002)
    (hf1 : e.fail_pkt = false) (hf2 : e.fail_type = false) (hf3 : e.fail_data = false)
    (hn1 : 1 ≤ be32dec s.file off) (hn2 : be32dec s.file off ≤ 65536)
    (hlen : 24 + be32dec s.file off ≤ (s.file.drop off).length) :
    (btsnoop_read P s a e).1 = 0
    ∧ (btsnoop_read P s a e).2.1.desc
        = some ⟨s.btsnoop_fd.toNat, false, off + 24 + be32dec s.file off⟩
    ∧ (btsnoop_read P s a e).2.2.opcode
        = P.packet_get_opcode (s.file.getD (off + 24) 0).val (be32dec s.file (off + 8)) % 65536
    ∧ (btsnoop_read P s a e).2.2.data.take (be32dec s.file off - 1)
        = (s.file.drop (off + 25)).take (be32dec s.file off - 1)
    ∧ (btsnoop_read P s a e).2.2.size = be32dec s.file off - 1 := by
  have e1 : (be32dec s.file off + 4294967295) % 4294967296 = be32dec s.file off - 1 := by omega
  have hl : ((s.file.drop (off + 25)).take (be32dec s.file off - 1)).length
      = be32dec s.file off - 1 := by
    simp only [List.length_take, List.length_drop] at hlen ⊢
    omega
  rw [btsnoop_read_1002 P s off a e h ht hf1 hf2 hf3 (by omega), e1]
  refine ⟨rfl, ?_, rfl, ?_, ?_⟩
  · simp only [hl]
    rw [show off + 25 + (be32dec s.file off - 1) = off + 24 + be32dec s.file off by omega]
  · simp only [fill]
    exact List.take_left' hl
  · show (be32dec s.file off - 1) % 65536 = be32dec s.file off - 1
    omega

/-- C13 fails as stated on a record whose length field is 0: the decrement wraps
to 4294967295, so `btsnoop_read` takes the first byte of the next record as the
type byte, reads all 25 bytes that remain in the file as payload and reports the
size 65535. -/
theorem btsnoop_read_1002_length_zero :
    be32dec ex_empty_1002 16 = 0
    ∧ (btsnoop_read ex_classify (ex_reader ex_empty_1002) ex_out ReadEnv.ok).1 = 0
    ∧ (btsnoop_read ex_classify (ex_reader ex_empty_1002) ex_out ReadEnv.ok).2.1.desc
        = some ⟨4, false, 66⟩
    ∧ (btsnoop_read ex_classify (ex_reader ex_empty_1002) ex_out ReadEnv.ok).2.2.data.length = 25
    ∧ (btsnoop_read ex_classify (ex_reader ex_empty_1002) ex_out ReadEnv.ok).2.2.size = 65535
    ∧ ex_empty_1002.length = 66 := by
  decide

/-- C14: a file with the magic, version 1 and a type word other than 1001, 1002
and 2001 is opened without error, and `btsnoop_read` at a complete record prefix
returns -1, sets `btsnoop_fd` to -1 and closes the descriptor; the caller's index,
opcode, payload buffer and size are not written. -/
theorem unknown_type_is_fatal (P : Packet) (s : State) (fd : Nat) (bytes : List Byte)
    (a : ReadOut) (e : ReadEnv) (hc : s.btsnoop_fd < 0) (hm : bytes.take 8 = btsnoop_id)
    (hv : be32dec bytes 8 = 1) (t1 : be32dec bytes 12 ≠ 1001) (t2 : be32dec bytes 12 ≠ 1002)
    (t3 : be32dec bytes 12 ≠ 2001) (hlen : 16 + 24 ≤ bytes.length) :
    (btsnoop_open s (some (fd, bytes)) false).1 = 0
    ∧ (btsnoop_read P (btsnoop_open s (some (fd, bytes)) false).2 a e).1 = -1
    ∧ (btsnoop_read P (btsnoop_open s (some (fd, bytes)) false).2 a e).2.1.btsnoop_fd = -1
    ∧ (btsnoop_read P (btsnoop_open s (some (fd, bytes)) false).2 a e).2.1.desc = none
    ∧ (btsnoop_read P (btsnoop_open s (some (fd, bytes)) false).2 a e).2.2.index = a.index
    ∧ (btsnoop_read P (btsnoop_open s (some (fd, bytes)) false).2 a e).2.2.opcode = a.opcode
    ∧ (btsnoop_read P (btsnoop_open s (some (fd, bytes)) false).2 a e).2.2.data = a.data
    ∧ (btsnoop_read P (btsnoop_open s (some (fd, bytes)) false).2 a e).2.2.size = a.size := by
  obtain ⟨o1, o2, o3, o4, _⟩ := btsnoop_open_accepts s fd bytes hc (by omega) hm hv
  refine ⟨o1, ?_⟩
  generalize (btsnoop_open s (some (fd, bytes)) false).2 = r at o2 o3 o4
  have hcast : ((r.btsnoop_fd.toNat : Nat) : Int) = r.btsnoop_fd := Int.toNat_of_nonneg o2.1
  cases hf : e.fail_pkt with
  | true =>
    have hfd : ¬ (r.btsnoop_fd < 0) := not_lt.mpr o2.1
    simp only [btsnoop_read, if_neg hfd, hf, sys_read_fail]
    simp [close_fd_desc r _ o2.2 hcast]
  | false =>
    have hl : 24 ≤ (r.file.drop 16).length := by
      rw [o4, List.length_drop]
      omega
    rw [btsnoop_read_unknown P r 16 a e o2 (o3 ▸ t1) (o3 ▸ t2) (o3 ▸ t3) hf hl]
    exact ⟨rfl, rfl, rfl, rfl, rfl, rfl, rfl⟩

/-! ## The legacy index lock -/

/-- The state after `do_write` when the kernel accepts both writes in full. -/
theorem do_write_full (s : State) (tv : Timeval) (flags : Nat) (payload : List Byte)
    (k1 k2 : Nat) (h : OpenForWrite s) (hk1 : 24 ≤ k1) (hk2 : payload.length ≤ k2) :
    do_write s tv flags (some payload) payload.length (some k1) (some k2)
      = { s with file := s.file ++ (record_hdr payload.length payload.length flags 0
                    (do_write_stamp tv) ++ payload)
                 desc := some ⟨s.btsnoop_fd.toNat, true,
                    s.file.length + (24 + payload.length)⟩ } := by
  have hlen : (record_hdr payload.length payload.length flags 0 (do_write_stamp tv)).length ≤ k1
      := by
    rw [record_hdr_length]
    exact hk1
  have h2 := openForWrite_append s (record_hdr payload.length payload.length flags 0
    (do_write_stamp tv)) h
  simp only [do_write, pkt_bytes_eq, sys_write_append s _ k1 h, List.take_of_length_le hlen]
  rw [if_neg (by simp)]
  cases payload with
  | nil => simp [record_hdr_length]
  | cons x xs =>
    have hpos : (x :: xs).length > 0 := by simp
    simp only [if_pos hpos]
    rw [sys_write_append _ _ k2 h2]
    simp only [List.take_length, List.take_of_length_le hk2, List.length_append,
      record_hdr_length, List.append_assoc, Nat.add_assoc]

/-- One `btsnoop_write` on a type-1001 write session: the index is locked if none
was, and the frame is written when its index is the locked one and its flags word
is not 0xff. -/
theorem write_frame_1001 (P : Packet) (s : State) (f : Frame) (hw : OpenForWrite s)
    (ht : s.btsnoop_type = 1001) (i0 : Nat)
    (hi : i0 = if s.btsnoop_index = 0xffff then f.index else s.btsnoop_index) :
    OpenForWrite (write_frame P s f)
    ∧ (write_frame P s f).btsnoop_type = 1001
    ∧ (write_frame P s f).btsnoop_index = i0
    ∧ (write_frame P s f).file
        = s.file ++ (if f.index = i0 ∧ P.packet_get_flags f.opcode % 4294967296 ≠ 0xff then
            frame_record (P.packet_get_flags f.opcode % 4294967296) f else []) := by
  have hfd : ¬ (s.btsnoop_fd < 0) := not_lt.mpr hw.1
  have hw2 : OpenForWrite (if s.btsnoop_index = 0xffff then { s with btsnoop_index := f.index }
      else s) := by
    split
    · exact ⟨hw.1, hw.2⟩
    · exact hw
  have hix : (if s.btsnoop_index = 0xffff then { s with btsnoop_index := f.index } else s).btsnoop_index
      = i0 := by
    rw [hi]
    split <;> rfl
  have hty : (if s.btsnoop_index = 0xffff then { s with btsnoop_index := f.index } else s).btsnoop_type
      = 1001 := by
    split <;> exact ht
  have hfile : (if s.btsnoop_index = 0xffff then { s with btsnoop_index := f.index } else s).file
      = s.file := by
    split <;> rfl
  simp only [write_frame, btsnoop_write, if_neg hfd, if_pos ht]
  generalize (if s.btsnoop_index = 0xffff then { s with btsnoop_index := f.index } else s) = s1
    at hw2 hix hty hfile
  rw [hix]
  by_cases hidx : f.index = i0
  · by_cases hfl : P.packet_get_flags f.opcode % 4294967296 = 0xff
    · simp only [hidx, ne_eq, not_true_eq_false, if_false, hfl, if_true, and_false,
        List.append_nil]
      exact ⟨hw2, hty, hix, hfile⟩
    · simp only [hidx, ne_eq, not_true_eq_false, if_false, hfl, not_false_eq_true, and_self,
        if_true]
      rw [do_write_full s1 f.tv _ f.data 24 f.data.length hw2 (Nat.le_refl _) (Nat.le_refl _)]
      refine ⟨?_, hty, hix, ?_⟩
      · exact ⟨hw2.1, by simp [List.length_append, record_hdr_length]⟩
      · simp only [hfile, frame_record]
  · simp only [ne_eq, hidx, not_false_eq_true, if_true, false_and, if_false, List.append_nil]
    exact ⟨hw2, hty, hix, hfile⟩

/-- Successive writes on a type-1001 write session locked to `i0`. -/
theorem write_frames_locked (P : Packet) (i0 : Nat) (h0 : i0 ≠ 0xffff) (fs : List Frame) :
    ∀ s : State, OpenForWrite s → s.btsnoop_type = 1001 → s.btsnoop_index = i0 →
      (write_frames P s fs).btsnoop_index = i0
      ∧ (write_frames P s fs).file = s.file ++ legacy_records P i0 fs := by
  induction fs with
  | nil =>
    intro s _ _ hi
    simp [write_frames, legacy_records, hi]
  | cons f fs ih =>
    intro s hw ht hi
    have hlock : i0 = if s.btsnoop_index = 0xffff then f.index else s.btsnoop_index := by
      rw [if_neg (by rw [hi]; exact h0), hi]
    obtain ⟨a1, a2, a3, a4⟩ := write_frame_1001 P s f hw ht i0 hlock
    obtain ⟨b1, b2⟩ := ih (write_frame P s f) a1 a2 a3
    have hstep : write_frames P s (f :: fs) = write_frames P (write_frame P s f) fs := rfl
    rw [hstep, b1, b2, a4]
    simp only [legacy_records, List.append_assoc, true_and]

/-- C15, as the code has it: on a type-1001 session whose descriptor takes writes
and which has no locked-in index, for every sequence of `btsnoop_write` calls whose
first index is not 0xffff, the locked-in index is the index of the first call, and
the file gains, in order, exactly the records of the frames whose index is that
first index and whose flags word is not 0xff; every other frame is dropped. -/
theorem legacy_write_lock_in (P : Packet) (s : State) (f0 : Frame) (fs : List Frame)
    (hw : OpenForWrite s) (ht : s.btsnoop_type = 1001) (hi : s.btsnoop_index = 0xffff)
    (h0 : f0.index ≠ 0xffff) :
    (write_frames P s (f0 :: fs)).btsnoop_index = f0.index
    ∧ (write_frames P s (f0 :: fs)).file = s.file ++ legacy_records P f0.index (f0 :: fs) := by
  have hlock : f0.index = if s.btsnoop_index = 0xffff then f0.index else s.btsnoop_index := by
    rw [if_pos hi]
  obtain ⟨a1, a2, a3, a4⟩ := write_frame_1001 P s f0 hw ht f0.index hlock
  obtain ⟨b1, b2⟩ := write_frames_locked P f0.index h0 fs (write_frame P s f0) a1 a2 a3
  have hstep : write_frames P s (f0 :: fs) = write_frames P (write_frame P s f0) fs := rfl
  rw [hstep, b1, b2, a4]
  simp only [legacy_records, List.append_assoc, true_and]

/-- C15 on the indices 0, 0, 1, 0: the index 0 is locked in and the file holds the
three records of the frames for index 0, 75 bytes. -/
theorem legacy_write_lock_in_witness :
    (write_frames ex_classify ex_legacy_writer
        [ex_frame 0, ex_frame 0, ex_frame 1, ex_frame 0]).btsnoop_index = 0
    ∧ (write_frames ex_classify ex_legacy_writer
        [ex_frame 0, ex_frame 0, ex_frame 1, ex_frame 0]).file
      = frame_record 3 (ex_frame 0) ++ frame_record 3 (ex_frame 0) ++ frame_record 3 (ex_frame 0)
    ∧ (write_frames ex_classify ex_legacy_writer
        [ex_frame 0, ex_frame 0, ex_frame 1, ex_frame 0]).file.length = 75
    ∧ legacy_count ex_classify 0 [ex_frame 0, ex_frame 0, ex_frame 1, ex_frame 0] = 3 := by
  have h := legacy_write_lock_in ex_classify ex_legacy_writer (ex_frame 0)
    [ex_frame 0, ex_frame 1, ex_frame 0] (by decide) (by decide) (by decide) (by decide)
  refine ⟨h.1, ?_, ?_, by decide⟩
  · rw [h.2]
    decide
  · rw [h.2]
    decide

/-- C15 fails as stated in two ways. On the type-1001 session that `btsnoop_open`
gives, the descriptor is read-only: four calls for the indices 0, 0, 1, 0 lock the
index 0 and write nothing. On a type-1001 session that takes writes, a first call
for index 0xffff locks nothing, so the next call, for index 0, is written too. -/
theorem legacy_write_lock_in_fails :
    ex_legacy_reader.btsnoop_type = 1001
    ∧ ex_legacy_reader.btsnoop_index = 0xffff
    ∧ (write_frames ex_classify ex_legacy_reader
        [ex_frame 0, ex_frame 0, ex_frame 1, ex_frame 0]).btsnoop_index = 0
    ∧ (write_frames ex_classify ex_legacy_reader
        [ex_frame 0, ex_frame 0, ex_frame 1, ex_frame 0]).file = ex_legacy_reader.file
    ∧ (write_frames ex_classify ex_legacy_writer [ex_frame 0xffff, ex_frame 0]).file
        = frame_record 3 (ex_frame 0xffff) ++ frame_record 3 (ex_frame 0)
    ∧ (write_frames ex_classify ex_legacy_writer [ex_frame 0xffff, ex_frame 0]).btsnoop_index
        = 0 := by
  decide

/-! ## Closing, and writing outside a write session -/

/-- C16, as the code has it: from every state with a session open
(`btsnoop_fd >= 0`), after `btsnoop_close` `btsnoop_fd` is -1, the locked-in index
is 0xffff and the descriptor of the session is closed; from every state with no
session open `btsnoop_close` changes nothing; and from every state a second
`btsnoop_close` changes nothing. -/
theorem btsnoop_close_resets (s : State) :
    (0 ≤ s.btsnoop_fd →
      (btsnoop_close s).btsnoop_fd = -1
      ∧ (btsnoop_close s).btsnoop_index = 0xffff
      ∧ (∀ d, s.desc = some d → (d.fd : Int) = s.btsnoop_fd → (btsnoop_close s).desc = none))
    ∧ (s.btsnoop_fd < 0 → btsnoop_close s = s)
    ∧ btsnoop_close (btsnoop_close s) = btsnoop_close s := by
  refine ⟨?_, ?_, ?_⟩
  · intro h
    simp only [btsnoop_close, if_neg (not_lt.mpr h), true_and]
    intro d hd hfd
    simp [sys_close, hd, hfd]
  · intro h
    simp only [btsnoop_close, if_pos h]
  · by_cases h : s.btsnoop_fd < 0
    · simp only [btsnoop_close, if_pos h]
    · have hneg : ((-1 : Int) < 0) := by decide
      simp only [btsnoop_close, if_neg h, if_pos hneg]

/-- C16 on a new capture (a session is open) and on the state at program start
(none is). -/
theorem btsnoop_close_resets_witness :
    ((btsnoop_close ex_created).btsnoop_fd = -1
      ∧ (btsnoop_close ex_created).btsnoop_index = 0xffff
      ∧ (btsnoop_close ex_created).desc = none)
    ∧ btsnoop_close State.init = State.init
    ∧ btsnoop_close (btsnoop_close ex_created) = btsnoop_close ex_created :=
  ⟨⟨((btsnoop_close_resets ex_created).1 (by decide)).1,
      ((btsnoop_close_resets ex_created).1 (by decide)).2.1,
      ((btsnoop_close_resets ex_created).1 (by decide)).2.2 ⟨3, true, 16⟩ (by decide) (by decide)⟩,
    (btsnoop_close_resets State.init).2.1 (by decide),
    (btsnoop_close_resets ex_created).2.2⟩

/-- C16 fails as stated: after `btsnoop_open` on a type-1001 file, a
`btsnoop_write` for index 5 and a `btsnoop_read` that fails on a truncated record,
no session is open and `btsnoop_close` returns at once: the locked-in index is
still 5 after it. -/
theorem btsnoop_close_keeps_stale_index :
    ex_legacy_failed.btsnoop_fd = -1
    ∧ btsnoop_close ex_legacy_failed = ex_legacy_failed
    ∧ (btsnoop_close ex_legacy_failed).btsnoop_index = 5
    ∧ (btsnoop_close ex_legacy_failed).btsnoop_index ≠ 0xffff := by
  decide

/-- C17 does not hold on the code: the error path of `btsnoop_read` closes the
descriptor and sets `btsnoop_fd` to -1 but leaves `btsnoop_index`. After
`btsnoop_open` on a type-1001 file with three bytes after the header, a
`btsnoop_write` for index 5 (which locks the index) and a `btsnoop_read` (which
fails on the truncated record), no file is open and the locked-in index is 5. -/
theorem read_error_leaves_index_locked :
    (btsnoop_open State.init (some (4, ex_file 1001 [0, 0, 0])) false).1 = 0
    ∧ ex_legacy_reader.btsnoop_index = 0xffff
    ∧ ex_legacy_locked.btsnoop_index = 5
    ∧ ex_legacy_locked.file = ex_legacy_reader.file
    ∧ (btsnoop_read ex_classify ex_legacy_locked ex_out ReadEnv.ok).1 = -1
    ∧ ex_legacy_failed.btsnoop_fd = -1
    ∧ ex_legacy_failed.desc = none
    ∧ ex_legacy_failed.btsnoop_index = 5 := by
  decide

/-- A `write` on a descriptor that is not open for writing fails and changes
nothing. -/
theorem sys_write_readonly (s : State) (off : Nat) (buf : List Byte) (w : Option Nat)
    (h : OpenForRead s off) : sys_write s s.btsnoop_fd buf w = (-1, s) := by
  simp only [sys_write, h.2]
  cases w <;> simp

/-- On a read session `do_write` changes nothing. -/
theorem do_write_readonly (s : State) (off : Nat) (tv : Timeval) (flags : Nat)
    (data : Option (List Byte)) (size : Nat) (w1 w2 : Option Nat) (h : OpenForRead s off) :
    do_write s tv flags data size w1 w2 = s := by
  have hneg : ((-1 : Int) < 0) := by decide
  simp only [do_write, sys_write_readonly s off _ w1 h, if_pos hneg]

/-- C18, as the code has it: when no session is open, or the session is a read
session, a `btsnoop_write` call leaves the file, the descriptor with its offset,
`btsnoop_fd` and the remembered type unchanged; unless the session is a read
session of type 1001, it changes nothing at all. -/
theorem btsnoop_write_outside_write_session (P : Packet) (s : State) (off : Nat)
    (tv : Option Timeval) (index opcode : Nat) (data : Option (List Byte)) (size : Nat)
    (w1 w2 : Option Nat) (h : s.btsnoop_fd < 0 ∨ OpenForRead s off) :
    (btsnoop_write P s tv index opcode data size w1 w2).file = s.file
    ∧ (btsnoop_write P s tv index opcode data size w1 w2).desc = s.desc
    ∧ (btsnoop_write P s tv index opcode data size w1 w2).btsnoop_fd = s.btsnoop_fd
    ∧ (btsnoop_write P s tv index opcode data size w1 w2).btsnoop_type = s.btsnoop_type
    ∧ (s.btsnoop_fd < 0 ∨ s.btsnoop_type ≠ 1001 →
        btsnoop_write P s tv index opcode data size w1 w2 = s) := by
  cases tv with
  | none => simp [btsnoop_write]
  | some tv =>
    by_cases hfd : s.btsnoop_fd < 0
    · simp [btsnoop_write, hfd]
    · have hr : OpenForRead s off := by
        rcases h with h | h
        · exact absurd h hfd
        · exact h
      simp only [btsnoop_write, if_neg hfd]
      by_cases ht : s.btsnoop_type = 1001
      · simp only [if_pos ht]
        have hr2 : OpenForRead (if s.btsnoop_index = 0xffff then { s with btsnoop_index := index }
            else s) off := by
          split
          · exact ⟨hr.1, hr.2⟩
          · exact hr
        have g1 : (if s.btsnoop_index = 0xffff then { s with btsnoop_index := index }
            else s).file = s.file := by split <;> rfl
        have g2 : (if s.btsnoop_index = 0xffff then { s with btsnoop_index := index }
            else s).desc = s.desc := by split <;> rfl
        have g3 : (if s.btsnoop_index = 0xffff then { s with btsnoop_index := index }
            else s).btsnoop_fd = s.btsnoop_fd := by split <;> rfl
        have g4 : (if s.btsnoop_index = 0xffff then { s with btsnoop_index := index }
            else s).btsnoop_type = s.btsnoop_type := by split <;> rfl
        generalize (if s.btsnoop_index = 0xffff then { s with btsnoop_index := index }
            else s) = s1 at hr2 g1 g2 g3 g4
        have hall : (if index ≠ s1.btsnoop_index then s1
            else if P.packet_get_flags opcode % 4294967296 = 0xff then s1
            else do_write s1 tv (P.packet_get_flags opcode % 4294967296) data size w1 w2) = s1 := by
          split
          · rfl
          · split
            · rfl
            · exact do_write_readonly s1 off tv _ data size w1 w2 hr2
        rw [hall]
        refine ⟨g1, g2, g3, g4, ?_⟩
        intro hcase
        rcases hcase with hc | hc
        · exact absurd hc hfd
        · exact absurd ht hc
      · simp only [if_neg ht]
        by_cases ht2 : s.btsnoop_type = 2001
        · simp only [if_pos ht2, do_write_readonly s off tv _ data size w1 w2 hr, implies_true,
            and_self]
        · simp only [if_neg ht2, implies_true, and_self]

/-- C18 on a read session of a type-2001 file, and on the state at program start. -/
theorem btsnoop_write_outside_write_session_witness :
    btsnoop_write ex_packet (ex_reader ex_cut_capture) (some ⟨1000000000, 500000⟩) 1 2
        (some [0xaa]) 1 (some 24) (some 1) = ex_reader ex_cut_capture
    ∧ btsnoop_write ex_packet State.init (some ⟨1000000000, 500000⟩) 1 2
        (some [0xaa]) 1 (some 24) (some 1) = State.init :=
  ⟨(btsnoop_write_outside_write_session ex_packet (ex_reader ex_cut_capture) 16
      (some ⟨1000000000, 500000⟩) 1 2 (some [0xaa]) 1 (some 24) (some 1)
      (Or.inr (by decide))).2.2.2.2 (Or.inr (by decide)),
    (btsnoop_write_outside_write_session ex_packet State.init 0
      (some ⟨1000000000, 500000⟩) 1 2 (some [0xaa]) 1 (some 24) (some 1)
      (Or.inl (by decide))).2.2.2.2 (Or.inl (by decide))⟩

/-- C18 fails as stated: on the read session that `btsnoop_open` gives for a
type-1001 file, a `btsnoop_write` for index 5 appends nothing but changes the
locked-in index from 0xffff to 5. -/
theorem btsnoop_write_locks_index_on_read_session :
    OpenForRead ex_legacy_reader 16
    ∧ ex_legacy_reader.btsnoop_type = 1001
    ∧ ex_legacy_reader.btsnoop_index = 0xffff
    ∧ (btsnoop_write ex_classify ex_legacy_reader (some ⟨1000000000, 500000⟩) 5 2
        (some [0xaa]) 1 (some 24) (some 1)).file = ex_legacy_reader.file
    ∧ (btsnoop_write ex_classify ex_legacy_reader (some ⟨1000000000, 500000⟩) 5 2
        (some [0xaa]) 1 (some 24) (some 1)).btsnoop_index = 5
    ∧ btsnoop_write ex_classify ex_legacy_reader (some ⟨1000000000, 500000⟩) 5 2
        (some [0xaa]) 1 (some 24) (some 1) ≠ ex_legacy_reader := by
  decide

/-! ## Instances of the claims on reading -/

/-- C12 on three files that differ in the type word only, each with one record of
flags 0x10007 followed by the bytes `04 ee`: opcode 0xff07 and index 0 under 1001,
opcode 0x0407 and index 0 under 1002, opcode 7 and index 1 under 2001. -/
theorem btsnoop_read_variant_dispatch_witness :
    ((btsnoop_read ex_classify (ex_reader (ex_one_record 1001)) ex_out ReadEnv.ok).1 = 0
      ∧ (btsnoop_read ex_classify (ex_reader (ex_one_record 1001)) ex_out ReadEnv.ok).2.2.index = 0
      ∧ (btsnoop_read ex_classify (ex_reader (ex_one_record 1001)) ex_out ReadEnv.ok).2.2.opcode
          = 0xff07)
    ∧ ((btsnoop_read ex_classify (ex_reader (ex_one_record 1002)) ex_out ReadEnv.ok).1 = 0
      ∧ (btsnoop_read ex_classify (ex_reader (ex_one_record 1002)) ex_out ReadEnv.ok).2.2.index = 0
      ∧ (btsnoop_read ex_classify (ex_reader (ex_one_record 1002)) ex_out ReadEnv.ok).2.2.opcode
          = 0x0407)
    ∧ ((btsnoop_read ex_classify (ex_reader (ex_one_record 2001)) ex_out ReadEnv.ok).1 = 0
      ∧ (btsnoop_read ex_classify (ex_reader (ex_one_record 2001)) ex_out ReadEnv.ok).2.2.index = 1
      ∧ (btsnoop_read ex_classify (ex_reader (ex_one_record 2001)) ex_out ReadEnv.ok).2.2.opcode
          = 7) :=
  ⟨(btsnoop_read_variant_dispatch ex_classify (ex_reader (ex_one_record 1001)) 16 ex_out
      ReadEnv.ok (by decide) (fun _ _ => Nat.mod_lt _ (by decide)) (by decide) (by decide)
      (by decide) (by decide)).1 (by decide),
    (btsnoop_read_variant_dispatch ex_classify (ex_reader (ex_one_record 1002)) 16 ex_out
      ReadEnv.ok (by decide) (fun _ _ => Nat.mod_lt _ (by decide)) (by decide) (by decide)
      (by decide) (by decide)).2.1 (by decide) (by decide),
    (btsnoop_read_variant_dispatch ex_classify (ex_reader (ex_one_record 2001)) 16 ex_out
      ReadEnv.ok (by decide) (fun _ _ => Nat.mod_lt _ (by decide)) (by decide) (by decide)
      (by decide) (by decide)).2.2 (by decide)⟩

/-- C13 on a type-1002 record of length 2 with the bytes `04 ee`: the type byte 4
goes to the classifier, the payload is `ee`, the size 1, the offset moves from 16
to 42. -/
theorem btsnoop_read_1002_payload_witness :
    (btsnoop_read ex_classify (ex_reader (ex_one_record 1002)) ex_out ReadEnv.ok).1 = 0
    ∧ (btsnoop_read ex_classify (ex_reader (ex_one_record 1002)) ex_out ReadEnv.ok).2.1.desc
        = some ⟨4, false, 42⟩
    ∧ (btsnoop_read ex_classify (ex_reader (ex_one_record 1002)) ex_out ReadEnv.ok).2.2.opcode
        = 0x0407
    ∧ (btsnoop_read ex_classify (ex_reader (ex_one_record 1002)) ex_out ReadEnv.ok).2.2.data.take 1
        = [0xee]
    ∧ (btsnoop_read ex_classify (ex_reader (ex_one_record 1002)) ex_out ReadEnv.ok).2.2.size = 1 :=
  btsnoop_read_1002_payload ex_classify (ex_reader (ex_one_record 1002)) 16 ex_out ReadEnv.ok
    (by decide) (by decide) (by decide) (by decide) (by decide) (by decide) (by decide)
    (by decide)

/-- C14 on a file of type 3000 with one record. -/
theorem unknown_type_is_fatal_witness :
    (btsnoop_open State.init (some (4, ex_one_record 3000)) false).1 = 0
    ∧ (btsnoop_read ex_classify (btsnoop_open State.init (some (4, ex_one_record 3000)) false).2
        ex_out ReadEnv.ok).1 = -1
    ∧ (btsnoop_read ex_classify (btsnoop_open State.init (some (4, ex_one_record 3000)) false).2
        ex_out ReadEnv.ok).2.1.btsnoop_fd = -1
    ∧ (btsnoop_read ex_classify (btsnoop_open State.init (some (4, ex_one_record 3000)) false).2
        ex_out ReadEnv.ok).2.1.desc = none
    ∧ (btsnoop_read ex_classify (btsnoop_open State.init (some (4, ex_one_record 3000)) false).2
        ex_out ReadEnv.ok).2.2.index = ex_out.index
    ∧ (btsnoop_read ex_classify (btsnoop_open State.init (some (4, ex_one_record 3000)) false).2
        ex_out ReadEnv.ok).2.2.opcode = ex_out.opcode
    ∧ (btsnoop_read ex_classify (btsnoop_open State.init (some (4, ex_one_record 3000)) false).2
        ex_out ReadEnv.ok).2.2.data = ex_out.data
    ∧ (btsnoop_read ex_classify (btsnoop_open State.init (some (4, ex_one_record 3000)) false).2
        ex_out ReadEnv.ok).2.2.size = ex_out.size :=
  unknown_type_is_fatal ex_classify State.init 4 (ex_one_record 3000) ex_out ReadEnv.ok
    (by decide) (by decide) (by decide) (by decide) (by decide) (by decide) (by decide)

/-! ## Time stamps seen from the decoder, and the reported size -/

/-- C24: for every timeval with `seconds >= 946684800` and
`0 <= microseconds < 1000000` whose stamp fits 64 bits, the decoding of
`btsnoop_read` applied to the `pkt.ts` value of `do_write` gives the same seconds
and the same microseconds; and for every 64-bit value of the `ts` field the
decoded microseconds lie in `[0, 1000000)`. -/
theorem timestamp_decode_exact_and_bounded (tv : Timeval) (hs : 946684800 ≤ tv.tv_sec)
    (h0 : 0 ≤ tv.tv_usec) (h1 : tv.tv_usec < 1000000)
    (hr : (tv.tv_sec - 946684800) * 1000000 + tv.tv_usec + 0x00E03AB44A676000
      < 18446744073709551616) :
    (read_tv (read_ts (ntoh64 (hton64 (do_write_stamp tv))))).tv_sec = tv.tv_sec
    ∧ (read_tv (read_ts (ntoh64 (hton64 (do_write_stamp tv))))).tv_usec = tv.tv_usec
    ∧ ∀ x : Nat, x < 18446744073709551616 →
        0 ≤ (read_tv (read_ts (ntoh64 x))).tv_usec
        ∧ (read_tv (read_ts (ntoh64 x))).tv_usec < 1000000 := by
  rw [ntoh64_hton64 _ (do_write_stamp_lt tv), read_tv_do_write_stamp tv hs h0 h1 hr]
  refine ⟨rfl, rfl, ?_⟩
  intro x _
  simp only [read_tv]
  constructor <;> omega

/-- C24 at 2038-01-19 03:14:07.999999, and on the `ts` field value of all ones. -/
theorem timestamp_decode_exact_and_bounded_witness :
    (read_tv (read_ts (ntoh64 (hton64 (do_write_stamp ⟨2147483647, 999999⟩))))).tv_sec
        = 2147483647
    ∧ (read_tv (read_ts (ntoh64 (hton64 (do_write_stamp ⟨2147483647, 999999⟩))))).tv_usec
        = 999999
    ∧ 0 ≤ (read_tv (read_ts (ntoh64 18446744073709551615))).tv_usec
    ∧ (read_tv (read_ts (ntoh64 18446744073709551615))).tv_usec < 1000000 :=
  ⟨(timestamp_decode_exact_and_bounded ⟨2147483647, 999999⟩ (by decide) (by decide) (by decide)
      (by decide)).1,
    (timestamp_decode_exact_and_bounded ⟨2147483647, 999999⟩ (by decide) (by decide) (by decide)
      (by decide)).2.1,
    (timestamp_decode_exact_and_bounded ⟨2147483647, 999999⟩ (by decide) (by decide) (by decide)
      (by decide)).2.2 18446744073709551615 (by decide)⟩

/-- C25 does not hold on the code: the payload `read` is only checked for a
negative return value and `*size` is a `uint16_t`. On a type-2001 file that ends
two bytes into a four-byte payload, `btsnoop_read` returns 0 with size 4 after
storing two bytes; on a record that declares 65540 bytes, of which the file holds
six, it returns 0 with size 4 after storing six bytes. -/
theorem btsnoop_read_size_not_bytes_read :
    be32dec ex_cut_payload 16 = 4
    ∧ (ex_cut_payload.drop 40).length = 2
    ∧ btsnoop_read ex_packet (ex_reader ex_cut_payload) ex_out ReadEnv.ok
      = (0,
          { btsnoop_type := 2001, btsnoop_fd := 4, btsnoop_index := 0xffff, show_index := true,
            desc := some ⟨4, false, 42⟩, file := ex_cut_payload },
          { tv := ⟨1000000000, 500000⟩, index := 1, opcode := 2, data := [0xaa, 0xbb],
            size := 4 })
    ∧ be32dec ex_long_record 16 = 65540
    ∧ btsnoop_read ex_packet (ex_reader ex_long_record) ex_out ReadEnv.ok
      = (0,
          { btsnoop_type := 2001, btsnoop_fd := 4, btsnoop_index := 0xffff, show_index := true,
            desc := some ⟨4, false, 46⟩, file := ex_long_record },
          { tv := ⟨1000000000, 500000⟩, index := 1, opcode := 2,
            data := [0xaa, 0xbb, 0xcc, 0xdd, 0xee, 0xff], size := 4 }) := by
  decide

/-! ## Writing a capture and reading it back -/

/-- The state after `btsnoop_create` when `open` succeeds and the header is
written in full. -/
theorem btsnoop_create_state (s : State) (fd k : Nat) (hc : s.btsnoop_fd < 0) (hk : 16 ≤ k) :
    btsnoop_create s (some fd) (some k)
      = { btsnoop_type := 2001, btsnoop_fd := (fd : Int), btsnoop_index := s.btsnoop_index,
          show_index := s.show_index, desc := some ⟨fd, true, 16⟩,
          file := [0x62, 0x74, 0x73, 0x6e, 0x6f, 0x6f, 0x70, 0x00, 0x00, 0x00, 0x00, 0x01,
                   0x00, 0x00, 0x07, 0xd1] } := by
  have hlen : (btsnoop_id ++ store32 (htonl btsnoop_version) ++ store32 (htonl 2001)).length ≤ k :=
    hk
  have hbytes : btsnoop_id ++ store32 (htonl btsnoop_version) ++ store32 (htonl 2001)
      = [0x62, 0x74, 0x73, 0x6e, 0x6f, 0x6f, 0x70, 0x00, 0x00, 0x00, 0x00, 0x01,
         0x00, 0x00, 0x07, 0xd1] := by decide
  simp only [btsnoop_create, if_neg (not_le.mpr hc), sys_write, List.take_of_length_le hlen]
  simp [hbytes]

/-- Successive writes on a type-2001 write session append the records in order. -/
theorem write_frames_2001 (P : Packet) (fs : List Frame) :
    ∀ s : State, OpenForWrite s → s.btsnoop_type = 2001 →
      OpenForWrite (write_frames P s fs)
      ∧ (write_frames P s fs).btsnoop_type = 2001
      ∧ (write_frames P s fs).file = s.file ++ records_2001 fs := by
  induction fs with
  | nil =>
    intro s hw ht
    exact ⟨hw, ht, by simp [write_frames, records_2001]⟩
  | cons f fs ih =>
    intro s hw ht
    have hstep : write_frames P s (f :: fs) = write_frames P (write_frame P s f) fs := rfl
    have h1 : write_frame P s f
        = { s with file := s.file ++ frame_record (flags_2001 f.index f.opcode) f
                   desc := some ⟨s.btsnoop_fd.toNat, true,
                      s.file.length + (24 + f.data.length)⟩ } := by
      simp only [write_frame]
      rw [btsnoop_write_2001 P s f.tv f.index f.opcode _ _ _ _ hw.1 ht,
        do_write_full s f.tv _ f.data 24 f.data.length hw (Nat.le_refl _) (Nat.le_refl _)]
      rfl
    have hw1 : OpenForWrite (write_frame P s f) := by
      rw [h1]
      exact ⟨hw.1, by simp [frame_record, List.length_append, record_hdr_length]⟩
    have ht1 : (write_frame P s f).btsnoop_type = 2001 := by
      rw [h1]
      exact ht
    obtain ⟨b1, b2, b3⟩ := ih (write_frame P s f) hw1 ht1
    rw [hstep]
    refine ⟨b1, b2, ?_⟩
    rw [b3, h1]
    simp only [records_2001, List.append_assoc]

/-- A read at the end of the file returns -1 and changes nothing. -/
theorem btsnoop_read_eof (P : Packet) (s : State) (off : Nat) (a : ReadOut) (e : ReadEnv)
    (h : OpenForRead s off) (h0 : (s.file.drop off).length = 0) (hf : e.fail_pkt = false) :
    btsnoop_read P s a e = (-1, s, a) := by
  have hfd : ¬ (s.btsnoop_fd < 0) := not_lt.mpr h.1
  have hnil : s.file.drop off = [] := List.length_eq_zero.mp h0
  have hread := sys_read_ok s off BTSNOOP_PKT_SIZE h
  simp only [hnil, List.take_nil, List.length_nil, Nat.add_zero] at hread
  have hs : { s with desc := some ⟨s.btsnoop_fd.toNat, false, off⟩ } = s := by
    rw [← h.2]
  simp only [btsnoop_read, if_neg hfd, hf, hread, hs]
  simp

/-- The read of one record of a representable frame under type 2001. -/
theorem read_frame_record (P : Packet) (r : State) (off : Nat) (a : ReadOut) (e : ReadEnv)
    (f : Frame) (rest : List Byte) (hrd : OpenForRead r off) (hrt : r.btsnoop_type = 2001)
    (hf1 : e.fail_pkt = false) (hf3 : e.fail_data = false) (hok : f.representable)
    (hrec : r.file.drop off = frame_record (flags_2001 f.index f.opcode) f ++ rest) :
    btsnoop_read P r a e
      = (0,
          { r with desc := some ⟨r.btsnoop_fd.toNat, false, off + 24 + f.data.length⟩ },
          { tv := f.tv, index := f.index, opcode := f.opcode, data := fill a.data f.data,
            size := f.data.length }) := by
  obtain ⟨hs, h0, h1, hr, hi, ho, hp⟩ := hok
  simp only [frame_record, List.append_assoc] at hrec
  have hlen : 24 ≤ (r.file.drop off).length := by
    rw [hrec, List.length_append, record_hdr_length]
    omega
  obtain ⟨f1, _, f3, _, f5⟩ := record_hdr_fields f.data.length f.data.length
    (flags_2001 f.index f.opcode) 0 (do_write_stamp f.tv) (f.data ++ rest)
  have g1 : be32dec r.file off = f.data.length := by
    have := be32dec_drop r.file off 0
    rw [Nat.add_zero] at this
    rw [this, hrec, f1]
    omega
  have g3 : be32dec r.file (off + 8) = f.index * 65536 + f.opcode := by
    rw [be32dec_drop, hrec, f3, flags_2001_eq f.index f.opcode ho]
    omega
  have g5 : be64dec r.file (off + 16) = do_write_stamp f.tv := by
    rw [be64dec_drop, hrec, f5, Nat.mod_eq_of_lt (do_write_stamp_lt f.tv)]
  have g6 : (r.file.drop (off + 24)).take f.data.length = f.data := by
    have hd : r.file.drop (off + 24) = f.data ++ rest := by
      rw [← List.drop_drop, hrec]
      exact List.drop_left' (record_hdr_length _ _ _ _ _)
    rw [hd, List.take_left]
  have g7 : index_2001 (f.index * 65536 + f.opcode) = f.index := by
    rw [index_2001_eq]
    omega
  have g8 : opcode_2001 (f.index * 65536 + f.opcode) = f.opcode := by
    rw [opcode_2001_eq]
    omega
  rw [btsnoop_read_2001 P r off a e hrd hrt hf1 hf3 hlen, g1, g3, g5, g6, g7, g8,
    read_tv_do_write_stamp f.tv hs h0 h1 hr, Nat.mod_eq_of_lt (by omega)]

/-- Successive reads over the records of representable frames return the frames
in order and end at the end of the records. -/
theorem read_frames_records (P : Packet) (e : ReadEnv) (hf1 : e.fail_pkt = false)
    (hf3 : e.fail_data = false) (fs : List Frame) :
    ∀ (r : State) (off : Nat) (a : ReadOut), OpenForRead r off → r.btsnoop_type = 2001 →
      r.file.drop off = records_2001 fs → (∀ f ∈ fs, f.representable) →
      ∃ a2, read_frames P e fs.length r a
        = some (fs,
            { r with desc := some ⟨r.btsnoop_fd.toNat, false, off + (records_2001 fs).length⟩ },
            a2) := by
  induction fs with
  | nil =>
    intro r off a hrd _ _ _
    refine ⟨a, ?_⟩
    have hs : { r with desc := some ⟨r.btsnoop_fd.toNat, false, off⟩ } = r := by
      rw [← hrd.2]
    simp only [List.length_nil, read_frames, records_2001, Nat.add_zero, hs]
  | cons f fs ih =>
    intro r off a hrd hrt hrec hok
    have hokf : f.representable := hok f (List.mem_cons_self f fs)
    have hokfs : ∀ g ∈ fs, g.representable := fun g hg => hok g (List.mem_cons_of_mem f hg)
    simp only [records_2001] at hrec
    have hread := read_frame_record P r off a e f (records_2001 fs) hrd hrt hf1 hf3 hokf hrec
    have hrd1 := openForRead_advance r off (off + 24 + f.data.length) hrd
    have hrec1 : ({ r with desc := some ⟨r.btsnoop_fd.toNat, false, off + 24 + f.data.length⟩ }
        : State).file.drop (off + 24 + f.data.length) = records_2001 fs := by
      show r.file.drop (off + 24 + f.data.length) = records_2001 fs
      have hl : (frame_record (flags_2001 f.index f.opcode) f).length = 24 + f.data.length := by
        simp only [frame_record, List.length_append, record_hdr_length]
      rw [Nat.add_assoc, ← List.drop_drop, hrec]
      exact List.drop_left' hl
    obtain ⟨a2, h2⟩ := ih _ (off + 24 + f.data.length)
      { tv := f.tv, index := f.index, opcode := f.opcode, data := fill a.data f.data,
        size := f.data.length } hrd1 hrt hrec1 hokfs
    refine ⟨a2, ?_⟩
    have hfr : frame_of ⟨f.tv, f.index, f.opcode, fill a.data f.data, f.data.length⟩ = f := by
      simp only [frame_of, fill, List.take_left]
    have hl2 : off + 24 + f.data.length + (records_2001 fs).length
        = off + (frame_record (flags_2001 f.index f.opcode) f ++ records_2001 fs).length := by
      simp only [frame_record, List.length_append, record_hdr_length]
      omega
    simp only [List.length_cons, read_frames, hread, if_true, h2, hfr, records_2001, hl2]

/-- C23, as the code has it: for every list of representable frames (times from
2000-01-01 on with microseconds below one million and a stamp that fits 64 bits,
16-bit index and opcode, payloads of at most 65535 bytes), after `btsnoop_create`,
one `btsnoop_write` per frame and `btsnoop_close`, `btsnoop_open` accepts the file
with type 2001, successive `btsnoop_read` calls return exactly those frames in
the order written, and the next `btsnoop_read` returns -1 at the end of the file
with the session still open and unchanged. -/
theorem capture_roundtrip (P : Packet) (s : State) (fd fd2 : Nat) (fs : List Frame)
    (a : ReadOut) (e : ReadEnv) (hc : s.btsnoop_fd < 0) (hf1 : e.fail_pkt = false)
    (hf3 : e.fail_data = false) (hok : ∀ f ∈ fs, f.representable) :
    (btsnoop_open (capture P s fd fs) (some (fd2, (capture P s fd fs).file)) false).1 = 0
    ∧ (btsnoop_open (capture P s fd fs) (some (fd2, (capture P s fd fs).file)) false).2.btsnoop_type
        = 2001
    ∧ ∃ r a2,
        read_frames P e fs.length
            (btsnoop_open (capture P s fd fs) (some (fd2, (capture P s fd fs).file)) false).2 a
          = some (fs, r, a2)
        ∧ btsnoop_read P r a2 e = (-1, r, a2)
        ∧ 0 ≤ r.btsnoop_fd
        ∧ OpenForRead r (capture P s fd fs).file.length := by
  have hcr := btsnoop_create_state s fd 16 hc (Nat.le_refl _)
  have hw0 : OpenForWrite (btsnoop_create s (some fd) (some 16)) := by
    rw [hcr]
    exact ⟨Int.ofNat_nonneg fd, by simp⟩
  have ht0 : (btsnoop_create s (some fd) (some 16)).btsnoop_type = 2001 := by
    rw [hcr]
  obtain ⟨w1, _, w3⟩ := write_frames_2001 P fs _ hw0 ht0
  have hfile : (capture P s fd fs).file
      = [0x62, 0x74, 0x73, 0x6e, 0x6f, 0x6f, 0x70, 0x00, 0x00, 0x00, 0x00, 0x01,
         0x00, 0x00, 0x07, 0xd1] ++ records_2001 fs := by
    have hcf : (capture P s fd fs).file
        = (write_frames P (btsnoop_create s (some fd) (some 16)) fs).file := by
      simp only [capture, btsnoop_close, if_neg (not_lt.mpr w1.1)]
      simp only [sys_close]
      split
      · split <;> rfl
      · rfl
    rw [hcf, w3, hcr]
  have hclosed : (capture P s fd fs).btsnoop_fd < 0 := by
    simp only [capture, btsnoop_close, if_neg (not_lt.mpr w1.1)]
    decide
  have hm : (capture P s fd fs).file.take 8 = btsnoop_id := by
    rw [hfile]
    rfl
  have hv : be32dec (capture P s fd fs).file 8 = 1 := by
    rw [hfile]
    rfl
  have h12 : be32dec (capture P s fd fs).file 12 = 2001 := by
    rw [hfile]
    rfl
  have hlen : 16 ≤ (capture P s fd fs).file.length := by
    rw [hfile]
    simp
  obtain ⟨o1, o2, o3, o4, _⟩ :=
    btsnoop_open_accepts (capture P s fd fs) fd2 (capture P s fd fs).file hclosed hlen hm hv
  refine ⟨o1, o3.trans h12, ?_⟩
  generalize (btsnoop_open (capture P s fd fs) (some (fd2, (capture P s fd fs).file)) false).2 = r
    at o2 o3 o4
  have hdrop : r.file.drop 16 = records_2001 fs := by
    rw [o4, hfile]
    rfl
  obtain ⟨a2, h2⟩ := read_frames_records P e hf1 hf3 fs r 16 a o2 (o3.trans h12) hdrop hok
  have hend : OpenForRead
      { r with desc := some ⟨r.btsnoop_fd.toNat, false, 16 + (records_2001 fs).length⟩ }
      (16 + (records_2001 fs).length) := openForRead_advance r 16 _ o2
  refine ⟨_, a2, h2, ?_, o2.1, ?_⟩
  · apply btsnoop_read_eof P _ (16 + (records_2001 fs).length) a2 e hend _ hf1
    show (r.file.drop (16 + (records_2001 fs).length)).length = 0
    rw [o4, hfile, List.length_drop, List.length_append]
    have : ([0x62, 0x74, 0x73, 0x6e, 0x6f, 0x6f, 0x70, 0x00, 0x00, 0x00, 0x00, 0x01,
         0x00, 0x00, 0x07, 0xd1] : List Byte).length = 16 := rfl
    omega
  · have hl : (capture P s fd fs).file.length = 16 + (records_2001 fs).length := by
      rw [hfile, List.length_append]
      rfl
    rw [hl]
    exact hend

/-- C23 on two frames: a capture is created, written and closed, then opened and
read; two reads return the two frames, the third returns -1 with the session
open at the end of the file. -/
theorem capture_roundtrip_witness :
    (btsnoop_open (capture ex_packet State.init 3 [ex_frame 1, ex_frame 2])
        (some (4, (capture ex_packet State.init 3 [ex_frame 1, ex_frame 2]).file)) false).1 = 0
    ∧ (capture ex_packet State.init 3 [ex_frame 1, ex_frame 2]).file.length = 66
    ∧ ∃ r a2,
        read_frames ex_packet ReadEnv.ok 2
            (btsnoop_open (capture ex_packet State.init 3 [ex_frame 1, ex_frame 2])
              (some (4, (capture ex_packet State.init 3 [ex_frame 1, ex_frame 2]).file)) false).2
            ex_out
          = some ([ex_frame 1, ex_frame 2], r, a2)
        ∧ btsnoop_read ex_packet r a2 ReadEnv.ok = (-1, r, a2)
        ∧ 0 ≤ r.btsnoop_fd := by
  have h := capture_roundtrip ex_packet State.init 3 4 [ex_frame 1, ex_frame 2] ex_out ReadEnv.ok
    (by decide) (by decide) (by decide) (by decide)
  obtain ⟨h1, _, r, a2, h3, h4, h5, _⟩ := h
  exact ⟨h1, by decide, r, a2, h3, h4, h5⟩

/-- C23 fails as stated: a single frame stamped second 18447690758510,
microsecond 0 (seconds not below 946684800, microseconds in range, empty
payload) is written and read back through a capture with second 946684800 and
microsecond 448384, the stamp having wrapped modulo `2^64`. -/
theorem capture_roundtrip_fails_far_future :
    (946684800 : Int) ≤ 18447690758510
    ∧ (btsnoop_open (capture ex_packet State.init 3 [⟨⟨18447690758510, 0⟩, 1, 2, []⟩])
        (some (4, (capture ex_packet State.init 3 [⟨⟨18447690758510, 0⟩, 1, 2, []⟩]).file))
        false).1 = 0
    ∧ (read_frames ex_packet ReadEnv.ok 1
        (btsnoop_open (capture ex_packet State.init 3 [⟨⟨18447690758510, 0⟩, 1, 2, []⟩])
          (some (4, (capture ex_packet State.init 3 [⟨⟨18447690758510, 0⟩, 1, 2, []⟩]).file))
          false).2 ex_out).map (fun x => x.1)
      = some [⟨⟨946684800, 448384⟩, 1, 2, []⟩] := by
  decide

end Btsnoop

namespace Monitor

open Btsnoop

/-! ## The index table -/

theorem printf_index_list (m : Mon) (s : String) : (m.printf s).index_list = m.index_list := rfl

theorem dump_index_list (m : Mon) (buf : List Byte) (len : Nat) :
    (m.dump buf len).index_list = m.index_list := rfl

theorem print_stamp_index_list (L : Lib) (m : Mon) (index : Nat) (tv : Option Timeval) :
    (print_stamp L m index tv).index_list = m.index_list := by
  unfold print_stamp
  cases tv with
  | none =>
    simp only []
    split <;> rfl
  | some tv =>
    simp only []
    repeat' split
    all_goals rfl

theorem process_del_index_index_list (L : Lib) (m : Mon) (index len : Nat) :
    (process_del_index L m index len).index_list = m.index_list := by
  unfold process_del_index
  split <;> rfl

theorem process_command_pkt_index_list (L : Lib) (m : Mon) (len : Nat) (buf : List Byte) :
    (process_command_pkt L m len buf).index_list = m.index_list := by
  unfold process_command_pkt
  simp only []
  split <;> rfl

theorem process_event_pkt_index_list (L : Lib) (m : Mon) (len : Nat) (buf : List Byte) :
    (process_event_pkt L m len buf).index_list = m.index_list := by
  unfold process_event_pkt
  simp only []
  split <;> rfl

theorem process_acldata_pkt_index_list (L : Lib) (m : Mon) (inp : Bool) (len : Nat)
    (buf : List Byte) : (process_acldata_pkt L m inp len buf).index_list = m.index_list := by
  unfold process_acldata_pkt
  simp only []
  repeat' split
  all_goals rfl

theorem process_scodata_pkt_index_list (L : Lib) (m : Mon) (inp : Bool) (len : Nat)
    (buf : List Byte) : (process_scodata_pkt L m inp len buf).index_list = m.index_list := by
  unfold process_scodata_pkt
  simp only []
  repeat' split
  all_goals rfl

/-- Every branch of the `switch` but the first leaves the table alone. -/
theorem monitor_switch_index_list (L : Lib) (m : Mon) (opcode index pktlen : Nat)
    (buf : List Byte) (h : opcode ≠ MONITOR_NEW_INDEX) :
    (monitor_switch L m opcode index pktlen buf).index_list = m.index_list := by
  unfold monitor_switch
  rw [if_neg h]
  repeat' split
  · exact process_del_index_index_list L m index pktlen
  · exact process_command_pkt_index_list L m pktlen buf
  · exact process_event_pkt_index_list L m pktlen buf
  · exact process_acldata_pkt_index_list L m false pktlen buf
  · exact process_acldata_pkt_index_list L m true pktlen buf
  · exact process_scodata_pkt_index_list L m false pktlen buf
  · exact process_scodata_pkt_index_list L m true pktlen buf
  · rfl

theorem mem_read_append (payload rest : List Byte) :
    mem_read (payload ++ rest) payload.length = payload := by
  apply List.ext_getElem
  · simp [mem_read]
  · intro i h1 h2
    simp only [mem_read, List.length_map, List.length_range] at h1
    simp [mem_read, List.getD_eq_getElem?_getD, List.getElem?_append_left h1,
      List.getElem?_eq_getElem h1]

/-- C19: for a new-index announcement of declared length 16, when `index < 16`
`process_new_index` puts the 16 payload bytes into slot `index` of the table and
leaves every other slot as it was; when `index >= 16` it prints the same
announcement line and leaves the table as it was. With any other opcode, and when
nothing is received, `process_monitor` leaves the table as it was. -/
theorem new_index_updates_table (L : Lib) (m : Mon) (index : Nat) (payload rest : List Byte)
    (hp : payload.length = 16) (ht : m.index_list.length = 16) :
    (index < 16 →
      (process_new_index L m index 16 (payload ++ rest)).index_list.getD index [] = payload
      ∧ ∀ j, j ≠ index →
          (process_new_index L m index 16 (payload ++ rest)).index_list.getD j []
            = m.index_list.getD j [])
    ∧ (16 ≤ index →
      (process_new_index L m index 16 (payload ++ rest)).index_list = m.index_list
      ∧ (process_new_index L m index 16 (payload ++ rest)).out
          = (process_new_index L m 0 16 (payload ++ rest)).out
      ∧ (process_new_index L m index 16 (payload ++ rest)).out
          = m.out ++ ["= New Index: " ++ L.ba2str (mem_read ((payload ++ rest).drop 2) 6) ++ " ("
              ++ devtype2str ((payload ++ rest).getD 0 0).val ++ ","
              ++ devbus2str ((payload ++ rest).getD 1 0).val ++ ","
              ++ cstr ((payload ++ rest).drop 8) ++ ")\n"])
    ∧ (∀ r : Recv, (∀ d, r.msg = some d → btohs (load16 (d.take MONITOR_HDR_SIZE) 0)
          ≠ MONITOR_NEW_INDEX) →
        (process_monitor L m r).index_list = m.index_list) := by
  have hmr : mem_read (payload ++ rest) MONITOR_NEW_INDEX_SIZE = payload := by
    have := mem_read_append payload rest
    rw [hp] at this
    exact this
  have hsz : ¬ ((16 : Nat) ≠ MONITOR_NEW_INDEX_SIZE) := by decide
  refine ⟨?_, ?_, ?_⟩
  · intro hi
    have hmax : index < MAX_INDEX := hi
    simp only [process_new_index, if_neg hsz, if_pos hmax, hmr]
    constructor
    · simp [List.getD_eq_getElem?_getD, List.getElem?_set, Mon.printf, ht, hi]
    · intro j hj
      simp [List.getD_eq_getElem?_getD, List.getElem?_set, Mon.printf, Ne.symm hj]
  · intro hi
    have hmax : ¬ (index < MAX_INDEX) := by
      simp only [MAX_INDEX]
      omega
    have hmax0 : (0 : Nat) < MAX_INDEX := by decide
    have e1 : process_new_index L m index 16 (payload ++ rest)
        = m.printf ("= New Index: " ++ L.ba2str (mem_read ((payload ++ rest).drop 2) 6) ++ " ("
              ++ devtype2str ((payload ++ rest).getD 0 0).val ++ ","
              ++ devbus2str ((payload ++ rest).getD 1 0).val ++ ","
              ++ cstr ((payload ++ rest).drop 8) ++ ")\n") := by
      simp only [process_new_index, if_neg hsz, if_neg hmax]
    have e2 : (process_new_index L m 0 16 (payload ++ rest)).out
        = (m.printf ("= New Index: " ++ L.ba2str (mem_read ((payload ++ rest).drop 2) 6) ++ " ("
              ++ devtype2str ((payload ++ rest).getD 0 0).val ++ ","
              ++ devbus2str ((payload ++ rest).getD 1 0).val ++ ","
              ++ cstr ((payload ++ rest).drop 8) ++ ")\n")).out := by
      simp only [process_new_index, if_neg hsz, if_pos hmax0]
    rw [e1, e2]
    exact ⟨rfl, rfl, rfl⟩
  · intro r hr
    unfold process_monitor
    cases hmsg : r.msg with
    | none => rfl
    | some d =>
      simp only []
      split
      · rfl
      · rw [monitor_switch_index_list L _ _ _ _ _ (hr d hmsg), print_stamp_index_list]

/-! ## Received length and declared length -/

theorem drop_take_length (S : List Byte) (k : Nat) : S.drop (S.take k).length = S.drop k := by
  by_cases h : k ≤ S.length
  · rw [List.length_take, Nat.min_eq_left h]
  · have h1 : S.length ≤ k := by omega
    rw [List.length_take, Nat.min_eq_right h1, List.drop_length, List.drop_eq_nil_of_le h1]

/-- Receiving again what already lies in the buffer leaves the buffer as it is. -/
theorem fill_take_fill (stack p : List Byte) (n : Nat) (h : p.length ≤ n) :
    fill stack ((fill stack p).take n) = fill stack p := by
  have e1 : (fill stack p).take n = p ++ (stack.drop p.length).take (n - p.length) := by
    simp only [fill]
    rw [List.take_append_eq_append_take, List.take_of_length_le h]
  rw [e1]
  simp only [fill, List.length_append, List.append_assoc]
  congr 1
  rw [← List.drop_drop, drop_take_length, List.take_append_drop]

/-- C20, as the code has it: `process_monitor` discards a message, with no output
and no change of the table, when `recvmsg` fails or delivers fewer than the 6
header bytes. It does not compare the declared length with the received length: a
message with a payload of at most 4096 bytes is handled exactly as the message
whose payload goes on with the bytes that lay in the buffer after it. -/
theorem process_monitor_length_handling (L : Lib) (m : Mon) :
    (∀ r : Recv, (∀ d, r.msg = some d → d.length < 6) → process_monitor L m r = m)
    ∧ (∀ (hdr p stack : List Byte) (tv : Option Timeval), hdr.length = 6 → p.length ≤ 4096 →
        process_monitor L m { msg := some (hdr ++ p), tv := tv, stack := stack }
          = process_monitor L m
              { msg := some (hdr ++ (fill stack p).take 4096), tv := tv, stack := stack }) := by
  constructor
  · intro r hr
    unfold process_monitor
    cases hmsg : r.msg with
    | none => rfl
    | some d =>
      have hd := hr d hmsg
      have hlt : recv_len d < MONITOR_HDR_SIZE := by
        simp only [recv_len, MONITOR_HDR_SIZE, BUF_SIZE]
        omega
      simp only [if_pos hlt]
  · intro hdr p stack tv hh hp
    have l1 : ¬ (recv_len (hdr ++ p) < MONITOR_HDR_SIZE) := by
      simp only [recv_len, MONITOR_HDR_SIZE, BUF_SIZE, List.length_append]
      omega
    have l2 : ¬ (recv_len (hdr ++ (fill stack p).take 4096) < MONITOR_HDR_SIZE) := by
      simp only [recv_len, MONITOR_HDR_SIZE, BUF_SIZE, List.length_append]
      omega
    have t1 : (hdr ++ p).take MONITOR_HDR_SIZE = hdr := by
      simp only [MONITOR_HDR_SIZE]
      exact List.take_left' hh
    have t2 : (hdr ++ (fill stack p).take 4096).take MONITOR_HDR_SIZE = hdr := by
      simp only [MONITOR_HDR_SIZE]
      exact List.take_left' hh
    have b1 : recv_buf { msg := some (hdr ++ p), tv := tv, stack := stack } (hdr ++ p)
        = fill stack p := by
      simp only [recv_buf, MONITOR_HDR_SIZE, BUF_SIZE]
      rw [List.drop_left' hh, List.take_of_length_le hp]
    have b2 : recv_buf { msg := some (hdr ++ (fill stack p).take 4096), tv := tv, stack := stack }
        (hdr ++ (fill stack p).take 4096) = fill stack p := by
      simp only [recv_buf, MONITOR_HDR_SIZE, BUF_SIZE]
      rw [List.drop_left' hh, List.take_take, Nat.min_self, fill_take_fill stack p 4096 hp]
    simp only [process_monitor, if_neg l1, if_neg l2, t1, t2, b1, b2]

/-- C20 on a message of three bytes, and on the header-only message
`ex_short_new_index`, which is handled as if the 16 bytes in the buffer had come
with it. -/
theorem process_monitor_length_handling_witness :
    process_monitor ex_lib Mon.init { msg := some [0, 0, 0], tv := none, stack := ex_announce }
        = Mon.init
    ∧ process_monitor ex_lib Mon.init ex_short_new_index
        = process_monitor ex_lib Mon.init
            { msg := some ([0, 0, 0, 0, 16, 0] ++ ex_announce), tv := none, stack := ex_announce } :=
  ⟨(process_monitor_length_handling ex_lib Mon.init).1
      { msg := some [0, 0, 0], tv := none, stack := ex_announce }
      (fun d hd => by
        have e : d = [0, 0, 0] := (Option.some.inj hd).symm
        rw [e]
        decide),
    (process_monitor_length_handling ex_lib Mon.init).2 [0, 0, 0, 0, 16, 0] [] ex_announce none
      (by decide) (by decide)⟩

/-- C20 fails as stated: a message of the six header bytes alone that declares a
new index for slot 0 with 16 bytes of payload is not discarded. `process_monitor`
prints an announcement made from the 16 bytes that lay in the buffer and copies
them into slot 0 of the table. -/
theorem short_message_not_discarded :
    ex_short_new_index.msg = some [0, 0, 0, 0, 16, 0]
    ∧ (process_monitor ex_lib Mon.init ex_short_new_index).out
        = ["= New Index: 66:55:44:33:22:11 (AMP,USB,oldname)\n"]
    ∧ (process_monitor ex_lib Mon.init ex_short_new_index).index_list.getD 0 [] = ex_announce
    ∧ (process_monitor ex_lib Mon.init ex_short_new_index).index_list ≠ Mon.init.index_list := by
  decide

/-- C19 on an announcement for slot 3 and one for slot 20, and on a command
message. -/
theorem new_index_updates_table_witness :
    ((process_new_index ex_lib Mon.init 3 16 (ex_announce ++ [])).index_list.getD 3 []
        = ex_announce
      ∧ (process_new_index ex_lib Mon.init 3 16 (ex_announce ++ [])).index_list.getD 4 []
        = Mon.init.index_list.getD 4 [])
    ∧ ((process_new_index ex_lib Mon.init 20 16 (ex_announce ++ [])).index_list
        = Mon.init.index_list
      ∧ (process_new_index ex_lib Mon.init 20 16 (ex_announce ++ [])).out
        = ["= New Index: 66:55:44:33:22:11 (AMP,USB,oldname)\n"])
    ∧ (process_monitor ex_lib Mon.init
        { msg := some [2, 0, 1, 0, 4, 0, 3, 0x0c, 1, 0x41], tv := none, stack := [] }).index_list
        = Mon.init.index_list :=
  ⟨⟨((new_index_updates_table ex_lib Mon.init 3 ex_announce [] (by decide) (by decide)).1
        (by decide)).1,
      ((new_index_updates_table ex_lib Mon.init 3 ex_announce [] (by decide) (by decide)).1
        (by decide)).2 4 (by decide)⟩,
    ⟨((new_index_updates_table ex_lib Mon.init 20 ex_announce [] (by decide) (by decide)).2.1
        (by decide)).1,
      (((new_index_updates_table ex_lib Mon.init 20 ex_announce [] (by decide) (by decide)).2.1
        (by decide)).2.2).trans (by decide)⟩,
    (new_index_updates_table ex_lib Mon.init 0 ex_announce [] (by decide) (by decide)).2.2
      { msg := some [2, 0, 1, 0, 4, 0, 3, 0x0c, 1, 0x41], tv := none, stack := [] }
      (fun d hd => by
        have e : d = [2, 0, 1, 0, 4, 0, 3, 0x0c, 1, 0x41] := (Option.some.inj hd).symm
        rw [e]
        decide)⟩

/-! ## Malformed records and routing -/

/-- C21: when the declared length does not fit the fixed header of the type
(new index: not 16; delete index: not 0; command: below 3; event: below 2; ACL
data: below 4; SCO data: below 3), the handler returns with one more line of
output, the matching `* Malformed ...` report, and nothing else changed: no
`hexdump`, the index table and the filter as before. -/
theorem malformed_length_report (L : Lib) (m : Mon) (index len : Nat) (inp : Bool)
    (buf : List Byte) :
    (len ≠ 16 → process_new_index L m index len buf
        = { m with out := m.out ++ ["* Malformed New Index packet\n"] })
    ∧ (len ≠ 0 → process_del_index L m index len
        = { m with out := m.out ++ ["* Malformed Delete Index packet\n"] })
    ∧ (len < 3 → process_command_pkt L m len buf
        = { m with out := m.out ++ ["* Malformed HCI Command packet\n"] })
    ∧ (len < 2 → process_event_pkt L m len buf
        = { m with out := m.out ++ ["* Malformed HCI Event packet\n"] })
    ∧ (len < 4 → process_acldata_pkt L m inp len buf
        = { m with out := m.out
              ++ ["* Malformed ACL Data " ++ (if inp = true then "RX" else "TX") ++ " packet\n"] })
    ∧ (len < 3 → process_scodata_pkt L m inp len buf
        = { m with out := m.out
              ++ ["* Malformed SCO Data " ++ (if inp = true then "RX" else "TX") ++ " packet\n"] })
    := by
  refine ⟨?_, ?_, ?_, ?_, ?_, ?_⟩
  · intro h
    have h1 : len ≠ MONITOR_NEW_INDEX_SIZE := h
    simp only [process_new_index, if_pos h1, Mon.printf]
  · intro h
    have h1 : len ≠ MONITOR_DEL_INDEX_SIZE := h
    simp only [process_del_index, if_pos h1, Mon.printf]
  · intro h
    have h1 : len < HCI_COMMAND_HDR_SIZE := h
    simp only [process_command_pkt, if_pos h1, Mon.printf]
  · intro h
    have h1 : len < HCI_EVENT_HDR_SIZE := h
    simp only [process_event_pkt, if_pos h1, Mon.printf]
  · intro h
    have h1 : len < HCI_ACL_HDR_SIZE := h
    simp only [process_acldata_pkt, if_pos h1, Mon.printf]
  · intro h
    have h1 : len < HCI_SCO_HDR_SIZE := h
    simp only [process_scodata_pkt, if_pos h1, Mon.printf]

/-- C21 on lengths 15, 1, 2, 1, 3 and 2 for the six handlers. -/
theorem malformed_length_report_witness :
    process_new_index ex_lib Mon.init 0 15 ex_announce
        = { Mon.init with out := ["* Malformed New Index packet\n"] }
    ∧ process_del_index ex_lib Mon.init 0 1
        = { Mon.init with out := ["* Malformed Delete Index packet\n"] }
    ∧ process_command_pkt ex_lib Mon.init 2 ex_announce
        = { Mon.init with out := ["* Malformed HCI Command packet\n"] }
    ∧ process_event_pkt ex_lib Mon.init 1 ex_announce
        = { Mon.init with out := ["* Malformed HCI Event packet\n"] }
    ∧ process_acldata_pkt ex_lib Mon.init true 3 ex_announce
        = { Mon.init with out := ["* Malformed ACL Data RX packet\n"] }
    ∧ process_scodata_pkt ex_lib Mon.init false 2 ex_announce
        = { Mon.init with out := ["* Malformed SCO Data TX packet\n"] } :=
  ⟨(malformed_length_report ex_lib Mon.init 0 15 true ex_announce).1 (by decide),
    (malformed_length_report ex_lib Mon.init 0 1 true ex_announce).2.1 (by decide),
    (malformed_length_report ex_lib Mon.init 0 2 true ex_announce).2.2.1 (by decide),
    (malformed_length_report ex_lib Mon.init 0 1 true ex_announce).2.2.2.1 (by decide),
    (malformed_length_report ex_lib Mon.init 0 3 true ex_announce).2.2.2.2.1 (by decide),
    (malformed_length_report ex_lib Mon.init 0 2 false ex_announce).2.2.2.2.2 (by decide)⟩

theorem load16_take (d : List Byte) (i : Nat) (h : i + 2 ≤ MONITOR_HDR_SIZE) :
    btohs (load16 (d.take MONITOR_HDR_SIZE) i) = msg_field d i := by
  simp only [btohs, load16, msg_field]
  rw [getD_take _ _ _ (by omega), getD_take _ _ _ (by omega)]

/-- The function `process_monitor` on a message of at least 6 bytes: the stamp,
then the `switch` on the little-endian header fields. -/
theorem process_monitor_eq (L : Lib) (m : Mon) (r : Recv) (d : List Byte)
    (hmsg : r.msg = some d) (hlen : 6 ≤ d.length) :
    process_monitor L m r
      = monitor_switch L (print_stamp L m (msg_field d 2) r.tv) (msg_field d 0) (msg_field d 2)
          (msg_field d 4) (recv_buf r d) := by
  have l1 : ¬ (recv_len d < MONITOR_HDR_SIZE) := by
    simp only [recv_len, MONITOR_HDR_SIZE, BUF_SIZE]
    omega
  simp only [process_monitor, hmsg, if_neg l1]
  rw [load16_take d 0 (by decide), load16_take d 2 (by decide), load16_take d 4 (by decide)]

/-- C22: a received message of at least 6 bytes is routed by its little-endian
opcode: 0 to `process_new_index`, 1 to `process_del_index`, 2 to
`process_command_pkt`, 3 to `process_event_pkt`, 4 and 5 to `process_acldata_pkt`
(tx, rx), 6 and 7 to `process_scodata_pkt` (tx, rx), each with the declared
length, after the index and time stamp are printed; every other opcode gives the
`* Unknown packet` line and then the `hexdump` of the declared length. -/
theorem process_monitor_routes (L : Lib) (m : Mon) (r : Recv) (d : List Byte)
    (hmsg : r.msg = some d) (hlen : 6 ≤ d.length) :
    (msg_field d 0 = 0 → process_monitor L m r
      = process_new_index L (print_stamp L m (msg_field d 2) r.tv) (msg_field d 2)
          (msg_field d 4) (recv_buf r d))
    ∧ (msg_field d 0 = 1 → process_monitor L m r
      = process_del_index L (print_stamp L m (msg_field d 2) r.tv) (msg_field d 2)
          (msg_field d 4))
    ∧ (msg_field d 0 = 2 → process_monitor L m r
      = process_command_pkt L (print_stamp L m (msg_field d 2) r.tv) (msg_field d 4)
          (recv_buf r d))
    ∧ (msg_field d 0 = 3 → process_monitor L m r
      = process_event_pkt L (print_stamp L m (msg_field d 2) r.tv) (msg_field d 4)
          (recv_buf r d))
    ∧ (msg_field d 0 = 4 → process_monitor L m r
      = process_acldata_pkt L (print_stamp L m (msg_field d 2) r.tv) false (msg_field d 4)
          (recv_buf r d))
    ∧ (msg_field d 0 = 5 → process_monitor L m r
      = process_acldata_pkt L (print_stamp L m (msg_field d 2) r.tv) true (msg_field d 4)
          (recv_buf r d))
    ∧ (msg_field d 0 = 6 → process_monitor L m r
      = process_scodata_pkt L (print_stamp L m (msg_field d 2) r.tv) false (msg_field d 4)
          (recv_buf r d))
    ∧ (msg_field d 0 = 7 → process_monitor L m r
      = process_scodata_pkt L (print_stamp L m (msg_field d 2) r.tv) true (msg_field d 4)
          (recv_buf r d))
    ∧ (8 ≤ msg_field d 0 → process_monitor L m r
      = { print_stamp L m (msg_field d 2) r.tv with
            out := (print_stamp L m (msg_field d 2) r.tv).out
              ++ ["* Unknown packet (code " ++ fmt_d (msg_field d 0) ++ " len "
                    ++ fmt_d (msg_field d 4) ++ ")\n"]
              ++ hexdump (recv_buf r d) (msg_field d 4) }) := by
  rw [process_monitor_eq L m r d hmsg hlen]
  refine ⟨?_, ?_, ?_, ?_, ?_, ?_, ?_, ?_, ?_⟩
  · intro h
    simp [monitor_switch, h, MONITOR_NEW_INDEX]
  · intro h
    simp [monitor_switch, h, MONITOR_NEW_INDEX, MONITOR_DEL_INDEX]
  · intro h
    simp [monitor_switch, h, MONITOR_NEW_INDEX, MONITOR_DEL_INDEX, MONITOR_COMMAND_PKT]
  · intro h
    simp [monitor_switch, h, MONITOR_NEW_INDEX, MONITOR_DEL_INDEX, MONITOR_COMMAND_PKT,
      MONITOR_EVENT_PKT]
  · intro h
    simp [monitor_switch, h, MONITOR_NEW_INDEX, MONITOR_DEL_INDEX, MONITOR_COMMAND_PKT,
      MONITOR_EVENT_PKT, MONITOR_ACL_TX_PKT]
  · intro h
    simp [monitor_switch, h, MONITOR_NEW_INDEX, MONITOR_DEL_INDEX, MONITOR_COMMAND_PKT,
      MONITOR_EVENT_PKT, MONITOR_ACL_TX_PKT, MONITOR_ACL_RX_PKT]
  · intro h
    simp [monitor_switch, h, MONITOR_NEW_INDEX, MONITOR_DEL_INDEX, MONITOR_COMMAND_PKT,
      MONITOR_EVENT_PKT, MONITOR_ACL_TX_PKT, MONITOR_ACL_RX_PKT, MONITOR_SCO_TX_PKT]
  · intro h
    simp [monitor_switch, h, MONITOR_NEW_INDEX, MONITOR_DEL_INDEX, MONITOR_COMMAND_PKT,
      MONITOR_EVENT_PKT, MONITOR_ACL_TX_PKT, MONITOR_ACL_RX_PKT, MONITOR_SCO_TX_PKT,
      MONITOR_SCO_RX_PKT]
  · intro h
    have n0 : ¬ (msg_field d 0 = MONITOR_NEW_INDEX) := by simp only [MONITOR_NEW_INDEX]; omega
    have n1 : ¬ (msg_field d 0 = MONITOR_DEL_INDEX) := by simp only [MONITOR_DEL_INDEX]; omega
    have n2 : ¬ (msg_field d 0 = MONITOR_COMMAND_PKT) := by
      simp only [MONITOR_COMMAND_PKT]; omega
    have n3 : ¬ (msg_field d 0 = MONITOR_EVENT_PKT) := by simp only [MONITOR_EVENT_PKT]; omega
    have n4 : ¬ (msg_field d 0 = MONITOR_ACL_TX_PKT) := by simp only [MONITOR_ACL_TX_PKT]; omega
    have n5 : ¬ (msg_field d 0 = MONITOR_ACL_RX_PKT) := by simp only [MONITOR_ACL_RX_PKT]; omega
    have n6 : ¬ (msg_field d 0 = MONITOR_SCO_TX_PKT) := by simp only [MONITOR_SCO_TX_PKT]; omega
    have n7 : ¬ (msg_field d 0 = MONITOR_SCO_RX_PKT) := by simp only [MONITOR_SCO_RX_PKT]; omega
    simp only [monitor_switch, if_neg n0, if_neg n1, if_neg n2, if_neg n3, if_neg n4, if_neg n5,
      if_neg n6, if_neg n7, Mon.dump, Mon.printf]

/-- C22 on a command message (opcode 2) and on a message with opcode 9. -/
theorem process_monitor_routes_witness :
    process_monitor ex_lib Mon.init
        { msg := some [2, 0, 1, 0, 4, 0, 3, 0x0c, 1, 0x41], tv := none, stack := [] }
      = process_command_pkt ex_lib Mon.init 4 [3, 0x0c, 1, 0x41]
    ∧ (process_monitor ex_lib Mon.init
        { msg := some [9, 0, 1, 0, 2, 0, 0x41, 0x42], tv := none, stack := [] }).out
      = ["* Unknown packet (code 9 len 2)\n",
         "            41 42                                            AB              \n"] :=
  ⟨((process_monitor_routes ex_lib Mon.init
        { msg := some [2, 0, 1, 0, 4, 0, 3, 0x0c, 1, 0x41], tv := none, stack := [] }
        [2, 0, 1, 0, 4, 0, 3, 0x0c, 1, 0x41] rfl (by decide)).2.2.1 (by decide)).trans
      (by decide),
    (congrArg Mon.out ((process_monitor_routes ex_lib Mon.init
        { msg := some [9, 0, 1, 0, 2, 0, 0x41, 0x42], tv := none, stack := [] }
        [9, 0, 1, 0, 2, 0, 0x41, 0x42] rfl (by decide)).2.2.2.2.2.2.2.2 (by decide))).trans
      (by decide)⟩

/-! ## `hexdump` -/

theorem getD_set (l : List Char) (j p : Nat) (c d : Char) :
    (l.set j c).getD p d = if p = j ∧ j < l.length then c else l.getD p d := by
  simp only [List.getD_eq_getElem?_getD, List.getElem?_set]
  by_cases h : j = p
  · subst h
    by_cases h2 : j < l.length
    · simp [h2]
    · simp [h2, List.getElem?_eq_none (Nat.le_of_not_lt h2)]
  · have h3 : ¬ (p = j) := fun e => h e.symm
    simp [h, h3]

theorem put_str (st : HexState) (j : Nat) (c : Char) : (st.put j c).str = st.str.set j c := rfl

theorem put_out (st : HexState) (j : Nat) (c : Char) : (st.put j c).out = st.out := rfl

theorem put_writes (st : HexState) (j : Nat) (c : Char) :
    (st.put j c).writes = j :: st.writes := rfl

theorem takeWhile_append_stop (p : Char → Bool) (A B : List Char) (a : Char)
    (hA : ∀ x ∈ A, p x = true) (ha : p a = false) : (A ++ a :: B).takeWhile p = A := by
  induction A with
  | nil => simp [List.takeWhile, ha]
  | cons x xs ih =>
    have hx : p x = true := hA x (List.mem_cons_self x xs)
    have hxs : ∀ y ∈ xs, p y = true := fun y hy => hA y (List.mem_cons_of_mem x hy)
    simp [List.takeWhile, hx, ih hxs]

theorem hexdigit_ne_nul (k : Nat) (h : k < 16) :
    hexdigits.getD k (Char.ofNat 0) ≠ Char.ofNat 0 := by
  interval_cases k <;> decide

theorem hex_hi_ne_nul (b : Byte) : hex_hi b ≠ Char.ofNat 0 := by
  apply hexdigit_ne_nul
  have := b.isLt
  simp only [Nat.shiftRight_eq_div_pow]
  omega

theorem hex_lo_ne_nul (b : Byte) : hex_lo b ≠ Char.ofNat 0 := by
  apply hexdigit_ne_nul
  have h : b.val &&& 0xf = b.val % 16 := Nat.and_pow_two_sub_one_eq_mod b.val 4
  rw [h]
  omega

set_option maxRecDepth 100000 in
theorem hex_asc_ne_nul : ∀ b : Byte, hex_asc b ≠ Char.ofNat 0 := by
  decide

theorem line_char_ne_nul (buf : List Byte) (len k p : Nat) :
    line_char buf len k p ≠ Char.ofNat 0 := by
  have hsp : Char.ofNat 32 ≠ Char.ofNat 0 := by decide
  unfold line_char
  repeat' split
  all_goals first
    | exact hsp
    | exact hex_hi_ne_nul _
    | exact hex_lo_ne_nul _
    | exact hex_asc_ne_nul _

/-- What `%s` prints of a line buffer that holds line `k` in its first 65 places
and a NUL after them. -/
theorem takeWhile_line (buf : List Byte) (len k : Nat) (str : List Char)
    (hl : str.length = 68)
    (hc : ∀ p, p < 65 → str.getD p (Char.ofNat 0) = line_char buf len k p)
    (h65 : str.getD 65 (Char.ofNat 0) = Char.ofNat 0) :
    str.takeWhile (fun c => c ≠ Char.ofNat 0) = hex_line buf len k := by
  have hsplit : str = str.take 65 ++ str.drop 65 := (List.take_append_drop 65 str).symm
  have htake : str.take 65 = hex_line buf len k := by
    apply List.ext_getElem
    · simp [hex_line, hl]
    · intro p h1 h2
      have hp : p < 65 := by
        simp only [hex_line, List.length_map, List.length_range] at h2
        exact h2
      have hps : p < str.length := by omega
      have := hc p hp
      rw [List.getD_eq_getElem _ _ hps] at this
      simp [hex_line, List.getElem_take, this]
  have hdrop : str.drop 65 = Char.ofNat 0 :: str.drop 66 := by
    have h65s : 65 < str.length := by omega
    rw [List.drop_eq_getElem_cons h65s]
    rw [List.getD_eq_getElem _ _ h65s] at h65
    rw [h65]
  rw [hsplit, hdrop, htake]
  apply takeWhile_append_stop
  · intro x hx
    simp only [hex_line, List.mem_map, List.mem_range] at hx
    obtain ⟨p, _, rfl⟩ := hx
    simpa using line_char_ne_nul buf len k p
  · simp

/-- Writing the four characters of column `j` extends the columns in place. -/
theorem cols_extend (buf : List Byte) (len : Nat) (st : HexState) (k j : Nat)
    (c0 c1 c2 c3 : Char) (hl : st.str.length = 68) (hj : j < 16) (hc : Cols buf len st k j)
    (e0 : c0 = line_char buf len k (j * 3 + 0)) (e1 : c1 = line_char buf len k (j * 3 + 1))
    (e2 : c2 = line_char buf len k (j * 3 + 2)) (e3 : c3 = line_char buf len k (j + 49)) :
    Cols buf len ((((st.put (j * 3 + 0) c0).put (j * 3 + 1) c1).put (j * 3 + 2) c2).put
      (j + 49) c3) k (j + 1) := by
  intro p hp h48 hcol
  simp only [put_str, getD_set, List.length_set, hl]
  by_cases h3 : p = j + 49
  · rw [if_pos ⟨h3, by omega⟩, e3, h3]
  · rw [if_neg (fun h => h3 h.1)]
    by_cases h2 : p = j * 3 + 2
    · rw [if_pos ⟨h2, by omega⟩, e2, h2]
    · rw [if_neg (fun h => h2 h.1)]
      by_cases h1 : p = j * 3 + 1
      · rw [if_pos ⟨h1, by omega⟩, e1, h1]
      · rw [if_neg (fun h => h1 h.1)]
        by_cases h0 : p = j * 3 + 0
        · rw [if_pos ⟨h0, by omega⟩, e0, h0]
        · rw [if_neg (fun h => h0 h.1)]
          apply hc p hp h48
          split at hcol
          · rw [if_pos (by assumption)]
            omega
          · rw [if_neg (by assumption)]
            omega

theorem put_length (st : HexState) (j : Nat) (c : Char) :
    (st.put j c).str.length = st.str.length := by
  simp [put_str]

theorem put_writes_lt (st : HexState) (j : Nat) (c : Char) (hj : j < 68)
    (hw : ∀ w ∈ st.writes, w < 68) : ∀ w ∈ (st.put j c).writes, w < 68 := by
  intro w hmem
  rw [put_writes] at hmem
  rcases List.mem_cons.mp hmem with h | h
  · omega
  · exact hw w h

theorem line_char_hi (buf : List Byte) (len i : Nat) (hi : i < len) :
    line_char buf len (i / 16) ((i % 16) * 3 + 0) = hex_hi (buf.getD i 0) := by
  have a1 : (i % 16) * 3 + 0 < 48 := by omega
  have a2 : ((i % 16) * 3 + 0) / 3 = i % 16 := by omega
  have a3 : i % 16 < len - 16 * (i / 16) := by omega
  have a4 : ((i % 16) * 3 + 0) % 3 = 0 := by omega
  have a5 : 16 * (i / 16) + i % 16 = i := by omega
  simp only [line_char, if_pos a1, a2, if_pos a3, a4, if_true, a5]

theorem line_char_lo (buf : List Byte) (len i : Nat) (hi : i < len) :
    line_char buf len (i / 16) ((i % 16) * 3 + 1) = hex_lo (buf.getD i 0) := by
  have a1 : (i % 16) * 3 + 1 < 48 := by omega
  have a2 : ((i % 16) * 3 + 1) / 3 = i % 16 := by omega
  have a3 : i % 16 < len - 16 * (i / 16) := by omega
  have a4 : ((i % 16) * 3 + 1) % 3 = 1 := by omega
  have a5 : 16 * (i / 16) + i % 16 = i := by omega
  have a6 : ¬ ((1 : Nat) = 0) := by decide
  simp only [line_char, if_pos a1, a2, if_pos a3, a4, if_neg a6, if_true, a5]

theorem line_char_gap (buf : List Byte) (len k j : Nat) (hj : j < 16) :
    line_char buf len k (j * 3 + 2) = Char.ofNat 32 := by
  have a1 : j * 3 + 2 < 48 := by omega
  have a4 : (j * 3 + 2) % 3 = 2 := by omega
  have a6 : ¬ ((2 : Nat) = 0) := by decide
  have a7 : ¬ ((2 : Nat) = 1) := by decide
  simp only [line_char, if_pos a1, a4, if_neg a6, if_neg a7, ite_self]

theorem line_char_asc (buf : List Byte) (len i : Nat) (hi : i < len) :
    line_char buf len (i / 16) (i % 16 + 49) = hex_asc (buf.getD i 0) := by
  have a1 : ¬ (i % 16 + 49 < 48) := by omega
  have a2 : ¬ (i % 16 + 49 = 48) := by omega
  have a3 : i % 16 + 49 - 49 < len - 16 * (i / 16) := by omega
  have a4 : i % 16 + 49 - 49 = i % 16 := by omega
  have a5 : 16 * (i / 16) + i % 16 = i := by omega
  have a6 : i % 16 < len - 16 * (i / 16) := by omega
  simp only [line_char, if_neg a1, if_neg a2, a4, if_pos a6, a5]

/-- The columns beyond the last byte of a line are blank. -/
theorem line_char_blank (buf : List Byte) (len k j : Nat) (hj : j < 16)
    (hn : len - 16 * k ≤ j) :
    line_char buf len k (j * 3 + 0) = Char.ofNat 32
    ∧ line_char buf len k (j * 3 + 1) = Char.ofNat 32
    ∧ line_char buf len k (j + 49) = Char.ofNat 32 := by
  refine ⟨?_, ?_, ?_⟩
  · have a1 : j * 3 + 0 < 48 := by omega
    have a3 : ¬ ((j * 3 + 0) / 3 < len - 16 * k) := by omega
    simp only [line_char, if_pos a1, if_neg a3]
  · have a1 : j * 3 + 1 < 48 := by omega
    have a3 : ¬ ((j * 3 + 1) / 3 < len - 16 * k) := by omega
    simp only [line_char, if_pos a1, if_neg a3]
  · have a1 : ¬ (j + 49 < 48) := by omega
    have a2 : ¬ (j + 49 = 48) := by omega
    have a3 : ¬ (j + 49 - 49 < len - 16 * k) := by omega
    simp only [line_char, if_neg a1, if_neg a2, if_neg a3]

/-- The end of a line: with all 16 columns in place, `flush` prints line `k`. -/
theorem flush_line (buf : List Byte) (len : Nat) (st : HexState) (k : Nat)
    (hl : st.str.length = 68) (hw : ∀ w ∈ st.writes, w < 68) (hc : Cols buf len st k 16) :
    st.flush.str.length = 68
    ∧ st.flush.out = st.out ++ [hex_text buf len k]
    ∧ (∀ w ∈ st.flush.writes, w < 68) := by
  have hstr : st.flush.str
      = ((st.str.set 47 (Char.ofNat 32)).set 48 (Char.ofNat 32)).set 65 (Char.ofNat 0) := rfl
  have hout : st.flush.out = st.out ++
      [String.mk (List.replicate 12 (Char.ofNat 32)
        ++ (((st.str.set 47 (Char.ofNat 32)).set 48 (Char.ofNat 32)).set 65
              (Char.ofNat 0)).takeWhile (fun c => c ≠ Char.ofNat 0) ++ [Char.ofNat 10])] := rfl
  have hwr : st.flush.writes = 65 :: 48 :: 47 :: st.writes := rfl
  have hlen : (((st.str.set 47 (Char.ofNat 32)).set 48 (Char.ofNat 32)).set 65
      (Char.ofNat 0)).length = 68 := by
    simp [hl]
  have htw := takeWhile_line buf len k _ hlen
    (by
      intro p hp
      simp only [getD_set, List.length_set, hl]
      rw [if_neg (fun h => by omega)]
      by_cases h48 : p = 48
      · rw [if_pos ⟨h48, by omega⟩, h48]
        rfl
      · rw [if_neg (fun h => h48 h.1)]
        by_cases h47 : p = 47
        · rw [if_pos ⟨h47, by omega⟩, h47]
          exact (line_char_gap buf len k 15 (by decide)).symm
        · rw [if_neg (fun h => h47 h.1)]
          apply hc p hp h48
          split <;> omega)
    (by
      simp only [getD_set, List.length_set, hl]
      exact if_pos ⟨trivial, by decide⟩)
  refine ⟨by rw [hstr]; exact hlen, ?_, ?_⟩
  · rw [hout, htw]
    rfl
  · intro w hmem
    rw [hwr] at hmem
    simp only [List.mem_cons] at hmem
    rcases hmem with h | h | h | h
    · omega
    · omega
    · omega
    · exact hw w h

/-- The four writes of one round of the first loop, for the byte `i`. -/
theorem step_puts (buf : List Byte) (len i : Nat) (st : HexState) (hi : i < len)
    (hl : st.str.length = 68) (hw : ∀ w ∈ st.writes, w < 68)
    (hc : Cols buf len st (i / 16) (i % 16)) :
    ((((st.put ((i % 16) * 3 + 0) (hexdigits.getD ((buf.getD i 0).val >>> 4) (Char.ofNat 0))).put
        ((i % 16) * 3 + 1) (hexdigits.getD ((buf.getD i 0).val &&& 0xf) (Char.ofNat 0))).put
        ((i % 16) * 3 + 2) (Char.ofNat 32)).put ((i % 16) + 49)
        (if isprint (buf.getD i 0).val = true then Char.ofNat (buf.getD i 0).val
          else Char.ofNat 46)).str.length = 68
    ∧ ((((st.put ((i % 16) * 3 + 0) (hexdigits.getD ((buf.getD i 0).val >>> 4) (Char.ofNat 0))).put
        ((i % 16) * 3 + 1) (hexdigits.getD ((buf.getD i 0).val &&& 0xf) (Char.ofNat 0))).put
        ((i % 16) * 3 + 2) (Char.ofNat 32)).put ((i % 16) + 49)
        (if isprint (buf.getD i 0).val = true then Char.ofNat (buf.getD i 0).val
          else Char.ofNat 46)).out = st.out
    ∧ (∀ w ∈ ((((st.put ((i % 16) * 3 + 0)
          (hexdigits.getD ((buf.getD i 0).val >>> 4) (Char.ofNat 0))).put
        ((i % 16) * 3 + 1) (hexdigits.getD ((buf.getD i 0).val &&& 0xf) (Char.ofNat 0))).put
        ((i % 16) * 3 + 2) (Char.ofNat 32)).put ((i % 16) + 49)
        (if isprint (buf.getD i 0).val = true then Char.ofNat (buf.getD i 0).val
          else Char.ofNat 46)).writes, w < 68)
    ∧ Cols buf len ((((st.put ((i % 16) * 3 + 0)
          (hexdigits.getD ((buf.getD i 0).val >>> 4) (Char.ofNat 0))).put
        ((i % 16) * 3 + 1) (hexdigits.getD ((buf.getD i 0).val &&& 0xf) (Char.ofNat 0))).put
        ((i % 16) * 3 + 2) (Char.ofNat 32)).put ((i % 16) + 49)
        (if isprint (buf.getD i 0).val = true then Char.ofNat (buf.getD i 0).val
          else Char.ofNat 46)) (i / 16) (i % 16 + 1) := by
  have hr : i % 16 < 16 := Nat.mod_lt _ (by decide)
  refine ⟨?_, rfl, ?_, ?_⟩
  · simp only [put_length, hl]
  · apply put_writes_lt _ _ _ (by omega)
    apply put_writes_lt _ _ _ (by omega)
    apply put_writes_lt _ _ _ (by omega)
    exact put_writes_lt _ _ _ (by omega) hw
  · exact cols_extend buf len st (i / 16) (i % 16) _ _ _ _ hl hr hc
      (line_char_hi buf len i hi).symm (line_char_lo buf len i hi).symm
      (line_char_gap buf len (i / 16) (i % 16) hr).symm (line_char_asc buf len i hi).symm

/-- One round of the first loop keeps the invariant. -/
theorem hexdump_step_inv (buf : List Byte) (len i : Nat) (st : HexState) (hi : i < len)
    (h : HexInv buf len i st) : HexInv buf len (i + 1) (hexdump_step buf st i) := by
  obtain ⟨hl, ho, hw, hc⟩ := h
  obtain ⟨p1, p2, p3, p4⟩ := step_puts buf len i st hi hl hw hc
  simp only [hexdump_step]
  by_cases hz : (i + 1) % 16 = 0
  · rw [if_pos hz]
    have hr : i % 16 + 1 = 16 := by omega
    rw [hr] at p4
    obtain ⟨f1, f2, f3⟩ := flush_line buf len _ (i / 16) p1 p3 p4
    have hk : (i + 1) / 16 = i / 16 + 1 := by omega
    refine ⟨?_, ?_, ?_, ?_⟩
    · rw [put_length, f1]
    · rw [put_out, f2, p2, ho, hk, List.range_succ, List.map_append]
      rfl
    · exact put_writes_lt _ _ _ (by decide) f3
    · intro p _ _ hcol
      rw [hz] at hcol
      omega
  · rw [if_neg hz]
    have hk : (i + 1) / 16 = i / 16 := by omega
    have hr : (i + 1) % 16 = i % 16 + 1 := by omega
    refine ⟨p1, ?_, p3, ?_⟩
    · rw [p2, ho, hk]
    · rw [hk, hr]
      exact p4

/-- The first loop of `hexdump` keeps the invariant. -/
theorem hexdump_loop_inv (buf : List Byte) (len : Nat) (str0 : List Char)
    (hl : str0.length = 68) :
    ∀ i, i ≤ len →
      HexInv buf len i ((List.range i).foldl (hexdump_step buf) ⟨str0, [], []⟩) := by
  intro i
  induction i with
  | zero =>
    intro _
    refine ⟨hl, rfl, ?_, ?_⟩
    · intro w hmem
      cases hmem
    · intro p _ _ hcol
      simp at hcol
  | succ i ih =>
    intro hi
    rw [List.range_succ, List.foldl_append]
    exact hexdump_step_inv buf len i _ (by omega) (ih (by omega))

/-- The second loop of `hexdump` blanks the columns after the last byte. -/
theorem hexdump_blank_inv (buf : List Byte) (len k : Nat) :
    ∀ (m j : Nat) (st : HexState), j + m = 16 → len - 16 * k ≤ j → st.str.length = 68 →
      (∀ w ∈ st.writes, w < 68) → Cols buf len st k j →
      ((List.range' j m).foldl hexdump_blank st).str.length = 68
      ∧ ((List.range' j m).foldl hexdump_blank st).out = st.out
      ∧ (∀ w ∈ ((List.range' j m).foldl hexdump_blank st).writes, w < 68)
      ∧ Cols buf len ((List.range' j m).foldl hexdump_blank st) k 16 := by
  intro m
  induction m with
  | zero =>
    intro j st hj _ hl hw hc
    have : j = 16 := by omega
    subst this
    exact ⟨hl, rfl, hw, hc⟩
  | succ m ih =>
    intro j st hj hn hl hw hc
    have hj16 : j < 16 := by omega
    obtain ⟨b0, b1, b3⟩ := line_char_blank buf len k j hj16 hn
    have hc1 : Cols buf len (hexdump_blank st j) k (j + 1) :=
      cols_extend buf len st k j _ _ _ _ hl hj16 hc b0.symm b1.symm
        (line_char_gap buf len k j hj16).symm b3.symm
    have hl1 : (hexdump_blank st j).str.length = 68 := by
      simp only [hexdump_blank, put_length, hl]
    have hw1 : ∀ w ∈ (hexdump_blank st j).writes, w < 68 := by
      simp only [hexdump_blank]
      apply put_writes_lt _ _ _ (by omega)
      apply put_writes_lt _ _ _ (by omega)
      apply put_writes_lt _ _ _ (by omega)
      exact put_writes_lt _ _ _ (by omega) hw
    have ho1 : (hexdump_blank st j).out = st.out := rfl
    obtain ⟨r1, r2, r3, r4⟩ := ih (j + 1) (hexdump_blank st j) (by omega) (by omega) hl1 hw1 hc1
    have hrange : List.range' j (m + 1) = j :: List.range' (j + 1) m := rfl
    rw [hrange, List.foldl_cons]
    exact ⟨r1, r2.trans ho1, r3, r4⟩

/-- The function `hexdump` prints the lines `hex_text`, one per 16 bytes begun, and
writes its line buffer below index 68 only. -/
theorem hexdump_run_lines (str0 : List Char) (buf : List Byte) (len : Nat)
    (hl : str0.length = 68) :
    (hexdump_run str0 buf len).out = (List.range ((len + 15) / 16)).map (hex_text buf len)
    ∧ (∀ w ∈ (hexdump_run str0 buf len).writes, w < 68) := by
  by_cases h0 : len = 0
  · subst h0
    simp only [hexdump_run, if_true]
    refine ⟨rfl, ?_⟩
    intro w hmem
    cases hmem
  · obtain ⟨il, io, iw, ic⟩ := hexdump_loop_inv buf len str0 hl len (Nat.le_refl _)
    simp only [hexdump_run, if_neg h0]
    by_cases hr : len % 16 > 0
    · rw [if_pos hr]
      obtain ⟨r1, r2, r3, r4⟩ := hexdump_blank_inv buf len (len / 16) (16 - len % 16) (len % 16) _
        (by omega) (by omega) il iw ic
      obtain ⟨f1, f2, f3⟩ := flush_line buf len _ (len / 16) r1 r3 r4
      refine ⟨?_, f3⟩
      have hk : (len + 15) / 16 = len / 16 + 1 := by omega
      rw [f2, r2, io, hk, List.range_succ, List.map_append]
      rfl
    · rw [if_neg hr]
      refine ⟨?_, iw⟩
      have hk : (len + 15) / 16 = len / 16 := by omega
      rw [io, hk]

/-- The characters of a line, by column. -/
theorem hex_line_getD (buf : List Byte) (len k p : Nat) (d : Char) (hp : p < 65) :
    (hex_line buf len k).getD p d = line_char buf len k p := by
  simp only [hex_line, List.getD_eq_getElem?_getD]
  rw [List.getElem?_map, List.getElem?_range hp]
  rfl

/-- C26: for every buffer, every length `len` within the buffer and every content
of the 68-character line buffer, `hexdump` prints `ceil(len / 16)` lines (none for
`len = 0`), writes the line buffer at indices below 68 only, and for every `i < len`
line `i / 16` is 12 blanks, then 65 characters, then a newline, where byte `i` shows
as its two lower-case hex digits at columns `3 * (i mod 16)` and `3 * (i mod 16) + 1`
and as its character, or a dot if it is not printable, at column `49 + (i mod 16)`.
The output does not depend on what the line buffer held. -/
theorem hexdump_lines_and_columns (str0 : List Char) (buf : List Byte) (len : Nat)
    (hl : str0.length = 68) (hlen : len ≤ buf.length) :
    (hexdump_run str0 buf len).out.length = (len + 15) / 16
    ∧ (∀ w ∈ (hexdump_run str0 buf len).writes, w < 68)
    ∧ (∀ (i : Nat) (hi : i < len), ∃ cols : List Char,
        (hexdump_run str0 buf len).out.getD (i / 16) ""
          = String.mk (List.replicate 12 (Char.ofNat 32) ++ cols ++ [Char.ofNat 10])
        ∧ cols.length = 65
        ∧ cols.getD (3 * (i % 16)) (Char.ofNat 0)
            = "0123456789abcdef".toList.getD
                ((buf.get ⟨i, Nat.lt_of_lt_of_le hi hlen⟩).val / 16) (Char.ofNat 0)
        ∧ cols.getD (3 * (i % 16) + 1) (Char.ofNat 0)
            = "0123456789abcdef".toList.getD
                ((buf.get ⟨i, Nat.lt_of_lt_of_le hi hlen⟩).val % 16) (Char.ofNat 0)
        ∧ cols.getD (49 + i % 16) (Char.ofNat 0)
            = if 0x20 ≤ (buf.get ⟨i, Nat.lt_of_lt_of_le hi hlen⟩).val
                  ∧ (buf.get ⟨i, Nat.lt_of_lt_of_le hi hlen⟩).val ≤ 0x7e then
                Char.ofNat (buf.get ⟨i, Nat.lt_of_lt_of_le hi hlen⟩).val
              else Char.ofNat 46)
    ∧ hexdump buf len = (hexdump_run str0 buf len).out := by
  obtain ⟨ho, hw⟩ := hexdump_run_lines str0 buf len hl
  obtain ⟨ho2, _⟩ := hexdump_run_lines (List.replicate 68 (Char.ofNat 0)) buf len (by simp)
  refine ⟨?_, hw, ?_, ?_⟩
  · rw [ho]
    simp
  · intro i hi
    have hb : buf.get ⟨i, Nat.lt_of_lt_of_le hi hlen⟩ = buf.getD i 0 :=
      (List.getD_eq_getElem buf 0 (Nat.lt_of_lt_of_le hi hlen)).symm
    rw [hb]
    refine ⟨hex_line buf len (i / 16), ?_, ?_, ?_, ?_, ?_⟩
    · rw [ho]
      have hk : i / 16 < (len + 15) / 16 := by omega
      simp [List.getD_eq_getElem?_getD, hk, hex_text]
    · simp [hex_line]
    · have hp : 3 * (i % 16) < 65 := by omega
      have e : 3 * (i % 16) = (i % 16) * 3 + 0 := by omega
      rw [hex_line_getD buf len _ _ _ hp, e, line_char_hi buf len i hi]
      simp only [hex_hi, hexdigits, Nat.shiftRight_eq_div_pow]
    · have hp : 3 * (i % 16) + 1 < 65 := by omega
      have e : 3 * (i % 16) + 1 = (i % 16) * 3 + 1 := by omega
      rw [hex_line_getD buf len _ _ _ hp, e, line_char_lo buf len i hi]
      have hm : (buf.getD i 0).val &&& 0xf = (buf.getD i 0).val % 16 :=
        Nat.and_pow_two_sub_one_eq_mod _ 4
      simp only [hex_lo, hexdigits, hm]
    · have hp : 49 + i % 16 < 65 := by omega
      have e : 49 + i % 16 = i % 16 + 49 := by omega
      rw [hex_line_getD buf len _ _ _ hp, e, line_char_asc buf len i hi]
      simp only [hex_asc, isprint, decide_eq_true_eq]
  · show (hexdump_run (List.replicate 68 (Char.ofNat 0)) buf len).out = _
    rw [ho, ho2]

/-- C26 on the 16 bytes of `ex_announce` and on their first five. -/
theorem hexdump_lines_and_columns_witness :
    hexdump ex_announce 16
      = ["            01 01 11 22 33 44 55 66 6f 6c 64 6e 61 6d 65 00  ...\"3DUfoldname.\n"]
    ∧ (List.replicate 68 (Char.ofNat 0)).length = 68
    ∧ 5 ≤ ex_announce.length
    ∧ (hexdump_run (List.replicate 68 (Char.ofNat 0)) ex_announce 5).out.length = (5 + 15) / 16
    ∧ (∀ w ∈ (hexdump_run (List.replicate 68 (Char.ofNat 0)) ex_announce 5).writes, w < 68) :=
  ⟨by decide, by decide, by decide,
    (hexdump_lines_and_columns (List.replicate 68 (Char.ofNat 0)) ex_announce 5
      (by decide) (by decide)).1,
    (hexdump_lines_and_columns (List.replicate 68 (Char.ofNat 0)) ex_announce 5
      (by decide) (by decide)).2.1⟩

end Monitor
